import Mathlib

/-!
# DICOM header scanner (`dicom.c`, `dicom.h`)

A shallow embedding of the header-reading core of the DICOM demuxer:
the transfer-syntax table, the element reader and the two scanning passes of
`dicom_read_header`, over an explicit model of the byte source.

Conventions of the embedding.

* Bytes, 16-bit and 32-bit values are natural numbers; every byte taken from
  the stream is reduced modulo 256 when it is read.
* A C function that takes `AVFormatContext *s` and `DICOMContext *d`
  (always `d == s->priv_data`) becomes a function on `AVFormatContext`
  returning its C return value together with the updated context.
* `Run.undefined` stands for behaviour that C leaves undefined: indexing
  `dicom_transfer_syntax` past its last entry, copying more bytes into a local
  array than it holds, reading a string (`strcmp`, `%s`) on into bytes of a
  local array that were never written, from where the read can leave the
  array.
* Loops and the recursion between `dicom_nested_data` and
  `dicom_get_next_element` are driven by a fuel counter; `Run.timeout` is the
  outcome when it runs out.
-/

namespace Dicom

/-! ## Outcomes -/

/-- Outcome of running a C function of the embedding. -/
inductive Run (α : Type) where
  | ret (a : α) : Run α
  | undefined : Run α
  | timeout : Run α
deriving DecidableEq, Repr

/-! ## Byte source -/

/-- Modelled from the spec: the byte source (`AVIOContext`, declared outside
`dicom.c`), "an abstract forward-readable, forward-skippable byte source"
with read, skip, current position and an at-end predicate. `buf` holds the
bytes not yet consumed, `pos` the number of bytes consumed or skipped so far,
`eof_reached` whether a read has hit the end of the stream. -/
structure AVIOContext where
  buf : List Nat
  pos : Nat
  eof_reached : Bool
deriving DecidableEq, Repr

/-- Modelled from the spec: the at-end predicate `avio_feof`; it is true once
a read has hit the end of the stream. -/
def avio_feof (s : AVIOContext) : Bool := s.eof_reached

/-- Modelled from the spec: `avio_r8`, read one byte; at the end of the stream
it yields 0 and records the end-of-stream condition. -/
def avio_r8 (s : AVIOContext) : Nat × AVIOContext :=
  match s.buf with
  | [] => (0, { s with eof_reached := true })
  | b :: rest => (b % 256, { s with buf := rest, pos := s.pos + 1 })

/-- Modelled from the spec: `avio_rl16`, two bytes, least significant first. -/
def avio_rl16 (s : AVIOContext) : Nat × AVIOContext :=
  let r0 := avio_r8 s
  let r1 := avio_r8 r0.2
  (r0.1 + r1.1 * 256, r1.2)

/-- Modelled from the spec: `avio_rb16`, two bytes, most significant first. -/
def avio_rb16 (s : AVIOContext) : Nat × AVIOContext :=
  let r0 := avio_r8 s
  let r1 := avio_r8 r0.2
  (r0.1 * 256 + r1.1, r1.2)

/-- Modelled from the spec: `avio_rl32`, four bytes, least significant first. -/
def avio_rl32 (s : AVIOContext) : Nat × AVIOContext :=
  let r0 := avio_rl16 s
  let r1 := avio_rl16 r0.2
  (r0.1 + r1.1 * 65536, r1.2)

/-- Modelled from the spec: `avio_rb32`, four bytes, most significant first. -/
def avio_rb32 (s : AVIOContext) : Nat × AVIOContext :=
  let r0 := avio_rb16 s
  let r1 := avio_rb16 r0.2
  (r0.1 * 65536 + r1.1, r1.2)

/-- Modelled from the spec: `avio_skip`, skip `n` bytes forward and return the
new position. Skipping past the end is allowed; the next read then hits the
end of the stream. -/
def avio_skip (s : AVIOContext) (n : Nat) : Nat × AVIOContext :=
  (s.pos + n, { s with buf := s.buf.drop n, pos := s.pos + n })

/-- Modelled from the spec: `avio_read`, read up to `size` bytes; returns the
bytes actually copied to the destination. A short read records the
end-of-stream condition. -/
def avio_read (s : AVIOContext) (size : Nat) : List Nat × AVIOContext :=
  ((s.buf.take size).map (fun b => b % 256),
   { buf := s.buf.drop size,
     pos := s.pos + min size s.buf.length,
     eof_reached := s.eof_reached || decide (s.buf.length < size) })

/-! ## `dicom.h` -/

def DICOM_TRANSFER_SYNTAX_MAXSIZE : Nat := 24
def DICOM_ENDIAN_LE : Int := 0
def DICOM_ENDIAN_BE : Int := 1
def DICOM_VR_IMPLICIT : Int := 0
def DICOM_VR_EXPLICIT : Int := 1
def DICOM_COMPRESSION_NONE : Int := 0
def DICOM_COMPRESSION_DEFLATE : Int := 1
def DICOM_COMPRESSION_RLE : Int := 2

/-- The struct `DICOMTransferSyntax`. -/
structure DICOMTransferSyntax where
  name : String
  type : Int
  codec : String
deriving DecidableEq, Repr

/-- The table `dicom_transfer_syntax` of `dicom.h`. -/
def dicom_transfer_syntax : List DICOMTransferSyntax := [
  ⟨"1.2.840.10008.1.2",       0,    "none"⟩,
  ⟨"1.2.840.10008.1.2.1",     1,    "none"⟩,
  ⟨"1.2.840.10008.1.2.1.99",  199,  "none"⟩,
  ⟨"1.2.840.10008.1.2.2",     2,    "none"⟩,
  ⟨"1.2.840.10008.1.2.4.50",  450,  "none"⟩,
  ⟨"1.2.840.10008.1.2.4.51",  451,  "none"⟩,
  ⟨"1.2.840.10008.1.2.4.52",  452,  "none"⟩,
  ⟨"1.2.840.10008.1.2.4.53",  453,  "none"⟩,
  ⟨"1.2.840.10008.1.2.4.54",  454,  "none"⟩,
  ⟨"1.2.840.10008.1.2.4.55",  455,  "none"⟩,
  ⟨"1.2.840.10008.1.2.4.56",  456,  "none"⟩,
  ⟨"1.2.840.10008.1.2.4.57",  457,  "none"⟩,
  ⟨"1.2.840.10008.1.2.4.58",  458,  "none"⟩,
  ⟨"1.2.840.10008.1.2.4.59",  459,  "none"⟩,
  ⟨"1.2.840.10008.1.2.4.60",  460,  "none"⟩,
  ⟨"1.2.840.10008.1.2.4.61",  461,  "none"⟩,
  ⟨"1.2.840.10008.1.2.4.62",  462,  "none"⟩,
  ⟨"1.2.840.10008.1.2.4.63",  463,  "none"⟩,
  ⟨"1.2.840.10008.1.2.4.64",  464,  "none"⟩,
  ⟨"1.2.840.10008.1.2.4.65",  465,  "none"⟩,
  ⟨"1.2.840.10008.1.2.4.66",  466,  "none"⟩,
  ⟨"1.2.840.10008.1.2.4.67",  467,  "none"⟩,
  ⟨"1.2.840.10008.1.2.4.68",  468,  "none"⟩,
  ⟨"1.2.840.10008.1.2.4.69",  469,  "none"⟩,
  ⟨"1.2.840.10008.1.2.4.70",  470,  "none"⟩,
  ⟨"1.2.840.10008.1.2.4.80",  480,  "none"⟩,
  ⟨"1.2.840.10008.1.2.4.81",  481,  "none"⟩,
  ⟨"1.2.840.10008.1.2.4.90",  490,  "none"⟩,
  ⟨"1.2.840.10008.1.2.4.91",  491,  "none"⟩,
  ⟨"1.2.840.10008.1.2.4.92",  492,  "none"⟩,
  ⟨"1.2.840.10008.1.2.4.93",  493,  "none"⟩,
  ⟨"1.2.840.10008.1.2.4.94",  494,  "none"⟩,
  ⟨"1.2.840.10008.1.2.4.95",  495,  "none"⟩,
  ⟨"1.2.840.10008.1.2.5",     5,    "none"⟩,
  ⟨"1.2.840.10008.1.2.6.1",   61,   "none"⟩,
  ⟨"1.2.840.10008.1.2.4.100", 4100, "none"⟩,
  ⟨"1.2.840.10008.1.2.4.102", 4102, "none"⟩,
  ⟨"1.2.840.10008.1.2.4.103", 4103, "none"⟩
]

/-- The value of `sizeof(DICOMTransferSyntax)`: `char name[25]`, padding to
the alignment of `int`, `int type`, `char codec[6]`, padding. -/
def sizeof_DICOMTransferSyntax : Nat := 40

/-- The value of `sizeof(dicom_transfer_syntax)`, a size in bytes. -/
def sizeof_dicom_transfer_syntax : Nat :=
  List.length dicom_transfer_syntax * sizeof_DICOMTransferSyntax

/-! ## `dicom.c` -/

/-- The struct `DICOMContext`; the field `syntax` of the source is `syntax_`
here. -/
structure DICOMContext where
  endian : Int
  vr_explicit : Int
  compression : Int
  syntax_ : DICOMTransferSyntax
deriving DecidableEq, Repr

/-- The part of `AVFormatContext` used by `dicom.c`: the byte source `pb` and
the private data, which is the `DICOMContext`. -/
structure AVFormatContext where
  pb : AVIOContext
  priv_data : DICOMContext
deriving DecidableEq, Repr

/-- Modelled from the spec: the error code `AVERROR(EINVAL)` ("invalid-data
error"), defined outside `dicom.c`. -/
def AVERROR_EINVAL : Int := -22

/-- Modelled from the spec: the error code `AVERROR_PATCHWELCOME`
("not-yet-supported"), defined outside `dicom.c`. -/
def AVERROR_PATCHWELCOME : Int := -1163346256

/-- The function `dicom_r16`. -/
def dicom_r16 (s : AVIOContext) (d : DICOMContext) : Nat × AVIOContext :=
  if d.endian ≠ 0 then avio_rb16 s else avio_rl16 s

/-- The function `dicom_r32`. -/
def dicom_r32 (s : AVIOContext) (d : DICOMContext) : Nat × AVIOContext :=
  if d.endian ≠ 0 then avio_rb32 s else avio_rl32 s

/-- The function `dicom_parse_syntax`: the return value and the updated
context. -/
def dicom_parse_syntax (d : DICOMContext) : Int × DICOMContext :=
  if d.syntax_.type = 0 then
    (0, { d with vr_explicit := DICOM_VR_IMPLICIT })
  else if d.syntax_.type = 199 then
    (AVERROR_PATCHWELCOME, { d with compression := DICOM_COMPRESSION_DEFLATE })
  else if d.syntax_.type = 2 then
    (0, { d with endian := DICOM_ENDIAN_BE })
  else if d.syntax_.type = 5 then
    (0, { d with compression := DICOM_COMPRESSION_RLE })
  else
    (0, d)

/-- The bytes of a C string literal, without its terminating NUL. -/
def cstr (name : String) : List Nat := name.toList.map Char.toNat

/-- The test `strcmp(name, syntax) == 0` of `dicom_read_transfer_syntax`,
where `name` is a NUL-terminated string (given without its NUL) and `syn` is
the written part of the local array `syntax`. It is `none` when the
comparison reaches a byte of the array that was never written. -/
def strcmp_eq : List Nat → List Nat → Option Bool
  | [], [] => none
  | [], c :: _ => some (c == 0)
  | _ :: _, [] => none
  | a :: as, c :: cs => if a = c then strcmp_eq as cs else some false

/-- The loop `for(i = 0; strcmp(dicom_transfer_syntax[i].name, syntax); i++);`
run from index `i` over the entries `table` that remain from that index on.
The loop has no bound: when no entry is left it indexes the array past its
last entry. -/
def scan_table (syn : List Nat) : Nat → List DICOMTransferSyntax → Run Nat
  | _, [] => Run.undefined
  | i, e :: es =>
    match strcmp_eq (cstr e.name) syn with
    | none => Run.undefined
    | some true => Run.ret i
    | some false => scan_table syn (i + 1) es

/-- The function `dicom_read_transfer_syntax`. -/
def dicom_read_transfer_syntax (s : AVFormatContext) : Run (Int × AVFormatContext) :=
  let pb1 := (avio_skip s.pb 2).2
  let r := avio_rl16 pb1
  let length := r.1
  let rd := avio_read r.2 length
  if DICOM_TRANSFER_SYNTAX_MAXSIZE + 1 < rd.1.length then Run.undefined
  else
    match scan_table rd.1 0 dicom_transfer_syntax with
    | Run.undefined => Run.undefined
    | Run.timeout => Run.timeout
    | Run.ret i =>
      if i = sizeof_dicom_transfer_syntax then
        Run.ret (AVERROR_EINVAL, { s with pb := rd.2 })
      else
        match dicom_transfer_syntax.get? i with
        | none => Run.undefined
        | some e => Run.ret (0, { pb := rd.2, priv_data := { s.priv_data with syntax_ := e } })

/-- The test of `dicom_read_element_length` on the two bytes of `vr`: true
when `vr` is none of "OB", "OW", "OF", "SQ", "UT", "UN". -/
def vr_is_short (a b : Nat) : Bool :=
  !(a = 79 ∧ b = 66) && !(a = 79 ∧ b = 87) && !(a = 79 ∧ b = 70) &&
  !(a = 83 ∧ b = 81) && !(a = 85 ∧ b = 84) && !(a = 85 ∧ b = 78)

/-- The function `dicom_read_element_length`. When fewer than two bytes are
left, `avio_read` leaves bytes of `vr` unwritten and the stream at its end;
the value of those bytes is unspecified, and on either outcome of the
comparison the length is read at the end of the stream and is 0. The
embedding takes the outcome of a `vr` that is none of the six codes; the
other outcome differs by the skip of two bytes past the end. -/
def dicom_read_element_length (s : AVFormatContext) : Run (Nat × AVFormatContext) :=
  let d := s.priv_data
  if d.vr_explicit ≠ 0 then
    let rd := avio_read s.pb 2
    match rd.1 with
    | [a, b] =>
      if vr_is_short a b then
        let r := dicom_r16 rd.2 d
        Run.ret (r.1, { s with pb := r.2 })
      else
        let pb1 := (avio_skip rd.2 2).2
        let r := dicom_r32 pb1 d
        Run.ret (r.1, { s with pb := r.2 })
    | _ =>
      let r := dicom_r16 rd.2 d
      Run.ret (r.1, { s with pb := r.2 })
  else
    let r := dicom_r32 s.pb d
    Run.ret (r.1, { s with pb := r.2 })

/-- The body of `dicom_get_next_element`, with the call of
`dicom_nested_data` passed as `nested`. -/
def get_next_element_body (nested : AVFormatContext → Run (Nat × AVFormatContext))
    (s : AVFormatContext) : Run (Nat × AVFormatContext) :=
  match dicom_read_element_length s with
  | Run.undefined => Run.undefined
  | Run.timeout => Run.timeout
  | Run.ret (vl, s1) =>
    if vl ≠ 0xffffffff then
      let r := avio_skip s1.pb vl
      Run.ret (r.1, { s1 with pb := r.2 })
    else nested s1

/-- The function `dicom_nested_data`; each loop iteration and each recursive
call uses one unit of fuel. -/
def dicom_nested_data : Nat → AVFormatContext → Run (Nat × AVFormatContext)
  | 0, _ => Run.timeout
  | fuel + 1, s =>
    if avio_feof s.pb then Run.ret (0, s)
    else
      let d := s.priv_data
      let g := dicom_r16 s.pb d
      let e := dicom_r16 g.2 d
      let group := g.1
      let element := e.1
      if group = 0xFFFE ∧ element = 0xE0DD then
        let r := avio_skip e.2 4
        Run.ret (r.1, { s with pb := r.2 })
      else
        match get_next_element_body (dicom_nested_data fuel) { s with pb := e.2 } with
        | Run.undefined => Run.undefined
        | Run.timeout => Run.timeout
        | Run.ret (_, s1) => dicom_nested_data fuel s1

/-- The function `dicom_get_next_element`. -/
def dicom_get_next_element (fuel : Nat) (s : AVFormatContext) : Run (Nat × AVFormatContext) :=
  get_next_element_body (dicom_nested_data fuel) s

/-- The `case` labels of `dicom_read_metadata` whose branch logs one
`dicom_r16(s->pb, d)`. -/
def metadata_cases_r16 : List Nat := [
  0x0002, 0x0003, 0x0005, 0x0006, 0x0010, 0x0011, 0x0012, 0x0014, 0x0068, 0x0069,
  0x0070, 0x0071, 0x0080, 0x0081, 0x0082, 0x0091, 0x0092, 0x0093, 0x0094, 0x0100,
  0x0101, 0x0102, 0x0103, 0x0104, 0x0105, 0x0106, 0x0107, 0x0108, 0x0109, 0x0110,
  0x0111, 0x0120, 0x0121, 0x0200, 0x0402, 0x0710, 0x0720, 0x0722, 0x0730, 0x0740,
  0x1041, 0x1100, 0x1101, 0x1102, 0x1103, 0x1104, 0x1111, 0x1112, 0x1113, 0x1403,
  0x1407, 0x3002, 0x6010, 0x6020, 0x6030, 0x6040, 0x6102, 0x6110, 0x6112, 0x6120,
  0x7001, 0x7002, 0x7003, 0x7009, 0x700B, 0x700E, 0x7017, 0x701B, 0x9099, 0x9416,
  0x9503, 0x9506, 0x9507
]

/-- The `case` labels of `dicom_read_metadata` whose branch logs two
`dicom_r16(s->pb, d)`. -/
def metadata_cases_r16_r16 : List Nat := [
  0x0009, 0x000A, 0x0066, 0x0404, 0x0702, 0x0721
]

/-- The `case` labels of `dicom_read_metadata` whose branch logs one
`dicom_r32(s->pb, d)`. -/
def metadata_cases_r32 : List Nat := [
  0x9001, 0x9002
]

/-- The `case` labels of `dicom_read_metadata` whose branch is
`avio_read(s->pb, data, vl)` followed by logging `data`. -/
def metadata_cases_read : List Nat := [
  0x0004, 0x0008, 0x0030, 0x0031, 0x0032, 0x0034, 0x0040, 0x0050, 0x0051, 0x005F,
  0x0060, 0x0061, 0x0062, 0x0063, 0x0065, 0x0090, 0x0300, 0x0301, 0x0302, 0x0303,
  0x0304, 0x0400, 0x0401, 0x0403, 0x0700, 0x0701, 0x0A02, 0x0A04, 0x1040, 0x1050,
  0x1051, 0x1052, 0x1053, 0x1054, 0x1055, 0x1056, 0x1080, 0x1090, 0x1199, 0x1214,
  0x1300, 0x1350, 0x1351, 0x135A, 0x1402, 0x1405, 0x140D, 0x140E, 0x140F, 0x1410,
  0x2002, 0x2110, 0x2112, 0x2114, 0x3003, 0x3004, 0x4000, 0x6022, 0x6023, 0x6101,
  0x6190, 0x7004, 0x7005, 0x7006, 0x7007, 0x700C, 0x700D, 0x7013, 0x7014, 0x7019,
  0x7020, 0x7021, 0x7025, 0x7026, 0x7029, 0x702A, 0x702B, 0x9003, 0x9108, 0x9235,
  0x9444, 0x9446, 0x9454, 0x9474, 0x9520, 0x9537
]

/-- The size argument of `avio_read(s->pb, data, vl)`: the conversion of the
`uint32_t` value `vl` to `int`; a negative size reads nothing. -/
def read_size (vl : Nat) : Nat := if vl < 2147483648 then vl else 0

/-- The function `dicom_read_metadata`. Logging is modelled where it reads
memory: `av_log(..., "%s", data)` reads the local array `data` up to its
first NUL. The array is not initialised and no NUL is written after the bytes
that `avio_read` copies, so without a NUL among them the read reaches bytes
that were never written or leaves the array. -/
def dicom_read_metadata (fuel : Nat) (s : AVFormatContext) (element : Nat) :
    Run (Int × AVFormatContext) :=
  match dicom_read_element_length s with
  | Run.undefined => Run.undefined
  | Run.timeout => Run.timeout
  | Run.ret (vl, s1) =>
    let d := s1.priv_data
    if element ∈ metadata_cases_r16 then
      Run.ret (0, { s1 with pb := (dicom_r16 s1.pb d).2 })
    else if element ∈ metadata_cases_r16_r16 then
      Run.ret (0, { s1 with pb := (dicom_r16 (dicom_r16 s1.pb d).2 d).2 })
    else if element ∈ metadata_cases_r32 then
      Run.ret (0, { s1 with pb := (dicom_r32 s1.pb d).2 })
    else if element ∈ metadata_cases_read then
      let rd := avio_read s1.pb (read_size vl)
      if 1024 < rd.1.length then Run.undefined
      else if 0 ∈ rd.1 then Run.ret (0, { s1 with pb := rd.2 })
      else Run.undefined
    else if vl = 0xffffffff then
      match dicom_nested_data fuel s1 with
      | Run.undefined => Run.undefined
      | Run.timeout => Run.timeout
      | Run.ret (_, s2) => Run.ret (0, s2)
    else
      Run.ret (0, { s1 with pb := (avio_skip s1.pb vl).2 })

/-- The expression `(x << 8) & 0xff00 + (x >> 8)` assigned to a `uint16_t`,
as C parses it: `+` binds tighter than `&`. -/
def swap_expr (x : Nat) : Nat := ((x <<< 8) &&& (0xff00 + (x >>> 8))) % 65536

/-- The first loop of `dicom_read_header`, over the file-meta group, entered
with the tag `(group, element)` just read. It yields either the value that
`dicom_read_header` returns from inside the loop, or the tag with which the
loop is left. -/
def file_meta_loop : Nat → AVFormatContext → Nat → Nat →
    Run ((Int ⊕ (Nat × Nat)) × AVFormatContext)
  | 0, _, _, _ => Run.timeout
  | fuel + 1, s, group, element =>
    if !avio_feof s.pb && decide (group = 0x0002) then
      if element = 0x0010 then
        match dicom_read_transfer_syntax s with
        | Run.undefined => Run.undefined
        | Run.timeout => Run.timeout
        | Run.ret (err, s1) =>
          if err ≠ 0 then Run.ret (Sum.inl err, s1)
          else
            let g := avio_rl16 s1.pb
            let e := avio_rl16 g.2
            file_meta_loop fuel { s1 with pb := e.2 } g.1 e.1
      else
        match dicom_get_next_element fuel s with
        | Run.undefined => Run.undefined
        | Run.timeout => Run.timeout
        | Run.ret (r, s1) =>
          if r = 0 then Run.ret (Sum.inr (group, element), s1)
          else
            let g := avio_rl16 s1.pb
            let e := avio_rl16 g.2
            file_meta_loop fuel { s1 with pb := e.2 } g.1 e.1
    else Run.ret (Sum.inr (group, element), s)

/-- The second loop of `dicom_read_header`, over the data set, entered with
the tag `(group, element)`, together with the `return AVERROR(EINVAL)` that
follows it. -/
def data_set_loop : Nat → AVFormatContext → Nat → Nat → Run (Int × AVFormatContext)
  | 0, _, _, _ => Run.timeout
  | fuel + 1, s, group, element =>
    if !avio_feof s.pb then
      if group = 0x0028 then
        match dicom_read_metadata fuel s element with
        | Run.undefined => Run.undefined
        | Run.timeout => Run.timeout
        | Run.ret (err, s1) =>
          if err ≠ 0 then Run.ret (err, s1)
          else
            let g := dicom_r16 s1.pb s1.priv_data
            let e := dicom_r16 g.2 s1.priv_data
            data_set_loop fuel { s1 with pb := e.2 } g.1 e.1
      else if group = 0x7fe0 ∧ element = 0x0010 then Run.ret (0, s)
      else
        match dicom_get_next_element fuel s with
        | Run.undefined => Run.undefined
        | Run.timeout => Run.timeout
        | Run.ret (r, s1) =>
          if r = 0 then Run.ret (AVERROR_EINVAL, s1)
          else
            let g := dicom_r16 s1.pb s1.priv_data
            let e := dicom_r16 g.2 s1.priv_data
            data_set_loop fuel { s1 with pb := e.2 } g.1 e.1
    else Run.ret (AVERROR_EINVAL, s)

/-- The function `dicom_read_header`, with the fuel given to its loops. -/
def dicom_read_header_fuel (fuel : Nat) (s : AVFormatContext) : Run (Int × AVFormatContext) :=
  let d : DICOMContext :=
    { s.priv_data with
      endian := DICOM_ENDIAN_LE,
      vr_explicit := DICOM_VR_EXPLICIT,
      compression := DICOM_COMPRESSION_NONE }
  let pb1 := (avio_skip s.pb 0x84).2
  let g := avio_rl16 pb1
  let e := avio_rl16 g.2
  match file_meta_loop fuel { pb := e.2, priv_data := d } g.1 e.1 with
  | Run.undefined => Run.undefined
  | Run.timeout => Run.timeout
  | Run.ret (Sum.inl err, s1) => Run.ret (err, s1)
  | Run.ret (Sum.inr (group, element), s1) =>
    let d1 := ( dicom_parse_syntax s1.priv_data).2
    let s2 : AVFormatContext := { s1 with priv_data := d1 }
    if d1.vr_explicit = 0 then
      data_set_loop fuel s2 (swap_expr group) (swap_expr element)
    else
      data_set_loop fuel s2 group element

/-- The function `dicom_read_header`: the fuel is the length of the stream
plus two, which every run stays within. -/
def dicom_read_header (s : AVFormatContext) : Run (Int × AVFormatContext) :=
  dicom_read_header_fuel (s.pb.buf.length + 2) s

/-! ### The probe -/

/-- Modelled from the spec: the maximum probe score `AVPROBE_SCORE_MAX`,
defined outside `dicom.c`; its value in libavformat is 100. -/
def AVPROBE_SCORE_MAX : Int := 100

/-- The part of `AVProbeData` used by `dicom_probe`: the probe buffer; its
size `buf_size` is the length of the list. -/
structure AVProbeData where
  buf : List Nat
deriving DecidableEq, Repr

/-- The function `dicom_probe`. `memcmp(p->buf+0x80, "DICM", 4)` reads the
bytes 128 to 131 of the buffer; on a buffer that does not hold them it reads
past its end. -/
def dicom_probe (p : AVProbeData) : Run Int :=
  if p.buf.length < 0x80 + 4 then Run.undefined
  else if ((p.buf.drop 0x80).take 4).map (fun b => b % 256) ≠ cstr "DICM" then Run.ret 0
  else Run.ret AVPROBE_SCORE_MAX

/-! ## Description of well-formed input

The definitions below are not part of `dicom.c`: they describe the byte
streams that the statements about the scanner quantify over. -/

/-- The two bytes of a 16-bit value in the byte order `endian`
(non-zero: most significant byte first). -/
def w16 (endian : Int) (v : Nat) : List Nat :=
  if endian ≠ 0 then [v / 256 % 256, v % 256] else [v % 256, v / 256 % 256]

/-- The four bytes of a 32-bit value in the byte order `endian`. -/
def w32 (endian : Int) (v : Nat) : List Nat :=
  if endian ≠ 0 then w16 endian (v / 65536) ++ w16 endian v
  else w16 endian v ++ w16 endian (v / 65536)

/-- The part of an element header that follows the tag, for the declared
length `len`: in explicit style the two bytes of the value representation,
then either a 16-bit length or two reserved bytes and a 32-bit length; in
implicit style a 32-bit length. -/
def enc_length (d : DICOMContext) (vr0 vr1 len : Nat) : List Nat :=
  if d.vr_explicit ≠ 0 then
    if vr_is_short (vr0 % 256) (vr1 % 256) then [vr0, vr1] ++ w16 d.endian len
    else [vr0, vr1, 0, 0] ++ w32 d.endian len
  else w32 d.endian len

/-- Whether `len` can be declared as a defined length in the header form that
`enc_length` chooses. -/
def len_ok (d : DICOMContext) (vr0 vr1 len : Nat) : Bool :=
  if d.vr_explicit ≠ 0 ∧ vr_is_short (vr0 % 256) (vr1 % 256) = true then decide (len < 65536)
  else decide (len < 0xffffffff)

/-- Whether the header form that `enc_length` chooses holds a 32-bit length,
so that it can declare the undefined length. -/
def long_form (d : DICOMContext) (vr0 vr1 : Nat) : Bool :=
  !(decide (d.vr_explicit ≠ 0) && vr_is_short (vr0 % 256) (vr1 % 256))

/-- A sequence of elements: `leaf` is an element of defined length with its
value, `seq` an element of undefined length with its inner elements and the
four bytes that follow its delimiter tag; the last argument of both is the
rest of the sequence. -/
inductive Body where
  | nil : Body
  | leaf (group element vr0 vr1 : Nat) (value : List Nat) (rest : Body) : Body
  | seq (group element vr0 vr1 : Nat) (inner : Body) (pad : List Nat) (rest : Body) : Body
deriving Repr

/-- The bytes of a sequence of elements in the parse mode of `d`. -/
def Body.encode (d : DICOMContext) : Body → List Nat
  | Body.nil => []
  | Body.leaf g e v0 v1 value rest =>
    w16 d.endian g ++ w16 d.endian e ++ enc_length d v0 v1 value.length ++ value
      ++ Body.encode d rest
  | Body.seq g e v0 v1 inner pad rest =>
    w16 d.endian g ++ w16 d.endian e ++ enc_length d v0 v1 0xffffffff
      ++ Body.encode d inner ++ w16 d.endian 0xFFFE ++ w16 d.endian 0xE0DD ++ pad
      ++ Body.encode d rest

/-- Well-formedness of a sequence of elements in the parse mode of `d`: tags
are 16-bit values other than the sequence delimiter, a defined length fits
its length field and is the length of the value, an undefined length stands
in a 32-bit length field and its delimiter is followed by four bytes. -/
def Body.wf (d : DICOMContext) : Body → Bool
  | Body.nil => true
  | Body.leaf g e v0 v1 value rest =>
    decide (g < 65536) && decide (e < 65536) && !decide (g = 0xFFFE ∧ e = 0xE0DD)
      && len_ok d v0 v1 value.length && Body.wf d rest
  | Body.seq g e v0 v1 inner pad rest =>
    decide (g < 65536) && decide (e < 65536) && !decide (g = 0xFFFE ∧ e = 0xE0DD)
      && long_form d v0 v1 && decide (pad.length = 4) && Body.wf d inner && Body.wf d rest

/-- The 16-bit value of two stream bytes in the byte order `endian`. -/
def val16 (endian : Int) (b0 b1 : Nat) : Nat :=
  if endian ≠ 0 then b0 % 256 * 256 + b1 % 256 else b0 % 256 + b1 % 256 * 256

/-- The 32-bit value of four stream bytes in the byte order `endian`. -/
def val32 (endian : Int) (b0 b1 b2 b3 : Nat) : Nat :=
  if endian ≠ 0 then
    b0 % 256 * 16777216 + b1 % 256 * 65536 + b2 % 256 * 256 + b3 % 256
  else
    b0 % 256 + b1 % 256 * 256 + b2 % 256 * 65536 + b3 % 256 * 16777216

/-- The value-representation codes that are followed by two reserved bytes
and a 32-bit length. -/
def long_form_codes : List (List Nat) :=
  [cstr "OB", cstr "OW", cstr "OF", cstr "SQ", cstr "UT", cstr "UN"]

/-- The steps of `dicom_read_transfer_syntax` that follow the reading of the
identifier: `syn` is the identifier read, `pb` the byte source after it. -/
def resolve_syntax (syn : List Nat) (pb : AVIOContext) (d : DICOMContext) :
    Run (Int × AVFormatContext) :=
  if DICOM_TRANSFER_SYNTAX_MAXSIZE + 1 < syn.length then Run.undefined
  else
    match scan_table syn 0 dicom_transfer_syntax with
    | Run.undefined => Run.undefined
    | Run.timeout => Run.timeout
    | Run.ret i =>
      if i = sizeof_dicom_transfer_syntax then
        Run.ret (AVERROR_EINVAL, { pb := pb, priv_data := d })
      else
        match dicom_transfer_syntax.get? i with
        | none => Run.undefined
        | some e => Run.ret (0, { pb := pb, priv_data := { d with syntax_ := e } })

/-- A context as `dicom_read_header` may find it on entry: the three mode
fields hold arbitrary values, the transfer syntax is zero-initialised. -/
def ctx0 : DICOMContext := ⟨7, 7, 7, ⟨"", 0, ""⟩⟩

/-- The value that `dicom_read_element_length` returns for the header part
`enc_length d vr0 vr1 len`. -/
def declared (d : DICOMContext) (vr0 vr1 len : Nat) : Nat :=
  if d.vr_explicit ≠ 0 ∧ vr_is_short (vr0 % 256) (vr1 % 256) = true then len % 65536
  else len % 4294967296

/-- The bytes that end an element of undefined length: the delimiter tag and
the four bytes `pad` after it. -/
def delimiter (d : DICOMContext) (pad : List Nat) : List Nat :=
  w16 d.endian 0xFFFE ++ (w16 d.endian 0xE0DD ++ pad)

/-- The end of an iteration of the second loop of `dicom_read_header`: the
next tag is read with `dicom_r16` and the loop goes on with it. -/
def data_set_next (fuel : Nat) (s : AVFormatContext) : Run (Int × AVFormatContext) :=
  data_set_loop fuel
    { s with pb := (dicom_r16 (dicom_r16 s.pb s.priv_data).2 s.priv_data).2 }
    (dicom_r16 s.pb s.priv_data).1
    (dicom_r16 (dicom_r16 s.pb s.priv_data).2 s.priv_data).1

/-- The end of an iteration of the first loop of `dicom_read_header`: the
next tag is read with `avio_rl16` and the loop goes on with it. -/
def file_meta_next (fuel : Nat) (s : AVFormatContext) :
    Run ((Int ⊕ (Nat × Nat)) × AVFormatContext) :=
  file_meta_loop fuel
    { s with pb := (avio_rl16 (avio_rl16 s.pb).2).2 }
    (avio_rl16 s.pb).1
    (avio_rl16 (avio_rl16 s.pb).2).1

/-- Whether `dicom_read_metadata` has a `case` for the element number. -/
def metadata_known (element : Nat) : Bool :=
  decide (element ∈ metadata_cases_r16) || decide (element ∈ metadata_cases_r16_r16) ||
  decide (element ∈ metadata_cases_r32) || decide (element ∈ metadata_cases_read)

/-- Whether a group-0x0028 element with the value `value` is one that
`dicom_read_metadata` consumes exactly and logs within the bytes read: a
16-bit field has length 2, a pair of 16-bit fields or a 32-bit field length
4, a text field fits the 1024-byte buffer and holds a NUL; an element without
a `case` is skipped by its length. -/
def metadata_value_ok (element : Nat) (value : List Nat) : Bool :=
  if element ∈ metadata_cases_r16 then decide (value.length = 2)
  else if element ∈ metadata_cases_r16_r16 then decide (value.length = 4)
  else if element ∈ metadata_cases_r32 then decide (value.length = 4)
  else if element ∈ metadata_cases_read then
    decide (value.length ≤ 1024) && decide (0 ∈ value.map (fun b => b % 256))
  else true

/-- The conditions on the top-level elements of the data set that precede the
pixel data: none has the pixel-data tag, a group-0x0028 element of defined
length satisfies `metadata_value_ok`, a group-0x0028 element of undefined
length has no `case` in `dicom_read_metadata`. -/
def Body.top_ok : Body → Bool
  | Body.nil => true
  | Body.leaf g e _ _ value rest =>
    !decide (g = 0x7fe0 ∧ e = 0x0010) && (!decide (g = 0x0028) || metadata_value_ok e value)
      && Body.top_ok rest
  | Body.seq g e _ _ _ _ rest =>
    !decide (g = 0x7fe0 ∧ e = 0x0010) && (!decide (g = 0x0028) || !metadata_known e)
      && Body.top_ok rest

/-- The conditions on the file-meta elements other than the transfer syntax:
their group is 0x0002 and their element number is not 0x0010. -/
def Body.meta_ok : Body → Bool
  | Body.nil => true
  | Body.leaf g e _ _ _ rest => decide (g = 0x0002) && !decide (e = 0x0010) && Body.meta_ok rest
  | Body.seq g e _ _ _ _ rest => decide (g = 0x0002) && !decide (e = 0x0010) && Body.meta_ok rest

/-- The parse mode with which `dicom_read_header` starts:
little-endian, explicit, no compression. -/
def default_mode (e : DICOMTransferSyntax) : DICOMContext :=
  ⟨DICOM_ENDIAN_LE, DICOM_VR_EXPLICIT, DICOM_COMPRESSION_NONE, e⟩

/-- The bytes of the pixel-data tag in the byte order of `d`. -/
def pixel_tag (d : DICOMContext) : List Nat :=
  w16 d.endian 0x7fe0 ++ w16 d.endian 0x0010

/-- The parse mode that `dicom_parse_syntax` derives from the defaults for the
table entry `e`. -/
def resolved_mode (e : DICOMTransferSyntax) : DICOMContext :=
  ( dicom_parse_syntax (default_mode e)).2

/-- The bytes of a transfer-syntax element of the file-meta group: the tag
(0x0002,0x0010) little-endian, two bytes of value representation, a 16-bit
length and the identifier, which is the name of `e`, a NUL and `pad`. -/
def ts_element (e : DICOMTransferSyntax) (vr0 vr1 : Nat) (pad : List Nat) : List Nat :=
  [0x02, 0x00, 0x10, 0x00, vr0, vr1, (cstr e.name ++ 0 :: pad).length, 0]
    ++ (cstr e.name ++ 0 :: pad)

/-- The part of `dicom_read_header` that follows its first loop, applied to
the outcome of that loop. -/
def after_file_meta (fuel : Nat) (r : Run ((Int ⊕ (Nat × Nat)) × AVFormatContext)) :
    Run (Int × AVFormatContext) :=
  match r with
  | Run.undefined => Run.undefined
  | Run.timeout => Run.timeout
  | Run.ret (Sum.inl err, s1) => Run.ret (err, s1)
  | Run.ret (Sum.inr (group, element), s1) =>
    let d1 := ( dicom_parse_syntax s1.priv_data).2
    let s2 : AVFormatContext := { s1 with priv_data := d1 }
    if d1.vr_explicit = 0 then
      data_set_loop fuel s2 (swap_expr group) (swap_expr element)
    else
      data_set_loop fuel s2 group element

/-- The value of a 16-bit number with its two bytes exchanged. -/
def swap16 (x : Nat) : Nat := x % 256 * 256 + x / 256 % 256

/-- The condition on the tag `(g, e)` of the first data-set element. The
first loop of `dicom_read_header` reads it little-endian whatever the transfer
syntax and leaves the loop when its group is not 0x0002. For type 2
(big-endian) the tag seen is the byte-swapped one, and the element is skipped
correctly when that is neither a group-0x0028 tag nor the pixel-data tag. -/
def first_tag_ok (type : Int) (g e : Nat) : Bool :=
  if type = 2 then
    decide (swap16 g ≠ 0x0002) && decide (swap16 g ≠ 0x0028)
      && !decide (swap16 g = 0x7fe0 ∧ swap16 e = 0x0010)
  else decide (g ≠ 0x0002)

/-- The condition on the first element of the data set: for the types 0
(implicit) and 2 (big-endian) the pixel-data element is not the first one. -/
def Body.first_ok (type : Int) : Body → Bool
  | Body.nil => decide (type ≠ 0) && decide (type ≠ 2)
  | Body.leaf g e _ _ _ _ => first_tag_ok type g e
  | Body.seq g e _ _ _ _ _ => first_tag_ok type g e

/-- A 128-byte preamble of zeros followed by the magic "DICM". -/
def preamble : List Nat := List.replicate 128 0 ++ cstr "DICM"

/-- The byte source `b` is the byte source `a` moved forward: its unread bytes
are those of `a` without the first `k`, its position is `k` further, and an
end-of-stream condition seen in `a` is still seen in `b`. -/
def Forward (a b : AVIOContext) : Prop :=
  (∃ k, b.buf = a.buf.drop k ∧ b.pos = a.pos + k) ∧
    (a.eof_reached = true → b.eof_reached = true)

/-- The number of unread bytes, plus one while the end of the stream has not
been seen: the quantity that bounds the fuel a scan needs. -/
def remaining (a : AVIOContext) : Nat :=
  a.buf.length + (if a.eof_reached = true then 0 else 1)

/-- The four bytes right before the cursor of `pb`, in the stream that `s0`
is at the start of, are the tag `(g, e)` in the byte order `endian`. -/
def TagBefore (s0 pb : AVIOContext) (endian : Int) (g e : Nat) : Prop :=
  ∃ k, 4 ≤ k ∧ pb.buf = s0.buf.drop k ∧ pb.pos = s0.pos + k ∧
    ((s0.buf.drop (k - 4)).take 4).map (fun b => b % 256) = w16 endian g ++ w16 endian e

/-- The tag read last before the state `s`, in the stream that `s0` is at the
start of, is `(g, e)`: the four bytes right before the cursor are that tag in
the byte order of the parse mode, or, in explicit style, little-endian, which
is how the first loop of `dicom_read_header` reads the tag that ends it. -/
def TagLast (s0 : AVIOContext) (s : AVFormatContext) (g e : Nat) : Prop :=
  TagBefore s0 s.pb s.priv_data.endian g e ∨
    (s.priv_data.vr_explicit ≠ 0 ∧ TagBefore s0 s.pb 0 g e)

/-- The tag with which the first loop of `dicom_read_header` is entered is,
when the end of the stream has not been seen and the tag is one that a loop
acts on (group 0x0028, group 0x7FE0, the transfer syntax), the little-endian
tag that stands right before the cursor. -/
def TagReadLE (s0 pb : AVIOContext) (g e : Nat) : Prop :=
  pb.eof_reached = false → (g = 0x0028 ∨ g = 0x7fe0 ∨ (g = 0x0002 ∧ e = 0x0010)) →
    TagBefore s0 pb 0 g e

/-- The tag with which the second loop of `dicom_read_header` is entered is,
when the end of the stream has not been seen and its group is 0x0028 or
0x7FE0, the tag read last. -/
def TagRead (s0 : AVIOContext) (s : AVFormatContext) (g e : Nat) : Prop :=
  s.pb.eof_reached = false → (g = 0x0028 ∨ g = 0x7fe0) → TagLast s0 s g e

/-- The fuel with which a loop of `dicom_read_header` is entered is enough for
the rest of the stream. -/
def FuelOk (fuel : Nat) (pb : AVIOContext) : Prop :=
  (pb.eof_reached = true ∧ 1 ≤ fuel) ∨ remaining pb + 1 < fuel

/-- The parse mode of `a` is that of `b`: same byte order, same
length-encoding style, same compression. -/
def same_mode (a b : DICOMContext) : Prop :=
  a.endian = b.endian ∧ a.vr_explicit = b.vr_explicit ∧ a.compression = b.compression

/-- The context `s` with the field `syntax` of its private data replaced
by `x`. -/
def with_ts (x : DICOMTransferSyntax) (s : AVFormatContext) : AVFormatContext :=
  { s with priv_data := { s.priv_data with syntax_ := x } }

set_option maxRecDepth 100000

/-! ### The byte source -/

theorem avio_r8_cons (b : Nat) (rest : List Nat) (p : Nat) (e : Bool) :
    avio_r8 ⟨b :: rest, p, e⟩ = (b % 256, ⟨rest, p + 1, e⟩) := rfl

theorem avio_rl16_cons (a b : Nat) (rest : List Nat) (p : Nat) (e : Bool) :
    avio_rl16 ⟨a :: b :: rest, p, e⟩ = (a % 256 + b % 256 * 256, ⟨rest, p + 2, e⟩) := rfl

theorem avio_rb16_cons (a b : Nat) (rest : List Nat) (p : Nat) (e : Bool) :
    avio_rb16 ⟨a :: b :: rest, p, e⟩ = (a % 256 * 256 + b % 256, ⟨rest, p + 2, e⟩) := rfl

theorem avio_rl32_cons (a b c d : Nat) (rest : List Nat) (p : Nat) (e : Bool) :
    avio_rl32 ⟨a :: b :: c :: d :: rest, p, e⟩
      = (a % 256 + b % 256 * 256 + (c % 256 + d % 256 * 256) * 65536, ⟨rest, p + 4, e⟩) := rfl

theorem avio_rb32_cons (a b c d : Nat) (rest : List Nat) (p : Nat) (e : Bool) :
    avio_rb32 ⟨a :: b :: c :: d :: rest, p, e⟩
      = ((a % 256 * 256 + b % 256) * 65536 + (c % 256 * 256 + d % 256), ⟨rest, p + 4, e⟩) := rfl

theorem dicom_r16_cons (d : DICOMContext) (a b : Nat) (rest : List Nat) (p : Nat) (e : Bool) :
    dicom_r16 ⟨a :: b :: rest, p, e⟩ d = (val16 d.endian a b, ⟨rest, p + 2, e⟩) := by
  unfold dicom_r16 val16
  split <;> rfl

theorem dicom_r32_cons (d : DICOMContext) (a b c e : Nat) (rest : List Nat) (p : Nat)
    (f : Bool) :
    dicom_r32 ⟨a :: b :: c :: e :: rest, p, f⟩ d
      = (val32 d.endian a b c e, ⟨rest, p + 4, f⟩) := by
  unfold dicom_r32 val32
  by_cases h : d.endian = 0
  · rw [if_neg (not_not.2 h), if_neg (not_not.2 h), avio_rl32_cons]
    refine Prod.ext ?_ rfl
    show _ = _
    omega
  · rw [if_pos h, if_pos h, avio_rb32_cons]
    refine Prod.ext ?_ rfl
    show _ = _
    omega

theorem avio_read_two (a b : Nat) (rest : List Nat) (p : Nat) (e : Bool) :
    avio_read ⟨a :: b :: rest, p, e⟩ 2 = ([a % 256, b % 256], ⟨rest, p + 2, e⟩) := by
  simp [avio_read]

theorem long_form_codes_eq :
    long_form_codes = [[79, 66], [79, 87], [79, 70], [83, 81], [85, 84], [85, 78]] := by
  decide

theorem vr_is_short_iff (a b : Nat) :
    vr_is_short a b = true ↔ [a, b] ∉ long_form_codes := by
  rw [long_form_codes_eq]
  simp only [vr_is_short, Bool.and_eq_true, Bool.not_eq_true', decide_eq_false_iff_not,
    List.mem_cons, List.cons.injEq, and_true, List.mem_singleton, List.not_mem_nil, or_false]
  omega

/-! ### The element reader -/

theorem read_element_length_implicit (s : AVFormatContext) (b0 b1 b2 b3 : Nat)
    (rest : List Nat) (hi : s.priv_data.vr_explicit = 0)
    (hb : s.pb.buf = b0 :: b1 :: b2 :: b3 :: rest) :
    dicom_read_element_length s
      = Run.ret (val32 s.priv_data.endian b0 b1 b2 b3,
          { s with pb := ⟨rest, s.pb.pos + 4, s.pb.eof_reached⟩ }) := by
  obtain ⟨⟨buf, p, e⟩, d⟩ := s
  simp only at hi hb
  subst hb
  simp [dicom_read_element_length, hi, dicom_r32_cons]

theorem read_element_length_long (s : AVFormatContext) (b0 b1 b2 b3 b4 b5 b6 b7 : Nat)
    (rest : List Nat) (hx : s.priv_data.vr_explicit ≠ 0)
    (hv : vr_is_short (b0 % 256) (b1 % 256) = false)
    (hb : s.pb.buf = b0 :: b1 :: b2 :: b3 :: b4 :: b5 :: b6 :: b7 :: rest) :
    dicom_read_element_length s
      = Run.ret (val32 s.priv_data.endian b4 b5 b6 b7,
          { s with pb := ⟨rest, s.pb.pos + 8, s.pb.eof_reached⟩ }) := by
  obtain ⟨⟨buf, p, e⟩, d⟩ := s
  simp only at hx hb
  subst hb
  simp [dicom_read_element_length, hx, avio_read_two, hv, avio_skip, dicom_r32_cons]

theorem read_element_length_short (s : AVFormatContext) (b0 b1 b2 b3 : Nat)
    (rest : List Nat) (hx : s.priv_data.vr_explicit ≠ 0)
    (hv : vr_is_short (b0 % 256) (b1 % 256) = true)
    (hb : s.pb.buf = b0 :: b1 :: b2 :: b3 :: rest) :
    dicom_read_element_length s
      = Run.ret (val16 s.priv_data.endian b2 b3,
          { s with pb := ⟨rest, s.pb.pos + 4, s.pb.eof_reached⟩ }) := by
  obtain ⟨⟨buf, p, e⟩, d⟩ := s
  simp only at hx hb
  subst hb
  simp [dicom_read_element_length, hx, avio_read_two, hv, dicom_r16_cons]

/-- C7: `dicom_read_element_length` on a stream with enough bytes. In implicit
style it consumes 4 bytes and returns their 32-bit value in the current byte
order; in explicit style with one of the codes OB, OW, OF, SQ, UT, UN it
consumes 8 bytes and returns the 32-bit value of the last four; in explicit
style with any other code it consumes 4 bytes and returns the 16-bit value of
the last two. -/
theorem C7_read_element_length (s : AVFormatContext) (b0 b1 b2 b3 b4 b5 b6 b7 : Nat)
    (rest : List Nat) :
    (s.priv_data.vr_explicit = 0 → s.pb.buf = b0 :: b1 :: b2 :: b3 :: rest →
      dicom_read_element_length s
        = Run.ret (val32 s.priv_data.endian b0 b1 b2 b3,
            { s with pb := ⟨rest, s.pb.pos + 4, s.pb.eof_reached⟩ })) ∧
    (s.priv_data.vr_explicit ≠ 0 → [b0 % 256, b1 % 256] ∈ long_form_codes →
      s.pb.buf = b0 :: b1 :: b2 :: b3 :: b4 :: b5 :: b6 :: b7 :: rest →
      dicom_read_element_length s
        = Run.ret (val32 s.priv_data.endian b4 b5 b6 b7,
            { s with pb := ⟨rest, s.pb.pos + 8, s.pb.eof_reached⟩ })) ∧
    (s.priv_data.vr_explicit ≠ 0 → [b0 % 256, b1 % 256] ∉ long_form_codes →
      s.pb.buf = b0 :: b1 :: b2 :: b3 :: rest →
      dicom_read_element_length s
        = Run.ret (val16 s.priv_data.endian b2 b3,
            { s with pb := ⟨rest, s.pb.pos + 4, s.pb.eof_reached⟩ })) := by
  refine ⟨fun hi hb => read_element_length_implicit s b0 b1 b2 b3 rest hi hb,
    fun hx hv hb => read_element_length_long s b0 b1 b2 b3 b4 b5 b6 b7 rest hx ?_ hb,
    fun hx hv hb => read_element_length_short s b0 b1 b2 b3 rest hx ?_ hb⟩
  · cases h : vr_is_short (b0 % 256) (b1 % 256)
    · rfl
    · exact absurd hv ((vr_is_short_iff _ _).1 h)
  · exact (vr_is_short_iff _ _).2 hv

/-! ### The parse mode selected by the transfer syntax -/

theorem parse_syntax_cases (d : DICOMContext) :
    (d.syntax_.type = 0 →
      dicom_parse_syntax d = (0, { d with vr_explicit := DICOM_VR_IMPLICIT })) ∧
    (d.syntax_.type = 2 →
      dicom_parse_syntax d = (0, { d with endian := DICOM_ENDIAN_BE })) ∧
    (d.syntax_.type = 5 →
      dicom_parse_syntax d = (0, { d with compression := DICOM_COMPRESSION_RLE })) ∧
    (d.syntax_.type = 199 →
      dicom_parse_syntax d
        = (AVERROR_PATCHWELCOME, { d with compression := DICOM_COMPRESSION_DEFLATE })) ∧
    (d.syntax_.type ≠ 0 → d.syntax_.type ≠ 2 → d.syntax_.type ≠ 5 → d.syntax_.type ≠ 199 →
      dicom_parse_syntax d = (0, d)) := by
  refine ⟨?_, ?_, ?_, ?_, ?_⟩
  · intro h; simp [ dicom_parse_syntax, h]
  · intro h; simp [ dicom_parse_syntax, h]
  · intro h; simp [ dicom_parse_syntax, h]
  · intro h; simp [ dicom_parse_syntax, h]
  · intro h0 h2 h5 h199; simp [ dicom_parse_syntax, h0, h2, h5, h199]

theorem parse_syntax_ret (d : DICOMContext) (h : d.syntax_.type ≠ 199) :
    ( dicom_parse_syntax d).1 = 0 := by
  unfold dicom_parse_syntax
  split_ifs <;> rfl

theorem parse_syntax_default (e : DICOMTransferSyntax) :
    (( dicom_parse_syntax (default_mode e)).2.endian,
      ( dicom_parse_syntax (default_mode e)).2.vr_explicit)
      = if e.type = 0 then (DICOM_ENDIAN_LE, DICOM_VR_IMPLICIT)
        else if e.type = 2 then (DICOM_ENDIAN_BE, DICOM_VR_EXPLICIT)
        else (DICOM_ENDIAN_LE, DICOM_VR_EXPLICIT) := by
  unfold dicom_parse_syntax default_mode
  simp only
  split
  · rfl
  · split
    · rw [if_neg (by omega)]
    · split
      · rfl
      · split <;> rfl

/-- C8: `dicom_parse_syntax` by type code. Type 0 sets only `vr_explicit`
(implicit), type 2 only `endian` (big), type 5 only `compression`
(run-length), type 199 only `compression` (deflate) and returns
`AVERROR_PATCHWELCOME`, every other type leaves the context unchanged, and
the return value is 0 unless the type is 199. From the defaults of
`dicom_read_header` the resulting (byte order, style) is (little, implicit)
for type 0, (big, explicit) for type 2, (little, explicit) otherwise. -/
theorem C8_parse_syntax_mode (d : DICOMContext) (e : DICOMTransferSyntax) :
    ((d.syntax_.type = 0 →
      dicom_parse_syntax d = (0, { d with vr_explicit := DICOM_VR_IMPLICIT })) ∧
    (d.syntax_.type = 2 →
      dicom_parse_syntax d = (0, { d with endian := DICOM_ENDIAN_BE })) ∧
    (d.syntax_.type = 5 →
      dicom_parse_syntax d = (0, { d with compression := DICOM_COMPRESSION_RLE })) ∧
    (d.syntax_.type = 199 →
      dicom_parse_syntax d
        = (AVERROR_PATCHWELCOME, { d with compression := DICOM_COMPRESSION_DEFLATE })) ∧
    (d.syntax_.type ≠ 0 → d.syntax_.type ≠ 2 → d.syntax_.type ≠ 5 → d.syntax_.type ≠ 199 →
      dicom_parse_syntax d = (0, d))) ∧
    (d.syntax_.type ≠ 199 → ( dicom_parse_syntax d).1 = 0) ∧
    (( dicom_parse_syntax (default_mode e)).2.endian,
      ( dicom_parse_syntax (default_mode e)).2.vr_explicit)
      = (if e.type = 0 then (DICOM_ENDIAN_LE, DICOM_VR_IMPLICIT)
        else if e.type = 2 then (DICOM_ENDIAN_BE, DICOM_VR_EXPLICIT)
        else (DICOM_ENDIAN_LE, DICOM_VR_EXPLICIT)) :=
  ⟨parse_syntax_cases d, parse_syntax_ret d, parse_syntax_default e⟩

/-! ### The transfer-syntax table -/

theorem strcmp_eq_nul (a : List Nat) :
    ∀ (b pad : List Nat), (∀ x ∈ a, x ≠ 0) → (∀ x ∈ b, x ≠ 0) →
      strcmp_eq a (b ++ 0 :: pad) = some (decide (a = b)) := by
  induction a with
  | nil =>
    intro b pad _ hb
    cases b with
    | nil => simp [strcmp_eq]
    | cons c cs =>
      have hc : c ≠ 0 := hb c (List.mem_cons_self _ _)
      simp [strcmp_eq, hc]
  | cons x xs ih =>
    intro b pad ha hb
    have hx : x ≠ 0 := ha x (List.mem_cons_self _ _)
    cases b with
    | nil => simp [strcmp_eq, hx]
    | cons c cs =>
      have hxs : ∀ y ∈ xs, y ≠ 0 := fun y hy => ha y (List.mem_cons_of_mem _ hy)
      have hcs : ∀ y ∈ cs, y ≠ 0 := fun y hy => hb y (List.mem_cons_of_mem _ hy)
      by_cases hxc : x = c
      · subst hxc
        simp [strcmp_eq, ih cs pad hxs hcs]
      · simp [strcmp_eq, hxc]

theorem scan_table_skip (syn : List Nat) (pre : List DICOMTransferSyntax) :
    ∀ (i : Nat) (tl : List DICOMTransferSyntax),
      (∀ e ∈ pre, strcmp_eq (cstr e.name) syn = some false) →
      scan_table syn i (pre ++ tl) = scan_table syn (i + pre.length) tl := by
  induction pre with
  | nil => intro i tl _; simp
  | cons e es ih =>
    intro i tl h
    have he := h e (List.mem_cons_self _ _)
    have hes : ∀ e' ∈ es, strcmp_eq (cstr e'.name) syn = some false :=
      fun e' he' => h e' (List.mem_cons_of_mem _ he')
    show (match strcmp_eq (cstr e.name) syn with
      | none => Run.undefined
      | some true => Run.ret i
      | some false => scan_table syn (i + 1) (es ++ tl)) = _
    rw [he]
    show scan_table syn (i + 1) (es ++ tl) = _
    rw [ih (i + 1) tl hes, List.length_cons]
    congr 1
    omega

theorem scan_table_overrun (syn : List Nat) (table : List DICOMTransferSyntax) (i : Nat)
    (h : ∀ e ∈ table, strcmp_eq (cstr e.name) syn = some false) :
    scan_table syn i table = Run.undefined := by
  have := scan_table_skip syn table i [] h
  simpa [scan_table] using this

theorem scan_table_found (syn : List Nat) (pre post : List DICOMTransferSyntax)
    (e : DICOMTransferSyntax)
    (hpre : ∀ e' ∈ pre, strcmp_eq (cstr e'.name) syn = some false)
    (he : strcmp_eq (cstr e.name) syn = some true) :
    scan_table syn 0 (pre ++ e :: post) = Run.ret pre.length := by
  rw [scan_table_skip syn pre 0 (e :: post) hpre]
  simp [scan_table, he]

/-- The names of the table contain no NUL byte. -/
theorem table_names_nonzero :
    ∀ e ∈ dicom_transfer_syntax, ∀ x ∈ cstr e.name, x ≠ 0 := by
  decide

/-- The names of the table are pairwise different. -/
theorem table_names_nodup :
    ( dicom_transfer_syntax.map (fun e => cstr e.name)).Nodup := by
  decide

theorem sizeof_table : sizeof_dicom_transfer_syntax = 1520 := by decide

theorem table_length : dicom_transfer_syntax.length = 38 := by decide

theorem table_names_byte :
    ∀ e ∈ dicom_transfer_syntax, ∀ x ∈ cstr e.name, x < 256 := by
  decide

theorem map_mod_of_lt (l : List Nat) (h : ∀ x ∈ l, x < 256) :
    l.map (fun b => b % 256) = l := by
  induction l with
  | nil => rfl
  | cons a t ih =>
    have ha : a < 256 := h a (List.mem_cons_self _ _)
    have ht : ∀ x ∈ t, x < 256 := fun x hx => h x (List.mem_cons_of_mem _ hx)
    simp [ih ht, Nat.mod_eq_of_lt ha]

theorem split_at_index {α : Type} (l : List α) :
    ∀ (k : Nat) (e : α), l.get? k = some e →
      l = l.take k ++ e :: l.drop (k + 1) ∧ (l.take k).length = k := by
  induction l with
  | nil => intro k e h; simp at h
  | cons a t ih =>
    intro k e h
    cases k with
    | zero =>
      simp at h
      subst h
      simp
    | succ n =>
      simp at h
      obtain ⟨h1, h2⟩ := ih n e (by simpa using h)
      constructor
      · simp only [List.take_succ_cons, List.drop_succ_cons, List.cons_append]
        rw [← h1]
      · simp only [List.take_succ_cons, List.length_cons, h2]

theorem name_ne_of_nodup (pre post : List DICOMTransferSyntax) (e e' : DICOMTransferSyntax)
    (hnd : ((pre ++ e :: post).map (fun x => cstr x.name)).Nodup) (he' : e' ∈ pre) :
    cstr e'.name ≠ cstr e.name := by
  intro hne
  rw [List.map_append, List.map_cons] at hnd
  have hdis := (List.nodup_append.1 hnd).2.2
  exact hdis (List.mem_map_of_mem (fun x => cstr x.name) he') (by rw [hne]; exact List.mem_cons_self _ _)

theorem scan_table_entry (k : Nat) (e : DICOMTransferSyntax) (pad : List Nat)
    (he : dicom_transfer_syntax.get? k = some e) :
    scan_table (cstr e.name ++ 0 :: pad) 0 dicom_transfer_syntax = Run.ret k := by
  obtain ⟨hsplit, hlen⟩ := split_at_index dicom_transfer_syntax k e he
  have hmem : e ∈ dicom_transfer_syntax := List.get?_mem he
  have hnz := table_names_nonzero
  have hnd := table_names_nodup
  rw [hsplit] at hnd
  have hpre : ∀ e' ∈ dicom_transfer_syntax.take k,
      strcmp_eq (cstr e'.name) (cstr e.name ++ 0 :: pad) = some false := by
    intro e' he'
    rw [strcmp_eq_nul _ _ _ (hnz e' (List.mem_of_mem_take he')) (hnz e hmem)]
    simp [name_ne_of_nodup _ _ e e' hnd he']
  have hfound : strcmp_eq (cstr e.name) (cstr e.name ++ 0 :: pad) = some true := by
    rw [strcmp_eq_nul _ _ _ (hnz e hmem) (hnz e hmem)]
    simp
  have := scan_table_found (cstr e.name ++ 0 :: pad) _ ( dicom_transfer_syntax.drop (k + 1)) e
    hpre hfound
  rw [← hsplit, hlen] at this
  exact this

theorem avio_read_exact (value rest : List Nat) (p : Nat) (eof : Bool) :
    avio_read ⟨value ++ rest, p, eof⟩ value.length
      = (value.map (fun b => b % 256), ⟨rest, p + value.length, eof⟩) := by
  simp [avio_read]

theorem read_transfer_syntax_eq (v0 v1 l0 l1 : Nat) (tl : List Nat) (p : Nat) (eof : Bool)
    (d : DICOMContext) :
    dicom_read_transfer_syntax ⟨⟨v0 :: v1 :: l0 :: l1 :: tl, p, eof⟩, d⟩
      = resolve_syntax (avio_read ⟨tl, p + 2 + 2, eof⟩ (l0 % 256 + l1 % 256 * 256)).1
          (avio_read ⟨tl, p + 2 + 2, eof⟩ (l0 % 256 + l1 % 256 * 256)).2 d := rfl

theorem read_transfer_syntax_found (s : AVFormatContext) (k : Nat) (e : DICOMTransferSyntax)
    (v0 v1 : Nat) (pad rest : List Nat)
    (he : dicom_transfer_syntax.get? k = some e)
    (hlen : (cstr e.name ++ 0 :: pad).length ≤ 25)
    (hb : s.pb.buf = v0 :: v1 :: (cstr e.name ++ 0 :: pad).length :: 0 ::
      (cstr e.name ++ 0 :: pad ++ rest)) :
    dicom_read_transfer_syntax s
      = Run.ret (0,
          { pb := ⟨rest, s.pb.pos + 4 + (cstr e.name ++ 0 :: pad).length, s.pb.eof_reached⟩,
            priv_data := { s.priv_data with syntax_ := e } }) := by
  obtain ⟨⟨buf, p, eof⟩, d⟩ := s
  simp only at hb
  subst hb
  have hmem : e ∈ dicom_transfer_syntax := List.get?_mem he
  have hk : k < 38 := by
    have := (List.get?_eq_some.1 he).1
    rw [table_length] at this
    exact this
  have hsyn : (cstr e.name ++ 0 :: pad).map (fun b => b % 256)
      = cstr e.name ++ 0 :: pad.map (fun b => b % 256) := by
    rw [List.map_append, List.map_cons, map_mod_of_lt _ (table_names_byte e hmem)]
  have hscan := scan_table_entry k e (pad.map (fun b => b % 256)) he
  rw [← hsyn] at hscan
  generalize cstr e.name ++ 0 :: pad = value at hlen hscan
  have hmod : value.length % 256 + 0 % 256 * 256 = value.length := by omega
  have hsz : ¬ (k = sizeof_dicom_transfer_syntax) := by rw [sizeof_table]; omega
  rw [read_transfer_syntax_eq, hmod, avio_read_exact]
  unfold resolve_syntax
  rw [if_neg (by rw [List.length_map, DICOM_TRANSFER_SYNTAX_MAXSIZE]; omega), hscan]
  simp only [hsz, if_false, he]

theorem strcmp_eq_space (a : List Nat) :
    ∀ (b tail : List Nat), (∀ x ∈ a, x ≠ 0 ∧ x ≠ 32) → (∀ x ∈ b, x ≠ 0) →
      strcmp_eq a (b ++ 32 :: tail) = some false := by
  induction a with
  | nil =>
    intro b tail _ hb
    cases b with
    | nil => simp [strcmp_eq]
    | cons c cs =>
      have hc : c ≠ 0 := hb c (List.mem_cons_self _ _)
      simp [strcmp_eq, hc]
  | cons x xs ih =>
    intro b tail ha hb
    have hx := ha x (List.mem_cons_self _ _)
    cases b with
    | nil => simp [strcmp_eq, hx.2]
    | cons c cs =>
      have hxs : ∀ y ∈ xs, y ≠ 0 ∧ y ≠ 32 := fun y hy => ha y (List.mem_cons_of_mem _ hy)
      have hcs : ∀ y ∈ cs, y ≠ 0 := fun y hy => hb y (List.mem_cons_of_mem _ hy)
      by_cases hxc : x = c
      · subst hxc
        simp [strcmp_eq, ih cs tail hxs hcs]
      · simp [strcmp_eq, hxc]

/-- The names of the table contain neither a NUL byte nor a space. -/
theorem table_names_nonspace :
    ∀ e ∈ dicom_transfer_syntax, ∀ x ∈ cstr e.name, x ≠ 0 ∧ x ≠ 32 := by
  decide

theorem table_entry_index (j k : Nat) (e : DICOMTransferSyntax)
    (hj : dicom_transfer_syntax.get? j = some e)
    (hk : dicom_transfer_syntax.get? k = some e) : j = k := by
  have hnz := table_names_nonzero
  have hmem : e ∈ dicom_transfer_syntax := List.get?_mem hk
  have h1 := scan_table_entry j e [] hj
  have h2 := scan_table_entry k e [] hk
  rw [h1] at h2
  exact Run.ret.inj h2

/-- The name of entry 0 of the table is a prefix of the name of every entry. -/
theorem table_prefix :
    ∀ e1 ∈ dicom_transfer_syntax, cstr "1.2.840.10008.1.2" <+: cstr e1.name := by
  decide

/-- C5: lookup is by exact string equality. For every index `k` of the
38-entry table, when the identifier read from the stream is the name of entry
`k` followed by a NUL (and any further bytes within the 25-byte buffer),
`dicom_read_transfer_syntax` returns 0 with the cursor after the identifier
and with `syntax` set to entry `k`, which is the entry of no other index,
although the name of entry 0 is a prefix of the name of every entry. -/
theorem C5_lookup_exact (s : AVFormatContext) (k : Nat) (e : DICOMTransferSyntax)
    (v0 v1 : Nat) (pad rest : List Nat)
    (he : dicom_transfer_syntax.get? k = some e)
    (hlen : (cstr e.name ++ 0 :: pad).length ≤ 25)
    (hb : s.pb.buf = v0 :: v1 :: (cstr e.name ++ 0 :: pad).length :: 0 ::
      (cstr e.name ++ 0 :: pad ++ rest)) :
    dicom_read_transfer_syntax s
      = Run.ret (0,
          { pb := ⟨rest, s.pb.pos + 4 + (cstr e.name ++ 0 :: pad).length, s.pb.eof_reached⟩,
            priv_data := { s.priv_data with syntax_ := e } }) ∧
    (∀ j : Nat, j ≠ k → dicom_transfer_syntax.get? j ≠ some e) ∧
    List.length dicom_transfer_syntax = 38 ∧
    ∀ e1 ∈ dicom_transfer_syntax, cstr "1.2.840.10008.1.2" <+: cstr e1.name :=
  ⟨read_transfer_syntax_found s k e v0 v1 pad rest he hlen hb,
    fun j hjk hj => hjk (table_entry_index j k e hj he), table_length, table_prefix⟩

/-- Witness of C5 at entry 1 of the table, "1.2.840.10008.1.2.1", padded with
one NUL to the even length 20. -/
theorem C5_lookup_exact_witness :
    dicom_read_transfer_syntax
        ⟨⟨[85, 73, 20, 0] ++ (cstr "1.2.840.10008.1.2.1" ++ [0] ++ [8, 0, 5, 0]), 140, false⟩,
          ctx0⟩
      = Run.ret (0,
          { pb := ⟨[8, 0, 5, 0], 164, false⟩,
            priv_data := { ctx0 with syntax_ := ⟨"1.2.840.10008.1.2.1", 1, "none"⟩ } }) ∧
    ∀ j : Nat, j ≠ 1 →
      dicom_transfer_syntax.get? j ≠ some ⟨"1.2.840.10008.1.2.1", 1, "none"⟩ :=
  ⟨(C5_lookup_exact ⟨⟨[85, 73, 20, 0] ++ (cstr "1.2.840.10008.1.2.1" ++ [0] ++ [8, 0, 5, 0]),
      140, false⟩, ctx0⟩ 1 ⟨"1.2.840.10008.1.2.1", 1, "none"⟩ 85 73 [] [8, 0, 5, 0]
    (by decide) (by decide) (by decide)).1,
   (C5_lookup_exact ⟨⟨[85, 73, 20, 0] ++ (cstr "1.2.840.10008.1.2.1" ++ [0] ++ [8, 0, 5, 0]),
      140, false⟩, ctx0⟩ 1 ⟨"1.2.840.10008.1.2.1", 1, "none"⟩ 85 73 [] [8, 0, 5, 0]
    (by decide) (by decide) (by decide)).2.1⟩

/-- C4: the identifier "1.2.3" (NUL-terminated) is the name of no table entry.
The scan of `dicom_read_transfer_syntax` compares it with all 38 entries and
then indexes the table past its end: the outcome is undefined behaviour, not
the return value `AVERROR(EINVAL)`. -/
theorem C4_unknown_identifier_overruns_table :
    dicom_read_transfer_syntax
        ⟨⟨[85, 73, 6, 0] ++ (cstr "1.2.3" ++ [0]), 140, false⟩, ctx0⟩
      = Run.undefined := by
  decide

/-- C6, as stated, fails: the name of entry 1 followed by one space
(declared length 20) does not resolve to entry 1; it matches no entry and the
scan leaves the table. -/
theorem C6_space_pad_counterexample :
    dicom_read_transfer_syntax
        ⟨⟨[85, 73, 20, 0] ++ (cstr "1.2.840.10008.1.2.1" ++ [32]), 140, false⟩, ctx0⟩
      = Run.undefined := by
  decide

/-- C6, amended: for every table entry, the entry's name followed by one
trailing NUL byte resolves to that entry; a trailing space is not stripped,
the space-padded name compares unequal to the name of every table entry. -/
theorem C6_nul_pad_resolves (s : AVFormatContext) (k : Nat) (e : DICOMTransferSyntax)
    (v0 v1 : Nat) (rest : List Nat)
    (he : dicom_transfer_syntax.get? k = some e)
    (hb : s.pb.buf = v0 :: v1 :: (cstr e.name ++ [0]).length :: 0 ::
      (cstr e.name ++ [0] ++ rest)) :
    dicom_read_transfer_syntax s
      = Run.ret (0,
          { pb := ⟨rest, s.pb.pos + 4 + (cstr e.name ++ [0]).length, s.pb.eof_reached⟩,
            priv_data := { s.priv_data with syntax_ := e } }) ∧
    ∀ e' ∈ dicom_transfer_syntax,
      strcmp_eq (cstr e'.name) (cstr e.name ++ [32]) = some false := by
  have hmem : e ∈ dicom_transfer_syntax := List.get?_mem he
  refine ⟨read_transfer_syntax_found s k e v0 v1 [] rest he ?_ hb, ?_⟩
  · have : ∀ e ∈ dicom_transfer_syntax, (cstr e.name ++ [0]).length ≤ 25 := by decide
    exact this e hmem
  · intro e' he'
    exact strcmp_eq_space _ _ [] (table_names_nonspace e' he')
      (fun x hx => (table_names_nonspace e hmem x hx).1)

/-- Witness of the amended C6 at entry 0 of the table, "1.2.840.10008.1.2",
padded with one NUL to the even length 18. -/
theorem C6_nul_pad_resolves_witness :
    dicom_read_transfer_syntax
        ⟨⟨[85, 73, 18, 0] ++ (cstr "1.2.840.10008.1.2" ++ [0] ++ [8, 0, 5, 0]), 140, false⟩,
          ctx0⟩
      = Run.ret (0,
          { pb := ⟨[8, 0, 5, 0], 162, false⟩,
            priv_data := { ctx0 with syntax_ := ⟨"1.2.840.10008.1.2", 0, "none"⟩ } }) ∧
    ∀ e' ∈ dicom_transfer_syntax,
      strcmp_eq (cstr e'.name) (cstr "1.2.840.10008.1.2" ++ [32]) = some false :=
  C6_nul_pad_resolves ⟨⟨[85, 73, 18, 0] ++ (cstr "1.2.840.10008.1.2" ++ [0] ++ [8, 0, 5, 0]),
      140, false⟩, ctx0⟩ 0 ⟨"1.2.840.10008.1.2", 0, "none"⟩ 85 73 [8, 0, 5, 0]
    (by decide) (by decide)

/-! ### Skipping well-formed elements -/

theorem w16_length (endian : Int) (v : Nat) : (w16 endian v).length = 2 := by
  unfold w16; split <;> rfl

theorem w32_length (endian : Int) (v : Nat) : (w32 endian v).length = 4 := by
  unfold w32; split <;> simp [w16_length]

theorem dicom_r16_w16 (d : DICOMContext) (v : Nat) (rest : List Nat) (p : Nat) (e : Bool) :
    dicom_r16 ⟨w16 d.endian v ++ rest, p, e⟩ d = (v % 65536, ⟨rest, p + 2, e⟩) := by
  by_cases h : d.endian = 0
  · simp only [w16, h, ne_eq, not_true_eq_false, if_false, List.cons_append, List.nil_append]
    rw [dicom_r16_cons, val16, if_neg (not_not.2 h)]
    refine Prod.ext ?_ rfl
    show _ = _
    omega
  · simp only [w16, h, ne_eq, not_false_eq_true, if_true, List.cons_append, List.nil_append]
    rw [dicom_r16_cons, val16, if_pos h]
    refine Prod.ext ?_ rfl
    show _ = _
    omega

theorem dicom_r32_w32 (d : DICOMContext) (v : Nat) (rest : List Nat) (p : Nat) (e : Bool) :
    dicom_r32 ⟨w32 d.endian v ++ rest, p, e⟩ d = (v % 4294967296, ⟨rest, p + 4, e⟩) := by
  by_cases h : d.endian = 0
  · simp only [w32, w16, h, ne_eq, not_true_eq_false, if_false, List.cons_append,
      List.nil_append]
    rw [dicom_r32_cons, val32, if_neg (not_not.2 h)]
    refine Prod.ext ?_ rfl
    show _ = _
    omega
  · simp only [w32, w16, h, ne_eq, not_false_eq_true, if_true, List.cons_append,
      List.nil_append]
    rw [dicom_r32_cons, val32, if_pos h]
    refine Prod.ext ?_ rfl
    show _ = _
    omega

theorem read_element_length_enc (d : DICOMContext) (vr0 vr1 len : Nat) (rest : List Nat)
    (p : Nat) (e : Bool) :
    dicom_read_element_length ⟨⟨enc_length d vr0 vr1 len ++ rest, p, e⟩, d⟩
      = Run.ret (declared d vr0 vr1 len,
          ⟨⟨rest, p + (enc_length d vr0 vr1 len).length, e⟩, d⟩) := by
  by_cases hx : d.vr_explicit = 0
  · simp only [enc_length, declared, hx, ne_eq, not_true_eq_false, if_false, false_and,
      dicom_read_element_length, dicom_r32_w32, w32_length]
  · cases hv : vr_is_short (vr0 % 256) (vr1 % 256)
    · simp only [enc_length, declared, hx, ne_eq, not_false_eq_true, if_true, hv,
        Bool.false_eq_true, and_false, if_false, dicom_read_element_length,
        List.cons_append, List.nil_append, avio_read_two, avio_skip, List.drop_succ_cons,
        List.drop_zero, dicom_r32_w32, List.length_cons, w32_length]
    · simp only [enc_length, declared, hx, ne_eq, not_false_eq_true, if_true, hv,
        and_self, dicom_read_element_length,
        List.cons_append, List.nil_append, avio_read_two, dicom_r16_w16, List.length_cons,
        w16_length]

theorem declared_of_len_ok (d : DICOMContext) (vr0 vr1 len : Nat)
    (h : len_ok d vr0 vr1 len = true) :
    declared d vr0 vr1 len = len ∧ len ≠ 0xffffffff := by
  unfold len_ok at h
  unfold declared
  split at h
  · rename_i hc
    rw [if_pos hc]
    have : len < 65536 := by simpa using h
    omega
  · rename_i hc
    rw [if_neg hc]
    have : len < 0xffffffff := by simpa using h
    omega

theorem declared_of_long_form (d : DICOMContext) (vr0 vr1 : Nat)
    (h : long_form d vr0 vr1 = true) :
    declared d vr0 vr1 0xffffffff = 0xffffffff := by
  unfold long_form at h
  unfold declared
  rw [if_neg]
  intro hc
  simp [hc.1, hc.2] at h

theorem enc_length_ge (d : DICOMContext) (vr0 vr1 len : Nat) :
    4 ≤ (enc_length d vr0 vr1 len).length := by
  unfold enc_length
  split
  · split <;> simp [w16_length, w32_length]
  · simp [w32_length]

/-- One iteration of the loop of `dicom_nested_data` on a stream that starts
with the tag `(g, e)`. -/
theorem nested_data_tag (fuel : Nat) (d : DICOMContext) (g e : Nat) (rest : List Nat)
    (p : Nat) (hg : g < 65536) (he : e < 65536) :
    dicom_nested_data (fuel + 1)
        ⟨⟨w16 d.endian g ++ (w16 d.endian e ++ rest), p, false⟩, d⟩
      = if g = 0xFFFE ∧ e = 0xE0DD then
          Run.ret (p + 4 + 4, ⟨⟨rest.drop 4, p + 4 + 4, false⟩, d⟩)
        else
          match get_next_element_body (dicom_nested_data fuel) ⟨⟨rest, p + 4, false⟩, d⟩ with
          | Run.undefined => Run.undefined
          | Run.timeout => Run.timeout
          | Run.ret (_, s1) => dicom_nested_data fuel s1 := by
  have h : p + 2 + 2 = p + 4 := by omega
  simp only [dicom_nested_data, avio_feof, Bool.false_eq_true, if_false, dicom_r16_w16,
    Nat.mod_eq_of_lt hg, Nat.mod_eq_of_lt he, avio_skip, h]

theorem get_next_element_leaf (nested : AVFormatContext → Run (Nat × AVFormatContext))
    (d : DICOMContext) (vr0 vr1 : Nat) (value rest : List Nat) (p : Nat) (eof : Bool)
    (h : len_ok d vr0 vr1 value.length = true) :
    get_next_element_body nested
        ⟨⟨enc_length d vr0 vr1 value.length ++ (value ++ rest), p, eof⟩, d⟩
      = Run.ret (p + (enc_length d vr0 vr1 value.length).length + value.length,
          ⟨⟨rest, p + (enc_length d vr0 vr1 value.length).length + value.length, eof⟩, d⟩) := by
  obtain ⟨h1, h2⟩ := declared_of_len_ok d vr0 vr1 value.length h
  simp only [get_next_element_body, read_element_length_enc, h1, ne_eq, h2,
    not_false_eq_true, if_true, avio_skip, List.drop_left']

theorem get_next_element_seq (nested : AVFormatContext → Run (Nat × AVFormatContext))
    (d : DICOMContext) (vr0 vr1 : Nat) (rest : List Nat) (p : Nat) (eof : Bool)
    (h : long_form d vr0 vr1 = true) :
    get_next_element_body nested
        ⟨⟨enc_length d vr0 vr1 0xffffffff ++ rest, p, eof⟩, d⟩
      = nested ⟨⟨rest, p + (enc_length d vr0 vr1 0xffffffff).length, eof⟩, d⟩ := by
  simp only [get_next_element_body, read_element_length_enc, declared_of_long_form d vr0 vr1 h,
    ne_eq, not_true_eq_false, if_false]

theorem ret_pos_eq (tail : List Nat) (d : DICOMContext) (eof : Bool) (a b : Nat) (h : a = b) :
    (Run.ret (a, (⟨⟨tail, a, eof⟩, d⟩ : AVFormatContext)) : Run (Nat × AVFormatContext))
      = Run.ret (b, ⟨⟨tail, b, eof⟩, d⟩) := by
  rw [h]

theorem nested_data_body (d : DICOMContext) (b : Body) :
    ∀ (fuel p : Nat) (pad tail : List Nat), Body.wf d b = true → pad.length = 4 →
      (Body.encode d b).length < fuel →
      dicom_nested_data fuel ⟨⟨Body.encode d b ++ (delimiter d pad ++ tail), p, false⟩, d⟩
        = Run.ret (p + (Body.encode d b).length + 8,
            ⟨⟨tail, p + (Body.encode d b).length + 8, false⟩, d⟩) := by
  induction b with
  | nil =>
    intro fuel p pad tail _ hpad hfuel
    obtain ⟨f, rfl⟩ : ∃ f, fuel = f + 1 := ⟨fuel - 1, by omega⟩
    simp only [Body.encode, List.nil_append, delimiter, List.append_assoc, List.length_nil,
      Nat.add_zero]
    rw [nested_data_tag f d 0xFFFE 0xE0DD _ p (by omega) (by omega), if_pos ⟨rfl, rfl⟩,
      List.drop_left' hpad]
  | leaf g e v0 v1 value rest ih =>
    intro fuel p pad tail hwf hpad hfuel
    simp only [Body.wf, Bool.and_eq_true, decide_eq_true_eq, Bool.not_eq_true',
      decide_eq_false_iff_not] at hwf
    obtain ⟨⟨⟨⟨hg, he⟩, hnd⟩, hlen⟩, hrest⟩ := hwf
    have h4 := enc_length_ge d v0 v1 value.length
    simp only [Body.encode, List.length_append, w16_length] at hfuel
    obtain ⟨f, rfl⟩ : ∃ f, fuel = f + 1 := ⟨fuel - 1, by omega⟩
    simp only [Body.encode, List.append_assoc]
    rw [nested_data_tag f d g e _ p hg he, if_neg hnd, get_next_element_leaf _ d v0 v1 value _ _ _ hlen]
    simp only
    rw [ih f _ pad tail hrest hpad (by omega)]
    apply ret_pos_eq
    simp only [List.length_append, w16_length]
    omega
  | seq g e v0 v1 inner ipad rest ihi ihr =>
    intro fuel p pad tail hwf hpad hfuel
    simp only [Body.wf, Bool.and_eq_true, decide_eq_true_eq, Bool.not_eq_true',
      decide_eq_false_iff_not] at hwf
    obtain ⟨⟨⟨⟨⟨⟨hg, he⟩, hnd⟩, hlong⟩, hipad⟩, hinner⟩, hrest⟩ := hwf
    have h4 := enc_length_ge d v0 v1 0xffffffff
    simp only [Body.encode, List.length_append, w16_length] at hfuel
    obtain ⟨f, rfl⟩ : ∃ f, fuel = f + 1 := ⟨fuel - 1, by omega⟩
    simp only [Body.encode, List.append_assoc]
    rw [nested_data_tag f d g e _ p hg he, if_neg hnd, get_next_element_seq _ d v0 v1 _ _ _ hlong]
    have hi := ihi f (p + 4 + (enc_length d v0 v1 0xffffffff).length) ipad
      (Body.encode d rest ++ (delimiter d pad ++ tail)) hinner hipad (by omega)
    simp only [delimiter, List.append_assoc] at hi ⊢
    rw [hi]
    simp only
    have hr := ihr f (p + 4 + (enc_length d v0 v1 0xffffffff).length
      + (Body.encode d inner).length + 8) pad tail hrest hpad (by omega)
    simp only [delimiter, List.append_assoc] at hr
    rw [hr]
    apply ret_pos_eq
    simp only [List.length_append, w16_length, hipad]
    omega

theorem delimiter_length (d : DICOMContext) (pad : List Nat) :
    (delimiter d pad).length = 4 + pad.length := by
  simp [delimiter, w16_length]; omega

theorem enc_length_length_eq (d : DICOMContext) (vr0 vr1 a b : Nat) :
    (enc_length d vr0 vr1 a).length = (enc_length d vr0 vr1 b).length := by
  unfold enc_length
  split
  · split <;> simp [w16_length, w32_length]
  · simp [w32_length]

theorem len_ok_of_long_form (d : DICOMContext) (vr0 vr1 len : Nat)
    (h : long_form d vr0 vr1 = true) (hl : len < 0xffffffff) :
    len_ok d vr0 vr1 len = true := by
  unfold long_form at h
  unfold len_ok
  rw [if_neg]
  · simpa using hl
  · intro hc
    simp [hc.1, hc.2] at h

/-- Skipping an element of undefined length by scanning its inner elements. -/
theorem get_next_element_scan (fuel : Nat) (d : DICOMContext) (vr0 vr1 : Nat) (inner : Body)
    (pad tail : List Nat) (p : Nat)
    (hlong : long_form d vr0 vr1 = true) (hwf : Body.wf d inner = true)
    (hpad : pad.length = 4) (hfuel : (Body.encode d inner).length < fuel) :
    dicom_get_next_element fuel
        ⟨⟨enc_length d vr0 vr1 0xffffffff ++ (Body.encode d inner ++ (delimiter d pad ++ tail)),
          p, false⟩, d⟩
      = Run.ret (p + (enc_length d vr0 vr1 0xffffffff).length + (Body.encode d inner).length + 8,
          ⟨⟨tail, p + (enc_length d vr0 vr1 0xffffffff).length + (Body.encode d inner).length + 8,
            false⟩, d⟩) := by
  unfold dicom_get_next_element
  rw [get_next_element_seq _ d vr0 vr1 _ _ _ hlong,
    nested_data_body d inner fuel _ pad tail hwf hpad hfuel]

/-- Skipping the same bytes by a declared length. -/
theorem get_next_element_known (fuel : Nat) (d : DICOMContext) (vr0 vr1 : Nat) (inner : Body)
    (pad tail : List Nat) (p : Nat)
    (hlong : long_form d vr0 vr1 = true)
    (hpad : pad.length = 4) (hsize : (Body.encode d inner).length + 8 < 0xffffffff) :
    dicom_get_next_element fuel
        ⟨⟨enc_length d vr0 vr1 ((Body.encode d inner).length + 8)
            ++ (Body.encode d inner ++ (delimiter d pad ++ tail)), p, false⟩, d⟩
      = Run.ret (p + (enc_length d vr0 vr1 0xffffffff).length + (Body.encode d inner).length + 8,
          ⟨⟨tail, p + (enc_length d vr0 vr1 0xffffffff).length + (Body.encode d inner).length + 8,
            false⟩, d⟩) := by
  unfold dicom_get_next_element
  have hvl : (Body.encode d inner ++ delimiter d pad).length = (Body.encode d inner).length + 8 := by
    rw [List.length_append, delimiter_length, hpad]
  have hok := len_ok_of_long_form d vr0 vr1 _ hlong hsize
  rw [← hvl] at hok ⊢
  have h := get_next_element_leaf (dicom_nested_data fuel) d vr0 vr1
    (Body.encode d inner ++ delimiter d pad) tail p false hok
  rw [List.append_assoc] at h
  rw [h]
  apply ret_pos_eq
  rw [hvl, enc_length_length_eq d vr0 vr1 _ 0xffffffff]
  omega

/-- C9: skip-by-scan equals skip-by-length. In every parse mode and header
form that holds a 32-bit length, for every well-formed body and every tail,
`dicom_get_next_element` on (undefined length, body, delimiter tag, 4 bytes,
tail) and on the same bytes with the length field replaced by the true length
`|body| + 8` give the same outcome: both return with the cursor at the first
byte of the tail. -/
theorem C9_skip_by_scan_eq_skip_by_length (fuel : Nat) (d : DICOMContext) (vr0 vr1 : Nat)
    (inner : Body) (pad tail : List Nat) (p : Nat)
    (hlong : long_form d vr0 vr1 = true) (hwf : Body.wf d inner = true)
    (hpad : pad.length = 4) (hsize : (Body.encode d inner).length + 8 < 0xffffffff)
    (hfuel : (Body.encode d inner).length < fuel) :
    dicom_get_next_element fuel
        ⟨⟨enc_length d vr0 vr1 0xffffffff ++ (Body.encode d inner ++ (delimiter d pad ++ tail)),
          p, false⟩, d⟩
      = dicom_get_next_element fuel
        ⟨⟨enc_length d vr0 vr1 ((Body.encode d inner).length + 8)
            ++ (Body.encode d inner ++ (delimiter d pad ++ tail)), p, false⟩, d⟩ ∧
    dicom_get_next_element fuel
        ⟨⟨enc_length d vr0 vr1 0xffffffff ++ (Body.encode d inner ++ (delimiter d pad ++ tail)),
          p, false⟩, d⟩
      = Run.ret (p + (enc_length d vr0 vr1 0xffffffff).length + (Body.encode d inner).length + 8,
          ⟨⟨tail, p + (enc_length d vr0 vr1 0xffffffff).length + (Body.encode d inner).length + 8,
            false⟩, d⟩) := by
  rw [get_next_element_scan fuel d vr0 vr1 inner pad tail p hlong hwf hpad hfuel,
    get_next_element_known fuel d vr0 vr1 inner pad tail p hlong hpad hsize]
  exact ⟨rfl, rfl⟩

/-- Witness of C9 in explicit little-endian mode: a sequence (VR "SQ") that
holds one inner element (0x0008,0x0005) with VR "CS" and a 2-byte value. -/
theorem C9_skip_by_scan_eq_skip_by_length_witness :
    dicom_get_next_element 20
        ⟨⟨[83, 81, 0, 0, 255, 255, 255, 255, 8, 0, 5, 0, 67, 83, 2, 0, 1, 2,
            254, 255, 221, 224, 0, 0, 0, 0, 9, 9], 200, false⟩, default_mode ctx0.syntax_⟩
      = dicom_get_next_element 20
        ⟨⟨[83, 81, 0, 0, 18, 0, 0, 0, 8, 0, 5, 0, 67, 83, 2, 0, 1, 2,
            254, 255, 221, 224, 0, 0, 0, 0, 9, 9], 200, false⟩, default_mode ctx0.syntax_⟩ ∧
    dicom_get_next_element 20
        ⟨⟨[83, 81, 0, 0, 255, 255, 255, 255, 8, 0, 5, 0, 67, 83, 2, 0, 1, 2,
            254, 255, 221, 224, 0, 0, 0, 0, 9, 9], 200, false⟩, default_mode ctx0.syntax_⟩
      = Run.ret (226, ⟨⟨[9, 9], 226, false⟩, default_mode ctx0.syntax_⟩) :=
  C9_skip_by_scan_eq_skip_by_length 20 (default_mode ctx0.syntax_) 83 81
    (Body.leaf 8 5 67 83 [1, 2] Body.nil) [0, 0, 0, 0] [9, 9] 200
    (by decide) (by decide) (by decide) (by decide) (by decide)

/-! ### The two passes of `dicom_read_header` -/

theorem data_set_next_tag (f : Nat) (d : DICOMContext) (g e : Nat) (R : List Nat) (p : Nat)
    (eof : Bool) (hg : g < 65536) (he : e < 65536) :
    data_set_next f ⟨⟨w16 d.endian g ++ (w16 d.endian e ++ R), p, eof⟩, d⟩
      = data_set_loop f ⟨⟨R, p + 4, eof⟩, d⟩ g e := by
  have h : p + 2 + 2 = p + 4 := by omega
  simp only [data_set_next, dicom_r16_w16, Nat.mod_eq_of_lt hg, Nat.mod_eq_of_lt he, h]

theorem data_set_loop_pixel (f : Nat) (s : AVFormatContext) (h : s.pb.eof_reached = false) :
    data_set_loop (f + 1) s 0x7fe0 0x0010 = Run.ret (0, s) := by
  simp [data_set_loop, avio_feof, h]

theorem data_set_loop_skip (f : Nat) (s s1 : AVFormatContext) (g e r : Nat)
    (hg : g ≠ 0x0028) (hp : ¬ (g = 0x7fe0 ∧ e = 0x0010)) (heof : s.pb.eof_reached = false)
    (h : dicom_get_next_element f s = Run.ret (r, s1)) (hr : r ≠ 0) :
    data_set_loop (f + 1) s g e = data_set_next f s1 := by
  simp only [data_set_loop, avio_feof, heof, Bool.not_false, if_true, hg, if_false, hp, h, hr,
    data_set_next]

theorem data_set_loop_metadata (f : Nat) (s s1 : AVFormatContext) (e : Nat)
    (heof : s.pb.eof_reached = false)
    (h : dicom_read_metadata f s e = Run.ret (0, s1)) :
    data_set_loop (f + 1) s 0x0028 e = data_set_next f s1 := by
  simp only [data_set_loop, avio_feof, heof, Bool.not_false, if_true, h, ne_eq,
    not_true_eq_false, if_false, data_set_next]

theorem read_size_of_le (n : Nat) (h : n ≤ 1024) : read_size n = n := by
  unfold read_size
  rw [if_pos (by omega)]

theorem read_metadata_leaf (f : Nat) (d : DICOMContext) (e vr0 vr1 : Nat) (value X : List Nat)
    (p : Nat) (eof : Bool) (hlen : len_ok d vr0 vr1 value.length = true)
    (hm : metadata_value_ok e value = true) :
    dicom_read_metadata f ⟨⟨enc_length d vr0 vr1 value.length ++ (value ++ X), p, eof⟩, d⟩ e
      = Run.ret (0,
          ⟨⟨X, p + (enc_length d vr0 vr1 value.length).length + value.length, eof⟩, d⟩) := by
  obtain ⟨h1, h2⟩ := declared_of_len_ok d vr0 vr1 value.length hlen
  unfold metadata_value_ok at hm
  simp only [dicom_read_metadata, read_element_length_enc, h1]
  split_ifs at hm with c1 c2 c3 c4
  · have hv : value.length = 2 := by simpa using hm
    obtain ⟨a, b, rfl⟩ := List.length_eq_two.1 hv
    simp only [c1, if_true, List.cons_append, List.nil_append, dicom_r16_cons, List.length_cons,
      List.length_nil]
  · have hv : value.length = 4 := by simpa using hm
    obtain ⟨a, b, c, rfl⟩ : ∃ a b c, value = a :: b :: c := by
      match value, hv with
      | a :: b :: c, _ => exact ⟨a, b, c, rfl⟩
    have hc : c.length = 2 := by simpa using hv
    obtain ⟨a', b', rfl⟩ := List.length_eq_two.1 hc
    simp only [c1, c2, if_true, if_false, List.cons_append, List.nil_append, dicom_r16_cons,
      List.length_cons, List.length_nil]
  · have hv : value.length = 4 := by simpa using hm
    obtain ⟨a, b, c, rfl⟩ : ∃ a b c, value = a :: b :: c := by
      match value, hv with
      | a :: b :: c, _ => exact ⟨a, b, c, rfl⟩
    have hc : c.length = 2 := by simpa using hv
    obtain ⟨a', b', rfl⟩ := List.length_eq_two.1 hc
    simp only [c1, c2, c3, if_true, if_false, List.cons_append, List.nil_append,
      dicom_r32_cons, List.length_cons, List.length_nil]
  · simp only [Bool.and_eq_true, decide_eq_true_eq] at hm
    obtain ⟨hv, hz⟩ := hm
    simp only [c1, c2, c3, c4, if_true, if_false, read_size_of_le _ hv, avio_read_exact,
      List.length_map]
    rw [if_neg (by omega), if_pos hz]
  · simp only [c1, c2, c3, c4, if_false, h2, avio_skip, List.drop_left']

theorem read_metadata_seq (f : Nat) (d : DICOMContext) (e vr0 vr1 : Nat) (inner : Body)
    (pad X : List Nat) (p : Nat)
    (hk : metadata_known e = false)
    (hlong : long_form d vr0 vr1 = true) (hwf : Body.wf d inner = true)
    (hpad : pad.length = 4) (hfuel : (Body.encode d inner).length < f) :
    dicom_read_metadata f
        ⟨⟨enc_length d vr0 vr1 0xffffffff ++ (Body.encode d inner ++ (delimiter d pad ++ X)),
          p, false⟩, d⟩ e
      = Run.ret (0,
          ⟨⟨X, p + (enc_length d vr0 vr1 0xffffffff).length + (Body.encode d inner).length + 8,
            false⟩, d⟩) := by
  simp only [metadata_known, Bool.or_eq_false_iff, decide_eq_false_iff_not] at hk
  obtain ⟨⟨⟨c1, c2⟩, c3⟩, c4⟩ := hk
  simp only [dicom_read_metadata, read_element_length_enc, declared_of_long_form d vr0 vr1 hlong,
    c1, c2, c3, c4, if_false, if_true,
    nested_data_body d inner f _ pad X hwf hpad hfuel]

theorem run_int_pos_eq (X : List Nat) (d : DICOMContext) (fn : AVFormatContext → Run (Int × AVFormatContext))
    (a b : Nat) (h : a = b) :
    fn ⟨⟨X, a, false⟩, d⟩ = fn ⟨⟨X, b, false⟩, d⟩ := by
  rw [h]

theorem data_set_scan (d : DICOMContext) (b : Body) :
    ∀ (F p : Nat) (X : List Nat) (r : Run (Int × AVFormatContext)),
      Body.wf d b = true → Body.top_ok b = true →
      (∀ f, F ≤ f → data_set_next f ⟨⟨X, p + (Body.encode d b).length, false⟩, d⟩ = r) →
      ∀ f, F + (Body.encode d b).length ≤ f →
        data_set_next f ⟨⟨Body.encode d b ++ X, p, false⟩, d⟩ = r := by
  induction b with
  | nil =>
    intro F p X r _ _ hk f hf
    simpa [Body.encode] using hk f (by simpa [Body.encode] using hf)
  | leaf g e v0 v1 value rest ih =>
    intro F p X r hwf htop hk f hf
    simp only [Body.wf, Bool.and_eq_true, decide_eq_true_eq, Bool.not_eq_true',
      decide_eq_false_iff_not] at hwf
    obtain ⟨⟨⟨⟨hg, he⟩, _⟩, hlen⟩, hrest⟩ := hwf
    simp only [Body.top_ok, Bool.and_eq_true, Bool.not_eq_true', decide_eq_false_iff_not,
      Bool.or_eq_true] at htop
    obtain ⟨⟨hnp, hmeta⟩, htrest⟩ := htop
    have h4 := enc_length_ge d v0 v1 value.length
    have hlenb : (Body.encode d (Body.leaf g e v0 v1 value rest)).length
        = 4 + (enc_length d v0 v1 value.length).length + value.length
          + (Body.encode d rest).length := by
      simp only [Body.encode, List.length_append, w16_length]
    rw [hlenb] at hk hf
    obtain ⟨f', rfl⟩ : ∃ f', f = f' + 1 := ⟨f - 1, by omega⟩
    have hcont : data_set_next f'
        ⟨⟨Body.encode d rest ++ X,
          p + 4 + (enc_length d v0 v1 value.length).length + value.length, false⟩, d⟩ = r := by
      apply ih F _ X r hrest htrest _ f' (by omega)
      intro f1 hf1
      rw [← hk f1 hf1]
      apply run_int_pos_eq
      omega
    simp only [Body.encode, List.append_assoc]
    rw [data_set_next_tag f'.succ d g e _ p false hg he]
    by_cases h28 : g = 0x0028
    · subst h28
      have hm : metadata_value_ok e value = true := by
        rcases hmeta with h | h
        · exact absurd rfl h
        · exact h
      rw [data_set_loop_metadata f' _ _ e rfl
        (read_metadata_leaf f' d e v0 v1 value _ (p + 4) false hlen hm)]
      exact hcont
    · rw [data_set_loop_skip f' _ _ g e _ h28 hnp rfl
        (get_next_element_leaf (dicom_nested_data f') d v0 v1 value _ (p + 4) false hlen)
        (by omega)]
      exact hcont
  | seq g e v0 v1 inner ipad rest _ ihr =>
    intro F p X r hwf htop hk f hf
    simp only [Body.wf, Bool.and_eq_true, decide_eq_true_eq, Bool.not_eq_true',
      decide_eq_false_iff_not] at hwf
    obtain ⟨⟨⟨⟨⟨⟨hg, he⟩, _⟩, hlong⟩, hipad⟩, hinner⟩, hrest⟩ := hwf
    simp only [Body.top_ok, Bool.and_eq_true, Bool.not_eq_true', decide_eq_false_iff_not,
      Bool.or_eq_true] at htop
    obtain ⟨⟨hnp, hmeta⟩, htrest⟩ := htop
    have h4 := enc_length_ge d v0 v1 0xffffffff
    have hlenb : (Body.encode d (Body.seq g e v0 v1 inner ipad rest)).length
        = 4 + (enc_length d v0 v1 0xffffffff).length + (Body.encode d inner).length + 8
          + (Body.encode d rest).length := by
      simp only [Body.encode, List.length_append, w16_length, hipad]
    rw [hlenb] at hk hf
    obtain ⟨f', rfl⟩ : ∃ f', f = f' + 1 := ⟨f - 1, by omega⟩
    have hcont : data_set_next f'
        ⟨⟨Body.encode d rest ++ X,
          p + 4 + (enc_length d v0 v1 0xffffffff).length + (Body.encode d inner).length + 8,
          false⟩, d⟩ = r := by
      apply ihr F _ X r hrest htrest _ f' (by omega)
      intro f1 hf1
      rw [← hk f1 hf1]
      apply run_int_pos_eq
      omega
    have hbuf : Body.encode d (Body.seq g e v0 v1 inner ipad rest) ++ X
        = w16 d.endian g ++ (w16 d.endian e ++ (enc_length d v0 v1 0xffffffff
          ++ (Body.encode d inner ++ (delimiter d ipad ++ (Body.encode d rest ++ X))))) := by
      simp only [Body.encode, delimiter, List.append_assoc]
    rw [hbuf, data_set_next_tag f'.succ d g e _ p false hg he]
    by_cases h28 : g = 0x0028
    · subst h28
      have hm : metadata_known e = false := by
        rcases hmeta with h | h
        · exact absurd rfl h
        · exact h
      rw [data_set_loop_metadata f' _ _ e rfl
        (read_metadata_seq f' d e v0 v1 inner ipad _ (p + 4) hm hlong hinner hipad (by omega))]
      exact hcont
    · rw [data_set_loop_skip f' _ _ g e _ h28 hnp rfl
        (get_next_element_scan f' d v0 v1 inner ipad _ (p + 4) hlong hinner hipad (by omega))
        (by omega)]
      exact hcont

theorem data_set_next_pixel (f : Nat) (d : DICOMContext) (tail : List Nat) (p : Nat)
    (hf : 1 ≤ f) :
    data_set_next f ⟨⟨w16 d.endian 0x7fe0 ++ (w16 d.endian 0x0010 ++ tail), p, false⟩, d⟩
      = Run.ret (0, ⟨⟨tail, p + 4, false⟩, d⟩) := by
  obtain ⟨f1, rfl⟩ : ∃ f1, f = f1 + 1 := ⟨f - 1, by omega⟩
  rw [data_set_next_tag _ d 0x7fe0 0x0010 tail p false (by omega) (by omega),
    data_set_loop_pixel f1 _ rfl]

/-- The data-set loop on a well-formed data set: from a cursor at the first
tag it returns 0 with the cursor right after the pixel-data tag. -/
theorem data_set_next_found (d : DICOMContext) (b : Body) (tail : List Nat) (p f : Nat)
    (hwf : Body.wf d b = true) (htop : Body.top_ok b = true)
    (hf : 1 + (Body.encode d b).length ≤ f) :
    data_set_next f ⟨⟨Body.encode d b ++ (pixel_tag d ++ tail), p, false⟩, d⟩
      = Run.ret (0, ⟨⟨tail, p + (Body.encode d b).length + 4, false⟩, d⟩) := by
  apply data_set_scan d b 1 p _ _ hwf htop _ f hf
  intro f1 hf1
  rw [pixel_tag, List.append_assoc, data_set_next_pixel f1 d tail _ hf1]

theorem data_set_loop_seq (f : Nat) (d : DICOMContext) (g e vr0 vr1 : Nat) (inner : Body)
    (pad X : List Nat) (p : Nat)
    (hroute : g ≠ 0x0028 ∨ metadata_known e = false) (hnp : ¬ (g = 0x7fe0 ∧ e = 0x0010))
    (hlong : long_form d vr0 vr1 = true) (hwf : Body.wf d inner = true)
    (hpad : pad.length = 4) (hfuel : (Body.encode d inner).length < f) :
    data_set_loop (f + 1)
        ⟨⟨enc_length d vr0 vr1 0xffffffff ++ (Body.encode d inner ++ (delimiter d pad ++ X)),
          p, false⟩, d⟩ g e
      = data_set_next f
          ⟨⟨X, p + (enc_length d vr0 vr1 0xffffffff).length + (Body.encode d inner).length + 8,
            false⟩, d⟩ := by
  have h4 := enc_length_ge d vr0 vr1 0xffffffff
  by_cases h28 : g = 0x0028
  · subst h28
    have hm : metadata_known e = false := by
      rcases hroute with h | h
      · exact absurd rfl h
      · exact h
    rw [data_set_loop_metadata f _ _ e rfl
      (read_metadata_seq f d e vr0 vr1 inner pad X p hm hlong hwf hpad hfuel)]
  · rw [data_set_loop_skip f _ _ g e _ h28 hnp rfl
      (get_next_element_scan f d vr0 vr1 inner pad X p hlong hwf hpad hfuel) (by omega)]

theorem file_meta_next_tag (f : Nat) (d : DICOMContext) (g e : Nat) (R : List Nat) (p : Nat)
    (eof : Bool) (hd : d.endian = 0) (hg : g < 65536) (he : e < 65536) :
    file_meta_next f ⟨⟨w16 d.endian g ++ (w16 d.endian e ++ R), p, eof⟩, d⟩
      = file_meta_loop f ⟨⟨R, p + 4, eof⟩, d⟩ g e := by
  have h : p + 2 + 2 = p + 4 := by omega
  have hg2 : g % 256 % 256 + g / 256 % 256 % 256 * 256 = g := by omega
  have he2 : e % 256 % 256 + e / 256 % 256 % 256 * 256 = e := by omega
  simp only [file_meta_next, w16, hd, ne_eq, not_true_eq_false, if_false, List.cons_append,
    List.nil_append, avio_rl16_cons, h, hg2, he2]

theorem file_meta_loop_exit (f : Nat) (s : AVFormatContext) (g e : Nat) (hg : g ≠ 0x0002) :
    file_meta_loop (f + 1) s g e = Run.ret (Sum.inr (g, e), s) := by
  simp [file_meta_loop, hg]

theorem file_meta_loop_skip (f : Nat) (s s1 : AVFormatContext) (e r : Nat)
    (he : e ≠ 0x0010) (heof : s.pb.eof_reached = false)
    (h : dicom_get_next_element f s = Run.ret (r, s1)) (hr : r ≠ 0) :
    file_meta_loop (f + 1) s 0x0002 e = file_meta_next f s1 := by
  simp only [file_meta_loop, avio_feof, heof, Bool.not_false, decide_True, Bool.and_self,
    if_true, he, if_false, h, hr, file_meta_next]

theorem file_meta_loop_transfer (f : Nat) (s s1 : AVFormatContext)
    (heof : s.pb.eof_reached = false)
    (h : dicom_read_transfer_syntax s = Run.ret (0, s1)) :
    file_meta_loop (f + 1) s 0x0002 0x0010 = file_meta_next f s1 := by
  simp only [file_meta_loop, avio_feof, heof, Bool.not_false, decide_True, Bool.and_self,
    if_true, h, ne_eq, not_true_eq_false, if_false, file_meta_next]

theorem run_meta_pos_eq (X : List Nat) (d : DICOMContext)
    (fn : AVFormatContext → Run ((Int ⊕ (Nat × Nat)) × AVFormatContext))
    (a b : Nat) (h : a = b) :
    fn ⟨⟨X, a, false⟩, d⟩ = fn ⟨⟨X, b, false⟩, d⟩ := by
  rw [h]

theorem file_meta_scan (d : DICOMContext) (hd : d.endian = 0) (m : Body) :
    ∀ (F p : Nat) (X : List Nat) (r : Run ((Int ⊕ (Nat × Nat)) × AVFormatContext)),
      Body.wf d m = true → Body.meta_ok m = true →
      (∀ f, F ≤ f → file_meta_next f ⟨⟨X, p + (Body.encode d m).length, false⟩, d⟩ = r) →
      ∀ f, F + (Body.encode d m).length ≤ f →
        file_meta_next f ⟨⟨Body.encode d m ++ X, p, false⟩, d⟩ = r := by
  induction m with
  | nil =>
    intro F p X r _ _ hk f hf
    simpa [Body.encode] using hk f (by simpa [Body.encode] using hf)
  | leaf g e v0 v1 value rest ih =>
    intro F p X r hwf hmeta hk f hf
    simp only [Body.wf, Bool.and_eq_true, decide_eq_true_eq, Bool.not_eq_true',
      decide_eq_false_iff_not] at hwf
    obtain ⟨⟨⟨⟨hg, he⟩, _⟩, hlen⟩, hrest⟩ := hwf
    simp only [Body.meta_ok, Bool.and_eq_true, decide_eq_true_eq, Bool.not_eq_true',
      decide_eq_false_iff_not] at hmeta
    obtain ⟨⟨hg2, he10⟩, hmrest⟩ := hmeta
    subst hg2
    have h4 := enc_length_ge d v0 v1 value.length
    have hlenb : (Body.encode d (Body.leaf 2 e v0 v1 value rest)).length
        = 4 + (enc_length d v0 v1 value.length).length + value.length
          + (Body.encode d rest).length := by
      simp only [Body.encode, List.length_append, w16_length]
    rw [hlenb] at hk hf
    obtain ⟨f1, rfl⟩ : ∃ f1, f = f1 + 1 := ⟨f - 1, by omega⟩
    have hcont : file_meta_next f1
        ⟨⟨Body.encode d rest ++ X,
          p + 4 + (enc_length d v0 v1 value.length).length + value.length, false⟩, d⟩ = r := by
      apply ih F _ X r hrest hmrest _ f1 (by omega)
      intro f2 hf2
      rw [← hk f2 hf2]
      apply run_meta_pos_eq
      omega
    simp only [Body.encode, List.append_assoc]
    rw [file_meta_next_tag f1.succ d 2 e _ p false hd hg he,
      file_meta_loop_skip f1 _ _ e _ he10 rfl
        (get_next_element_leaf (dicom_nested_data f1) d v0 v1 value _ (p + 4) false hlen)
        (by omega)]
    exact hcont
  | seq g e v0 v1 inner ipad rest _ ihr =>
    intro F p X r hwf hmeta hk f hf
    simp only [Body.wf, Bool.and_eq_true, decide_eq_true_eq, Bool.not_eq_true',
      decide_eq_false_iff_not] at hwf
    obtain ⟨⟨⟨⟨⟨⟨hg, he⟩, _⟩, hlong⟩, hipad⟩, hinner⟩, hrest⟩ := hwf
    simp only [Body.meta_ok, Bool.and_eq_true, decide_eq_true_eq, Bool.not_eq_true',
      decide_eq_false_iff_not] at hmeta
    obtain ⟨⟨hg2, he10⟩, hmrest⟩ := hmeta
    subst hg2
    have h4 := enc_length_ge d v0 v1 0xffffffff
    have hlenb : (Body.encode d (Body.seq 2 e v0 v1 inner ipad rest)).length
        = 4 + (enc_length d v0 v1 0xffffffff).length + (Body.encode d inner).length + 8
          + (Body.encode d rest).length := by
      simp only [Body.encode, List.length_append, w16_length, hipad]
    rw [hlenb] at hk hf
    obtain ⟨f1, rfl⟩ : ∃ f1, f = f1 + 1 := ⟨f - 1, by omega⟩
    have hcont : file_meta_next f1
        ⟨⟨Body.encode d rest ++ X,
          p + 4 + (enc_length d v0 v1 0xffffffff).length + (Body.encode d inner).length + 8,
          false⟩, d⟩ = r := by
      apply ihr F _ X r hrest hmrest _ f1 (by omega)
      intro f2 hf2
      rw [← hk f2 hf2]
      apply run_meta_pos_eq
      omega
    have hbuf : Body.encode d (Body.seq 2 e v0 v1 inner ipad rest) ++ X
        = w16 d.endian 2 ++ (w16 d.endian e ++ (enc_length d v0 v1 0xffffffff
          ++ (Body.encode d inner ++ (delimiter d ipad ++ (Body.encode d rest ++ X))))) := by
      simp only [Body.encode, delimiter, List.append_assoc]
    rw [hbuf, file_meta_next_tag f1.succ d 2 e _ p false hd hg he,
      file_meta_loop_skip f1 _ _ e _ he10 rfl
        (get_next_element_scan f1 d v0 v1 inner ipad _ (p + 4) hlong hinner hipad (by omega))
        (by omega)]
    exact hcont

theorem and_swap_mask (x : Nat) (h : x < 65536) :
    (x <<< 8) &&& (0xff00 + (x >>> 8)) = x % 256 * 256 := by
  have hh : x >>> 8 < 2 ^ 8 := by
    rw [Nat.shiftRight_eq_div_pow]
    omega
  have hb : 0xff00 + (x >>> 8) = 2 ^ 8 * 255 + (x >>> 8) := by norm_num
  have hr : x % 256 * 256 = (x % 2 ^ 8) <<< 8 := by
    rw [Nat.shiftLeft_eq]
    norm_num
  rw [hb, hr]
  apply Nat.eq_of_testBit_eq
  intro i
  rw [Nat.testBit_and, Nat.testBit_shiftLeft, Nat.testBit_shiftLeft,
    Nat.testBit_mul_pow_two_add 255 hh i, Nat.testBit_mod_two_pow]
  by_cases hi : i < 8
  · have : ¬ (i ≥ 8) := by omega
    simp [this]
  · have h8 : i ≥ 8 := by omega
    have h255 : (255 : Nat) = 2 ^ 8 - 1 := by norm_num
    simp only [h8, decide_True, Bool.true_and, hi, if_false, h255, Nat.testBit_two_pow_sub_one]
    rw [Bool.and_comm]

theorem swap_expr_eq (x : Nat) (h : x < 65536) : swap_expr x = x % 256 * 256 := by
  unfold swap_expr
  rw [and_swap_mask x h]
  omega

theorem enc_length_congr (d d1 : DICOMContext) (he : d.endian = d1.endian)
    (hv : d.vr_explicit = d1.vr_explicit) (vr0 vr1 len : Nat) :
    enc_length d vr0 vr1 len = enc_length d1 vr0 vr1 len := by
  unfold enc_length
  rw [he, hv]

theorem len_ok_congr (d d1 : DICOMContext)
    (hv : d.vr_explicit = d1.vr_explicit) (vr0 vr1 len : Nat) :
    len_ok d vr0 vr1 len = len_ok d1 vr0 vr1 len := by
  unfold len_ok
  rw [hv]

theorem long_form_congr (d d1 : DICOMContext)
    (hv : d.vr_explicit = d1.vr_explicit) (vr0 vr1 : Nat) :
    long_form d vr0 vr1 = long_form d1 vr0 vr1 := by
  unfold long_form
  rw [hv]

theorem encode_congr (d d1 : DICOMContext) (he : d.endian = d1.endian)
    (hv : d.vr_explicit = d1.vr_explicit) (b : Body) :
    Body.encode d b = Body.encode d1 b := by
  induction b with
  | nil => rfl
  | leaf g e v0 v1 value rest ih =>
    simp only [Body.encode, ih, he, enc_length_congr d d1 he hv]
  | seq g e v0 v1 inner pad rest ihi ihr =>
    simp only [Body.encode, ihi, ihr, he, enc_length_congr d d1 he hv]

theorem wf_congr (d d1 : DICOMContext)
    (hv : d.vr_explicit = d1.vr_explicit) (b : Body) :
    Body.wf d b = Body.wf d1 b := by
  induction b with
  | nil => rfl
  | leaf g e v0 v1 value rest ih =>
    simp only [Body.wf, ih, len_ok_congr d d1 hv]
  | seq g e v0 v1 inner pad rest ihi ihr =>
    simp only [Body.wf, ihi, ihr, long_form_congr d d1 hv]

theorem file_meta_next_raw (f : Nat) (d : DICOMContext) (b0 b1 b2 b3 : Nat) (R : List Nat)
    (p : Nat) (eof : Bool) :
    file_meta_next f ⟨⟨b0 :: b1 :: b2 :: b3 :: R, p, eof⟩, d⟩
      = file_meta_loop f ⟨⟨R, p + 4, eof⟩, d⟩ (val16 0 b0 b1) (val16 0 b2 b3) := by
  rfl

theorem ts_element_length (e : DICOMTransferSyntax) (vr0 vr1 : Nat) (pad : List Nat) :
    (ts_element e vr0 vr1 pad).length = 8 + (cstr e.name ++ 0 :: pad).length := by
  simp only [ts_element, List.length_append, List.length_cons, List.length_nil]

/-- The file-meta loop on a transfer-syntax element that names a table
entry. -/
theorem file_meta_next_transfer (f : Nat) (d : DICOMContext) (k : Nat) (e : DICOMTransferSyntax)
    (vr0 vr1 : Nat) (pad X : List Nat) (p : Nat)
    (he : dicom_transfer_syntax.get? k = some e)
    (hid : (cstr e.name ++ 0 :: pad).length ≤ 25) :
    file_meta_next (f + 1) ⟨⟨ts_element e vr0 vr1 pad ++ X, p, false⟩, d⟩
      = file_meta_next f
          ⟨⟨X, p + (ts_element e vr0 vr1 pad).length, false⟩, { d with syntax_ := e }⟩ := by
  have hb : ts_element e vr0 vr1 pad ++ X
      = 0x02 :: 0x00 :: 0x10 :: 0x00 :: (vr0 :: vr1 :: (cstr e.name ++ 0 :: pad).length :: 0 ::
        (cstr e.name ++ 0 :: pad ++ X)) := by
    simp only [ts_element, List.cons_append, List.nil_append, List.append_assoc]
  have hg : val16 0 0x02 0x00 = 0x0002 := by decide
  have hel : val16 0 0x10 0x00 = 0x0010 := by decide
  rw [hb, file_meta_next_raw, hg, hel,
    file_meta_loop_transfer f _ _ rfl
      (read_transfer_syntax_found _ k e vr0 vr1 pad X he hid rfl)]
  apply run_meta_pos_eq X _ (file_meta_next f)
  rw [ts_element_length]
  simp only
  omega

theorem read_header_fuel_eq (fuel : Nat) (s : AVFormatContext) :
    dicom_read_header_fuel fuel s
      = after_file_meta fuel
          (file_meta_next fuel
            ⟨(avio_skip s.pb 0x84).2,
              { s.priv_data with
                endian := DICOM_ENDIAN_LE,
                vr_explicit := DICOM_VR_EXPLICIT,
                compression := DICOM_COMPRESSION_NONE }⟩) := rfl

/-- The first loop of `dicom_read_header` on a well-formed file-meta group:
it is left with the first tag of the data set, read little-endian, and with
`syntax` set to the table entry named by the transfer-syntax element. -/
theorem file_meta_pass (fuel : Nat) (d0 : DICOMContext) (p : Nat) (m1 m2 : Body)
    (k : Nat) (e : DICOMTransferSyntax) (vr0 vr1 : Nat) (pad : List Nat) (b0 b1 b2 b3 : Nat)
    (R : List Nat)
    (he : dicom_transfer_syntax.get? k = some e)
    (hid : (cstr e.name ++ 0 :: pad).length ≤ 25)
    (hm1 : Body.wf (default_mode e) m1 = true) (hk1 : Body.meta_ok m1 = true)
    (hm2 : Body.wf (default_mode e) m2 = true) (hk2 : Body.meta_ok m2 = true)
    (hgrp : val16 0 b0 b1 ≠ 0x0002)
    (hfuel : (Body.encode (default_mode e) m1).length
      + (Body.encode (default_mode e) m2).length + 2 ≤ fuel) :
    file_meta_next fuel
        ⟨⟨Body.encode (default_mode e) m1 ++ (ts_element e vr0 vr1 pad
            ++ (Body.encode (default_mode e) m2 ++ b0 :: b1 :: b2 :: b3 :: R)), p, false⟩,
          default_mode d0.syntax_⟩
      = Run.ret (Sum.inr (val16 0 b0 b1, val16 0 b2 b3),
          ⟨⟨R, p + (Body.encode (default_mode e) m1).length + (ts_element e vr0 vr1 pad).length
              + (Body.encode (default_mode e) m2).length + 4, false⟩, default_mode e⟩) := by
  have hc1 := encode_congr (default_mode e) (default_mode d0.syntax_) rfl rfl m1
  have hw1 : Body.wf (default_mode d0.syntax_) m1 = true := by
    rw [← wf_congr (default_mode e) (default_mode d0.syntax_) rfl m1]; exact hm1
  rw [hc1] at hfuel ⊢
  apply file_meta_scan (default_mode d0.syntax_) rfl m1
    (2 + (Body.encode (default_mode e) m2).length) p _ _ hw1 hk1 _ fuel (by omega)
  intro f hf
  obtain ⟨f1, rfl⟩ : ∃ f1, f = f1 + 1 := ⟨f - 1, by omega⟩
  rw [file_meta_next_transfer f1 _ k e vr0 vr1 pad _ _ he hid]
  apply file_meta_scan (default_mode e) rfl m2 1 _ _ _ hm2 hk2 _ f1 (by omega)
  intro f2 hf2
  obtain ⟨f3, rfl⟩ : ∃ f3, f2 = f3 + 1 := ⟨f2 - 1, by omega⟩
  rw [file_meta_next_raw, file_meta_loop_exit f3 _ _ _ hgrp]

/-- The run of `dicom_read_header` up to its second loop, on a stream whose
132-byte prefix is followed by a well-formed file-meta group. -/
theorem read_header_to_data_set (fuel : Nat) (d0 : DICOMContext) (p : Nat) (pre : List Nat)
    (m1 m2 : Body) (k : Nat) (e : DICOMTransferSyntax) (vr0 vr1 : Nat) (pad : List Nat)
    (b0 b1 b2 b3 : Nat) (R : List Nat)
    (hpre : pre.length = 132)
    (he : dicom_transfer_syntax.get? k = some e)
    (hid : (cstr e.name ++ 0 :: pad).length ≤ 25)
    (hm1 : Body.wf (default_mode e) m1 = true) (hk1 : Body.meta_ok m1 = true)
    (hm2 : Body.wf (default_mode e) m2 = true) (hk2 : Body.meta_ok m2 = true)
    (hgrp : val16 0 b0 b1 ≠ 0x0002)
    (hfuel : (Body.encode (default_mode e) m1).length
      + (Body.encode (default_mode e) m2).length + 2 ≤ fuel) :
    dicom_read_header_fuel fuel
        ⟨⟨pre ++ (Body.encode (default_mode e) m1 ++ (ts_element e vr0 vr1 pad
            ++ (Body.encode (default_mode e) m2 ++ b0 :: b1 :: b2 :: b3 :: R))), p, false⟩, d0⟩
      = if (resolved_mode e).vr_explicit = 0 then
          data_set_loop fuel
            ⟨⟨R, p + 132 + (Body.encode (default_mode e) m1).length
                + (ts_element e vr0 vr1 pad).length
                + (Body.encode (default_mode e) m2).length + 4, false⟩, resolved_mode e⟩
            (swap_expr (val16 0 b0 b1)) (swap_expr (val16 0 b2 b3))
        else
          data_set_loop fuel
            ⟨⟨R, p + 132 + (Body.encode (default_mode e) m1).length
                + (ts_element e vr0 vr1 pad).length
                + (Body.encode (default_mode e) m2).length + 4, false⟩, resolved_mode e⟩
            (val16 0 b0 b1) (val16 0 b2 b3) := by
  rw [read_header_fuel_eq]
  have hskip : (avio_skip ⟨pre ++ (Body.encode (default_mode e) m1 ++ (ts_element e vr0 vr1 pad
      ++ (Body.encode (default_mode e) m2 ++ b0 :: b1 :: b2 :: b3 :: R))), p, false⟩ 0x84).2
      = ⟨Body.encode (default_mode e) m1 ++ (ts_element e vr0 vr1 pad
      ++ (Body.encode (default_mode e) m2 ++ b0 :: b1 :: b2 :: b3 :: R)), p + 132, false⟩ := by
    simp only [avio_skip, List.drop_left' hpre]
  have hd : DICOMContext.mk DICOM_ENDIAN_LE DICOM_VR_EXPLICIT DICOM_COMPRESSION_NONE d0.syntax_
      = default_mode d0.syntax_ := rfl
  simp only [hskip, hd]
  rw [file_meta_pass fuel d0 (p + 132) m1 m2 k e vr0 vr1 pad b0 b1 b2 b3 R he hid hm1 hk1 hm2 hk2
    hgrp hfuel]
  rfl

theorem resolved_mode_implicit (e : DICOMTransferSyntax) (h : e.type = 0) :
    resolved_mode e = ⟨0, 0, 0, e⟩ := by
  simp [resolved_mode, dicom_parse_syntax, default_mode, h, DICOM_VR_IMPLICIT, DICOM_ENDIAN_LE,
    DICOM_COMPRESSION_NONE]

theorem resolved_mode_big (e : DICOMTransferSyntax) (h : e.type = 2) :
    resolved_mode e = ⟨1, 1, 0, e⟩ := by
  simp [resolved_mode, dicom_parse_syntax, default_mode, h, DICOM_VR_EXPLICIT, DICOM_ENDIAN_BE,
    DICOM_COMPRESSION_NONE]

theorem resolved_mode_little (e : DICOMTransferSyntax) (h0 : e.type ≠ 0) (h2 : e.type ≠ 2) :
    (resolved_mode e).endian = 0 ∧ (resolved_mode e).vr_explicit = 1 := by
  unfold resolved_mode dicom_parse_syntax default_mode
  simp only [h0, h2, if_false]
  split_ifs <;> exact ⟨rfl, rfl⟩

theorem first_leaf (f : Nat) (d : DICOMContext) (g e v0 v1 : Nat) (value : List Nat)
    (rest : Body) (tail : List Nat) (p : Nat)
    (hlen : len_ok d v0 v1 value.length = true)
    (hwf : Body.wf d rest = true) (htop : Body.top_ok rest = true)
    (hg : g ≠ 0x0028) (hp : ¬ (g = 0x7fe0 ∧ e = 0x0010))
    (hf : 2 + (Body.encode d rest).length ≤ f) :
    data_set_loop f
        ⟨⟨enc_length d v0 v1 value.length
            ++ (value ++ (Body.encode d rest ++ (pixel_tag d ++ tail))), p, false⟩, d⟩ g e
      = Run.ret (0,
          ⟨⟨tail, p + (enc_length d v0 v1 value.length).length + value.length
            + (Body.encode d rest).length + 4, false⟩, d⟩) := by
  have h4 := enc_length_ge d v0 v1 value.length
  obtain ⟨f1, rfl⟩ : ∃ f1, f = f1 + 1 := ⟨f - 1, by omega⟩
  rw [data_set_loop_skip f1 _ _ g e _ hg hp rfl
      (get_next_element_leaf (dicom_nested_data f1) d v0 v1 value _ p false hlen) (by omega),
    data_set_next_found d rest tail _ f1 hwf htop (by omega)]

theorem first_seq (f : Nat) (d : DICOMContext) (g e v0 v1 : Nat) (inner : Body)
    (pad : List Nat) (rest : Body) (tail : List Nat) (p : Nat)
    (hlong : long_form d v0 v1 = true) (hinner : Body.wf d inner = true)
    (hpad : pad.length = 4)
    (hwf : Body.wf d rest = true) (htop : Body.top_ok rest = true)
    (hg : g ≠ 0x0028) (hp : ¬ (g = 0x7fe0 ∧ e = 0x0010))
    (hf : 2 + (Body.encode d inner).length + (Body.encode d rest).length ≤ f) :
    data_set_loop f
        ⟨⟨enc_length d v0 v1 0xffffffff
            ++ (Body.encode d inner ++ (delimiter d pad
              ++ (Body.encode d rest ++ (pixel_tag d ++ tail)))), p, false⟩, d⟩ g e
      = Run.ret (0,
          ⟨⟨tail, p + (enc_length d v0 v1 0xffffffff).length + (Body.encode d inner).length + 8
            + (Body.encode d rest).length + 4, false⟩, d⟩) := by
  obtain ⟨f1, rfl⟩ : ∃ f1, f = f1 + 1 := ⟨f - 1, by omega⟩
  rw [data_set_loop_seq f1 d g e v0 v1 inner pad _ p (Or.inl hg) hp hlong hinner hpad (by omega),
    data_set_next_found d rest tail _ f1 hwf htop (by omega)]

theorem swap_expr_ne_metadata (x : Nat) (h : x < 65536) : swap_expr x ≠ 0x0028 := by
  rw [swap_expr_eq x h]; omega

theorem swap_expr_ne_pixel (x : Nat) (h : x < 65536) : swap_expr x ≠ 0x7fe0 := by
  rw [swap_expr_eq x h]; omega

theorem val16_lt (endian : Int) (a b : Nat) : val16 endian a b < 65536 := by
  unfold val16; split <;> omega

theorem w16_le (endian : Int) (h : endian = 0) (g : Nat) :
    w16 endian g = [g % 256, g / 256 % 256] := by
  simp [w16, h]

theorem w16_be (endian : Int) (h : endian ≠ 0) (g : Nat) :
    w16 endian g = [g / 256 % 256, g % 256] := by
  simp [w16, h]

theorem val16_le_bytes (g : Nat) (h : g < 65536) : val16 0 (g % 256) (g / 256 % 256) = g := by
  simp only [val16, ne_eq, not_true_eq_false, if_false]
  omega

theorem val16_be_bytes (g : Nat) : val16 0 (g / 256 % 256) (g % 256) = swap16 g := by
  simp only [val16, ne_eq, not_true_eq_false, if_false, swap16]
  omega

theorem pixel_tag_length (d : DICOMContext) : (pixel_tag d).length = 4 := by
  simp [pixel_tag, w16_length]

theorem ret_int_pos_eq (tail : List Nat) (d : DICOMContext) (a b : Nat) (h : a = b) :
    (Run.ret ((0 : Int), (⟨⟨tail, a, false⟩, d⟩ : AVFormatContext)) : Run (Int × AVFormatContext))
      = Run.ret (0, ⟨⟨tail, b, false⟩, d⟩) := by
  rw [h]

/-- The second loop of `dicom_read_header` entered with the first tag of a
well-formed data set, as the first loop has read it. -/
theorem data_set_pass (fuel : Nat) (e : DICOMTransferSyntax) (ds : Body) (tail : List Nat)
    (q : Nat)
    (hds : Body.wf (resolved_mode e) ds = true) (htop : Body.top_ok ds = true)
    (hfirst : Body.first_ok e.type ds = true)
    (hfuel : 2 + (Body.encode (resolved_mode e) ds).length ≤ fuel) :
    ∃ (b0 b1 b2 b3 : Nat) (R : List Nat),
      Body.encode (resolved_mode e) ds ++ (pixel_tag (resolved_mode e) ++ tail)
        = b0 :: b1 :: b2 :: b3 :: R ∧
      val16 0 b0 b1 ≠ 0x0002 ∧
      (if (resolved_mode e).vr_explicit = 0 then
          data_set_loop fuel ⟨⟨R, q + 4, false⟩, resolved_mode e⟩
            (swap_expr (val16 0 b0 b1)) (swap_expr (val16 0 b2 b3))
        else
          data_set_loop fuel ⟨⟨R, q + 4, false⟩, resolved_mode e⟩
            (val16 0 b0 b1) (val16 0 b2 b3))
        = Run.ret (0,
            ⟨⟨tail, q + (Body.encode (resolved_mode e) ds).length + 4, false⟩,
              resolved_mode e⟩) := by
  by_cases h0 : e.type = 0
  · -- implicit style: the tag is rewritten by the swap expression
    have hr := resolved_mode_implicit e h0
    generalize resolved_mode e = r at *
    subst hr
    cases ds with
    | nil => simp [Body.first_ok, h0] at hfirst
    | leaf g el v0 v1 value rest =>
      simp only [Body.wf, Bool.and_eq_true, decide_eq_true_eq, Bool.not_eq_true',
        decide_eq_false_iff_not] at hds
      obtain ⟨⟨⟨⟨hg, hel⟩, _⟩, hlen⟩, hrest⟩ := hds
      simp only [Body.top_ok, Bool.and_eq_true] at htop
      have hg2 : g ≠ 2 := by simpa [Body.first_ok, first_tag_ok, h0] using hfirst
      have hlenb : (Body.encode ⟨0, 0, 0, e⟩ (Body.leaf g el v0 v1 value rest)).length
          = 4 + (enc_length ⟨0, 0, 0, e⟩ v0 v1 value.length).length + value.length
            + (Body.encode ⟨0, 0, 0, e⟩ rest).length := by
        simp only [Body.encode, List.length_append, w16_length]
      rw [hlenb] at hfuel ⊢
      refine ⟨g % 256, g / 256 % 256, el % 256, el / 256 % 256,
        enc_length ⟨0, 0, 0, e⟩ v0 v1 value.length
          ++ (value ++ (Body.encode ⟨0, 0, 0, e⟩ rest ++ (pixel_tag ⟨0, 0, 0, e⟩ ++ tail))),
        ?_, ?_, ?_⟩
      · simp only [Body.encode, w16_le _ rfl, List.cons_append, List.nil_append,
          List.append_assoc]
      · rw [val16_le_bytes g hg]; exact hg2
      · rw [if_pos rfl, val16_le_bytes g hg, val16_le_bytes el hel,
          first_leaf fuel _ _ _ v0 v1 value rest tail (q + 4) hlen hrest htop.2
            (swap_expr_ne_metadata g hg) (fun h => swap_expr_ne_pixel g hg h.1) (by omega)]
        apply ret_int_pos_eq
        omega
    | seq g el v0 v1 inner ipad rest =>
      simp only [Body.wf, Bool.and_eq_true, decide_eq_true_eq, Bool.not_eq_true',
        decide_eq_false_iff_not] at hds
      obtain ⟨⟨⟨⟨⟨⟨hg, hel⟩, _⟩, hlong⟩, hipad⟩, hinner⟩, hrest⟩ := hds
      simp only [Body.top_ok, Bool.and_eq_true] at htop
      have hg2 : g ≠ 2 := by simpa [Body.first_ok, first_tag_ok, h0] using hfirst
      have hlenb : (Body.encode ⟨0, 0, 0, e⟩ (Body.seq g el v0 v1 inner ipad rest)).length
          = 4 + (enc_length ⟨0, 0, 0, e⟩ v0 v1 0xffffffff).length
            + (Body.encode ⟨0, 0, 0, e⟩ inner).length + 8
            + (Body.encode ⟨0, 0, 0, e⟩ rest).length := by
        simp only [Body.encode, List.length_append, w16_length, hipad]
      rw [hlenb] at hfuel ⊢
      refine ⟨g % 256, g / 256 % 256, el % 256, el / 256 % 256,
        enc_length ⟨0, 0, 0, e⟩ v0 v1 0xffffffff
          ++ (Body.encode ⟨0, 0, 0, e⟩ inner ++ (delimiter ⟨0, 0, 0, e⟩ ipad
            ++ (Body.encode ⟨0, 0, 0, e⟩ rest ++ (pixel_tag ⟨0, 0, 0, e⟩ ++ tail)))),
        ?_, ?_, ?_⟩
      · simp only [Body.encode, delimiter, w16_le _ rfl, List.cons_append, List.nil_append,
          List.append_assoc]
      · rw [val16_le_bytes g hg]; exact hg2
      · rw [if_pos rfl, val16_le_bytes g hg, val16_le_bytes el hel,
          first_seq fuel _ _ _ v0 v1 inner ipad rest tail (q + 4) hlong hinner hipad hrest htop.2
            (swap_expr_ne_metadata g hg) (fun h => swap_expr_ne_pixel g hg h.1) (by omega)]
        apply ret_int_pos_eq
        omega
  · by_cases h2 : e.type = 2
    · -- big-endian: the tag seen is the byte-swapped one
      have hr := resolved_mode_big e h2
      generalize resolved_mode e = r at *
      subst hr
      cases ds with
      | nil => simp [Body.first_ok, h2] at hfirst
      | leaf g el v0 v1 value rest =>
        simp only [Body.wf, Bool.and_eq_true, decide_eq_true_eq, Bool.not_eq_true',
          decide_eq_false_iff_not] at hds
        obtain ⟨⟨⟨⟨hg, hel⟩, _⟩, hlen⟩, hrest⟩ := hds
        simp only [Body.top_ok, Bool.and_eq_true] at htop
        simp only [Body.first_ok, first_tag_ok, h2, if_true, Bool.and_eq_true,
          decide_eq_true_eq, Bool.not_eq_true', decide_eq_false_iff_not] at hfirst
        obtain ⟨⟨hs2, hs28⟩, hsp⟩ := hfirst
        have hlenb : (Body.encode ⟨1, 1, 0, e⟩ (Body.leaf g el v0 v1 value rest)).length
            = 4 + (enc_length ⟨1, 1, 0, e⟩ v0 v1 value.length).length + value.length
              + (Body.encode ⟨1, 1, 0, e⟩ rest).length := by
          simp only [Body.encode, List.length_append, w16_length]
        rw [hlenb] at hfuel ⊢
        refine ⟨g / 256 % 256, g % 256, el / 256 % 256, el % 256,
          enc_length ⟨1, 1, 0, e⟩ v0 v1 value.length
            ++ (value ++ (Body.encode ⟨1, 1, 0, e⟩ rest ++ (pixel_tag ⟨1, 1, 0, e⟩ ++ tail))),
          ?_, ?_, ?_⟩
        · simp only [Body.encode, w16_be _ (by decide : (1 : Int) ≠ 0), List.cons_append,
            List.nil_append, List.append_assoc]
        · rw [val16_be_bytes g]; exact hs2
        · rw [if_neg (show ¬ ((1 : Int) = 0) by decide), val16_be_bytes g, val16_be_bytes el,
            first_leaf fuel _ _ _ v0 v1 value rest tail (q + 4) hlen hrest htop.2
              hs28 hsp (by omega)]
          apply ret_int_pos_eq
          omega
      | seq g el v0 v1 inner ipad rest =>
        simp only [Body.wf, Bool.and_eq_true, decide_eq_true_eq, Bool.not_eq_true',
          decide_eq_false_iff_not] at hds
        obtain ⟨⟨⟨⟨⟨⟨hg, hel⟩, _⟩, hlong⟩, hipad⟩, hinner⟩, hrest⟩ := hds
        simp only [Body.top_ok, Bool.and_eq_true] at htop
        simp only [Body.first_ok, first_tag_ok, h2, if_true, Bool.and_eq_true,
          decide_eq_true_eq, Bool.not_eq_true', decide_eq_false_iff_not] at hfirst
        obtain ⟨⟨hs2, hs28⟩, hsp⟩ := hfirst
        have hlenb : (Body.encode ⟨1, 1, 0, e⟩ (Body.seq g el v0 v1 inner ipad rest)).length
            = 4 + (enc_length ⟨1, 1, 0, e⟩ v0 v1 0xffffffff).length
              + (Body.encode ⟨1, 1, 0, e⟩ inner).length + 8
              + (Body.encode ⟨1, 1, 0, e⟩ rest).length := by
          simp only [Body.encode, List.length_append, w16_length, hipad]
        rw [hlenb] at hfuel ⊢
        refine ⟨g / 256 % 256, g % 256, el / 256 % 256, el % 256,
          enc_length ⟨1, 1, 0, e⟩ v0 v1 0xffffffff
            ++ (Body.encode ⟨1, 1, 0, e⟩ inner ++ (delimiter ⟨1, 1, 0, e⟩ ipad
              ++ (Body.encode ⟨1, 1, 0, e⟩ rest ++ (pixel_tag ⟨1, 1, 0, e⟩ ++ tail)))),
          ?_, ?_, ?_⟩
        · simp only [Body.encode, delimiter, w16_be _ (by decide : (1 : Int) ≠ 0),
            List.cons_append, List.nil_append, List.append_assoc]
        · rw [val16_be_bytes g]; exact hs2
        · rw [if_neg (show ¬ ((1 : Int) = 0) by decide), val16_be_bytes g, val16_be_bytes el,
            first_seq fuel _ _ _ v0 v1 inner ipad rest tail (q + 4) hlong hinner hipad hrest
              htop.2 hs28 hsp (by omega)]
          apply ret_int_pos_eq
          omega
    · -- explicit little-endian: the tag is used as it was read
      obtain ⟨hre, hrv⟩ := resolved_mode_little e h0 h2
      generalize resolved_mode e = r at *
      have hvx : ¬ (r.vr_explicit = 0) := by rw [hrv]; decide
      cases ds with
      | nil =>
        obtain ⟨f1, rfl⟩ : ∃ f1, fuel = f1 + 1 := ⟨fuel - 1, by omega⟩
        refine ⟨0xe0, 0x7f, 0x10, 0x00, tail, ?_, by decide, ?_⟩
        · simp only [Body.encode, pixel_tag, w16_le _ hre, List.nil_append, List.cons_append]
        · rw [if_neg hvx]
          have hg : val16 0 0xe0 0x7f = 0x7fe0 := by decide
          have hel : val16 0 0x10 0x00 = 0x0010 := by decide
          rw [hg, hel, data_set_loop_pixel f1 _ rfl]
          rfl
      | leaf g el v0 v1 value rest =>
        have hds1 := hds
        simp only [Body.wf, Bool.and_eq_true, decide_eq_true_eq, Bool.not_eq_true',
          decide_eq_false_iff_not] at hds1
        obtain ⟨⟨⟨⟨hg, hel⟩, _⟩, _⟩, _⟩ := hds1
        have hg2 : g ≠ 2 := by simpa [Body.first_ok, first_tag_ok, h2] using hfirst
        refine ⟨g % 256, g / 256 % 256, el % 256, el / 256 % 256,
          enc_length r v0 v1 value.length
            ++ (value ++ (Body.encode r rest ++ (pixel_tag r ++ tail))),
          ?_, ?_, ?_⟩
        · simp only [Body.encode, w16_le _ hre, List.cons_append, List.nil_append,
            List.append_assoc]
        · rw [val16_le_bytes g hg]; exact hg2
        · rw [if_neg hvx, val16_le_bytes g hg, val16_le_bytes el hel,
            ← data_set_next_tag fuel r g el _ q false hg hel]
          have hfound := data_set_next_found r (Body.leaf g el v0 v1 value rest) tail q fuel
            hds htop (by omega)
          simp only [Body.encode, List.append_assoc] at hfound ⊢
          exact hfound
      | seq g el v0 v1 inner ipad rest =>
        have hds1 := hds
        simp only [Body.wf, Bool.and_eq_true, decide_eq_true_eq, Bool.not_eq_true',
          decide_eq_false_iff_not] at hds1
        obtain ⟨⟨⟨⟨⟨⟨hg, hel⟩, _⟩, _⟩, _⟩, _⟩, _⟩ := hds1
        have hg2 : g ≠ 2 := by simpa [Body.first_ok, first_tag_ok, h2] using hfirst
        refine ⟨g % 256, g / 256 % 256, el % 256, el / 256 % 256,
          enc_length r v0 v1 0xffffffff
            ++ (Body.encode r inner ++ (delimiter r ipad
              ++ (Body.encode r rest ++ (pixel_tag r ++ tail)))),
          ?_, ?_, ?_⟩
        · simp only [Body.encode, delimiter, w16_le _ hre, List.cons_append, List.nil_append,
            List.append_assoc]
        · rw [val16_le_bytes g hg]; exact hg2
        · rw [if_neg hvx, val16_le_bytes g hg, val16_le_bytes el hel,
            ← data_set_next_tag fuel r g el _ q false hg hel]
          have hfound := data_set_next_found r (Body.seq g el v0 v1 inner ipad rest) tail q fuel
            hds htop (by omega)
          simp only [Body.encode, delimiter, List.append_assoc] at hfound ⊢
          exact hfound

/-- The scan of a well-formed stream: `dicom_read_header` returns 0 with the
cursor right after the four bytes of the pixel-data tag. -/
theorem read_header_found (d0 : DICOMContext) (p : Nat) (pre : List Nat) (m1 m2 ds : Body)
    (k : Nat) (e : DICOMTransferSyntax) (vr0 vr1 : Nat) (pad tail : List Nat)
    (hpre : pre.length = 132)
    (he : dicom_transfer_syntax.get? k = some e)
    (hid : (cstr e.name ++ 0 :: pad).length ≤ 25)
    (hm1 : Body.wf (default_mode e) m1 = true) (hk1 : Body.meta_ok m1 = true)
    (hm2 : Body.wf (default_mode e) m2 = true) (hk2 : Body.meta_ok m2 = true)
    (hds : Body.wf (resolved_mode e) ds = true) (htop : Body.top_ok ds = true)
    (hfirst : Body.first_ok e.type ds = true) :
    dicom_read_header
        ⟨⟨pre ++ (Body.encode (default_mode e) m1 ++ (ts_element e vr0 vr1 pad
            ++ (Body.encode (default_mode e) m2 ++ (Body.encode (resolved_mode e) ds
              ++ (pixel_tag (resolved_mode e) ++ tail))))), p, false⟩, d0⟩
      = Run.ret (0,
          ⟨⟨tail, p + 132 + (Body.encode (default_mode e) m1).length
              + (ts_element e vr0 vr1 pad).length + (Body.encode (default_mode e) m2).length
              + (Body.encode (resolved_mode e) ds).length + 4, false⟩, resolved_mode e⟩) := by
  unfold dicom_read_header
  simp only
  have hlen : (pre ++ (Body.encode (default_mode e) m1 ++ (ts_element e vr0 vr1 pad
      ++ (Body.encode (default_mode e) m2 ++ (Body.encode (resolved_mode e) ds
        ++ (pixel_tag (resolved_mode e) ++ tail)))))).length + 2
      = 132 + (Body.encode (default_mode e) m1).length + (ts_element e vr0 vr1 pad).length
        + (Body.encode (default_mode e) m2).length + (Body.encode (resolved_mode e) ds).length
        + 4 + tail.length + 2 := by
    simp only [List.length_append, hpre, pixel_tag_length]
    omega
  rw [hlen]
  generalize hfl : 132 + (Body.encode (default_mode e) m1).length
    + (ts_element e vr0 vr1 pad).length
    + (Body.encode (default_mode e) m2).length + (Body.encode (resolved_mode e) ds).length
    + 4 + tail.length + 2 = fuel
  obtain ⟨b0, b1, b2, b3, R, hY, hgrp, hloop⟩ := data_set_pass fuel e ds tail
    (p + 132 + (Body.encode (default_mode e) m1).length
      + (ts_element e vr0 vr1 pad).length + (Body.encode (default_mode e) m2).length)
    hds htop hfirst (by omega)
  rw [hY, read_header_to_data_set fuel d0 p pre m1 m2 k e vr0 vr1 pad b0 b1 b2 b3 R hpre he hid
    hm1 hk1 hm2 hk2 hgrp (by omega)]
  exact hloop

/-! ### Concrete runs and the statements of the claims -/

/-- C1, as stated, fails. Scenario 1 of the specification (explicit
little-endian, the pixel-data element with VR "OW", length 10): the scan
returns 0 with the cursor at offset 164, right after the four bytes of the
tag; the value representation, the reserved bytes and the length field are
still unread, the header ends at offset 172. With the implicit syntax
(type 0) or the big-endian syntax (type 2) and the pixel-data element first
in the data set, the scan does not return 0. Nor does it with an identifier
of even length that fills its field without a NUL, with the element
(0x0028,0x1101) holding three 16-bit values, or with a big-endian first
element whose tag bytes read little-endian as group 0x0028. -/
theorem C1_cursor_counterexample :
    dicom_read_header
        ⟨⟨preamble ++ [2, 0, 0x10, 0, 85, 73, 20, 0] ++ cstr "1.2.840.10008.1.2.1" ++ [0]
            ++ [0xe0, 0x7f, 0x10, 0] ++ [79, 87, 0, 0, 10, 0, 0, 0]
            ++ [1, 2, 3, 4, 5, 6, 7, 8, 9, 10], 0, false⟩, ctx0⟩
      = Run.ret (0,
          ⟨⟨[79, 87, 0, 0, 10, 0, 0, 0, 1, 2, 3, 4, 5, 6, 7, 8, 9, 10], 164, false⟩,
            ⟨0, 1, 0, ⟨"1.2.840.10008.1.2.1", 1, "none"⟩⟩⟩) ∧
    dicom_read_header
        ⟨⟨preamble ++ [2, 0, 0x10, 0, 85, 73, 18, 0] ++ cstr "1.2.840.10008.1.2" ++ [0]
            ++ [0xe0, 0x7f, 0x10, 0] ++ [10, 0, 0, 0]
            ++ [1, 2, 3, 4, 5, 6, 7, 8, 9, 10], 0, false⟩, ctx0⟩
      = Run.ret (AVERROR_EINVAL,
          ⟨⟨[], 176, true⟩, ⟨0, 0, 0, ⟨"1.2.840.10008.1.2", 0, "none"⟩⟩⟩) ∧
    dicom_read_header
        ⟨⟨preamble ++ [2, 0, 0x10, 0, 85, 73, 20, 0] ++ cstr "1.2.840.10008.1.2.2" ++ [0]
            ++ [0x7f, 0xe0, 0, 0x10] ++ [79, 87, 0, 0, 0, 0, 0, 10]
            ++ [1, 2, 3, 4, 5, 6, 7, 8, 9, 10], 0, false⟩, ctx0⟩
      = Run.ret (AVERROR_EINVAL,
          ⟨⟨[], 182, true⟩, ⟨1, 1, 0, ⟨"1.2.840.10008.1.2.2", 2, "none"⟩⟩⟩) ∧
    dicom_read_header
        ⟨⟨preamble ++ [2, 0, 0x10, 0, 85, 73, 22, 0] ++ cstr "1.2.840.10008.1.2.4.50"
            ++ [0xe0, 0x7f, 0x10, 0] ++ [79, 66, 0, 0, 10, 0, 0, 0]
            ++ [1, 2, 3, 4, 5, 6, 7, 8, 9, 10], 0, false⟩, ctx0⟩
      = Run.undefined ∧
    dicom_read_header
        ⟨⟨preamble ++ [2, 0, 0x10, 0, 85, 73, 20, 0] ++ cstr "1.2.840.10008.1.2.1" ++ [0]
            ++ [0x28, 0, 0x01, 0x11, 85, 83, 6, 0, 0, 1, 0, 0, 16, 0]
            ++ [0xe0, 0x7f, 0x10, 0] ++ [79, 87, 0, 0, 10, 0, 0, 0]
            ++ [1, 2, 3, 4, 5, 6, 7, 8, 9, 10], 0, false⟩, ctx0⟩
      = Run.ret (AVERROR_EINVAL,
          ⟨⟨[], 196, true⟩, ⟨0, 1, 0, ⟨"1.2.840.10008.1.2.1", 1, "none"⟩⟩⟩) ∧
    dicom_read_header
        ⟨⟨preamble ++ [2, 0, 0x10, 0, 85, 73, 20, 0] ++ cstr "1.2.840.10008.1.2.2" ++ [0]
            ++ [0x28, 0, 0x10, 0, 85, 76, 0, 4, 0, 0, 0, 1]
            ++ [0x7f, 0xe0, 0, 0x10] ++ [79, 87, 0, 0, 0, 0, 0, 10]
            ++ [1, 2, 3, 4, 5, 6, 7, 8, 9, 10], 0, false⟩, ctx0⟩
      = Run.ret (AVERROR_EINVAL,
          ⟨⟨[], 20489, true⟩, ⟨1, 1, 0, ⟨"1.2.840.10008.1.2.2", 2, "none"⟩⟩⟩) := by
  refine ⟨?_, ?_, ?_, ?_, ?_, ?_⟩ <;> decide

/-- C3: a stream whose transfer-syntax element declares
"1.2.840.10008.1.2.1.99" (deflate, NUL-padded to the even length 24), followed
by a pixel-data element. `dicom_read_header` discards the value
`AVERROR_PATCHWELCOME` that `dicom_parse_syntax` returns, scans the data set
and returns 0. -/
theorem C3_deflate_is_scanned :
    dicom_read_header
        ⟨⟨preamble ++ [2, 0, 0x10, 0, 85, 73, 24, 0] ++ cstr "1.2.840.10008.1.2.1.99" ++ [0, 0]
            ++ [0xe0, 0x7f, 0x10, 0] ++ [79, 87, 0, 0, 10, 0, 0, 0]
            ++ [1, 2, 3, 4, 5, 6, 7, 8, 9, 10], 0, false⟩, ctx0⟩
      = Run.ret (0,
          ⟨⟨[79, 87, 0, 0, 10, 0, 0, 0, 1, 2, 3, 4, 5, 6, 7, 8, 9, 10], 168, false⟩,
            ⟨0, 1, 1, ⟨"1.2.840.10008.1.2.1.99", 199, "none"⟩⟩⟩) ∧
    ( dicom_parse_syntax ⟨0, 1, 0, ⟨"1.2.840.10008.1.2.1.99", 199, "none"⟩⟩).1
      = AVERROR_PATCHWELCOME := by
  refine ⟨?_, ?_⟩ <;> decide

/-- Witness of C7: an implicit big-endian length, an explicit "OB" header and
an explicit "US" header, little-endian. -/
theorem C7_read_element_length_witness :
    dicom_read_element_length ⟨⟨[0, 0, 1, 2, 9], 10, false⟩, ⟨1, 0, 0, ctx0.syntax_⟩⟩
      = Run.ret (258, ⟨⟨[9], 14, false⟩, ⟨1, 0, 0, ctx0.syntax_⟩⟩) ∧
    dicom_read_element_length
        ⟨⟨[79, 66, 7, 7, 1, 2, 0, 0, 9], 10, false⟩, ⟨0, 1, 0, ctx0.syntax_⟩⟩
      = Run.ret (513, ⟨⟨[9], 18, false⟩, ⟨0, 1, 0, ctx0.syntax_⟩⟩) ∧
    dicom_read_element_length ⟨⟨[85, 83, 2, 0, 9], 10, false⟩, ⟨0, 1, 0, ctx0.syntax_⟩⟩
      = Run.ret (2, ⟨⟨[9], 14, false⟩, ⟨0, 1, 0, ctx0.syntax_⟩⟩) :=
  ⟨(C7_read_element_length ⟨⟨[0, 0, 1, 2, 9], 10, false⟩, ⟨1, 0, 0, ctx0.syntax_⟩⟩
      0 0 1 2 0 0 0 0 [9]).1 rfl rfl,
    (C7_read_element_length ⟨⟨[79, 66, 7, 7, 1, 2, 0, 0, 9], 10, false⟩, ⟨0, 1, 0, ctx0.syntax_⟩⟩
      79 66 7 7 1 2 0 0 [9]).2.1 (by decide) (by decide) rfl,
    (C7_read_element_length ⟨⟨[85, 83, 2, 0, 9], 10, false⟩, ⟨0, 1, 0, ctx0.syntax_⟩⟩
      85 83 2 0 0 0 0 0 [9]).2.2 (by decide) (by decide) rfl⟩

/-- Witness of C8 at the types 0, 2, 5, 199 and 1. -/
theorem C8_parse_syntax_mode_witness :
    dicom_parse_syntax ⟨0, 1, 0, ⟨"1.2.840.10008.1.2", 0, "none"⟩⟩
      = (0, ⟨0, 0, 0, ⟨"1.2.840.10008.1.2", 0, "none"⟩⟩) ∧
    dicom_parse_syntax ⟨0, 1, 0, ⟨"1.2.840.10008.1.2.2", 2, "none"⟩⟩
      = (0, ⟨1, 1, 0, ⟨"1.2.840.10008.1.2.2", 2, "none"⟩⟩) ∧
    dicom_parse_syntax ⟨0, 1, 0, ⟨"1.2.840.10008.1.2.5", 5, "none"⟩⟩
      = (0, ⟨0, 1, 2, ⟨"1.2.840.10008.1.2.5", 5, "none"⟩⟩) ∧
    dicom_parse_syntax ⟨0, 1, 0, ⟨"1.2.840.10008.1.2.1.99", 199, "none"⟩⟩
      = (AVERROR_PATCHWELCOME, ⟨0, 1, 1, ⟨"1.2.840.10008.1.2.1.99", 199, "none"⟩⟩) ∧
    dicom_parse_syntax ⟨0, 1, 0, ⟨"1.2.840.10008.1.2.1", 1, "none"⟩⟩
      = (0, ⟨0, 1, 0, ⟨"1.2.840.10008.1.2.1", 1, "none"⟩⟩) :=
  ⟨(C8_parse_syntax_mode ⟨0, 1, 0, ⟨"1.2.840.10008.1.2", 0, "none"⟩⟩ ctx0.syntax_).1.1 rfl,
    (C8_parse_syntax_mode ⟨0, 1, 0, ⟨"1.2.840.10008.1.2.2", 2, "none"⟩⟩ ctx0.syntax_).1.2.1 rfl,
    (C8_parse_syntax_mode ⟨0, 1, 0, ⟨"1.2.840.10008.1.2.5", 5, "none"⟩⟩
      ctx0.syntax_).1.2.2.1 rfl,
    (C8_parse_syntax_mode ⟨0, 1, 0, ⟨"1.2.840.10008.1.2.1.99", 199, "none"⟩⟩
      ctx0.syntax_).1.2.2.2.1 rfl,
    (C8_parse_syntax_mode ⟨0, 1, 0, ⟨"1.2.840.10008.1.2.1", 1, "none"⟩⟩
      ctx0.syntax_).1.2.2.2.2 (by decide) (by decide) (by decide) (by decide)⟩

/-- C1, amended: on a well-formed stream (a 132-byte prefix; file-meta
elements of group 0x0002, explicit little-endian, among them one
transfer-syntax element whose identifier is the NUL-terminated name of a table
entry; data-set elements well-formed in the resolved mode, then the tag
(0x7FE0,0x0010)), `dicom_read_header` returns 0 with the cursor at the byte
right after the four bytes of the pixel-data tag, before its value
representation and length field. A group-0x0028 element with a `case` in
`dicom_read_metadata` holds what the `case` reads: 2 or 4 bytes for a numeric
field, at most 1024 bytes with a NUL among them for a text field
(`Body.top_ok`). For the types 0 and 2 the pixel-data element is not the
first element of the data set (`Body.first_ok`). -/
theorem C1_pixel_data_found (d0 : DICOMContext) (p : Nat) (pre : List Nat) (m1 m2 ds : Body)
    (k : Nat) (e : DICOMTransferSyntax) (vr0 vr1 : Nat) (pad tail : List Nat)
    (hpre : pre.length = 132)
    (he : dicom_transfer_syntax.get? k = some e)
    (hid : (cstr e.name ++ 0 :: pad).length ≤ 25)
    (hm1 : Body.wf (default_mode e) m1 = true) (hk1 : Body.meta_ok m1 = true)
    (hm2 : Body.wf (default_mode e) m2 = true) (hk2 : Body.meta_ok m2 = true)
    (hds : Body.wf (resolved_mode e) ds = true) (htop : Body.top_ok ds = true)
    (hfirst : Body.first_ok e.type ds = true) :
    dicom_read_header
        ⟨⟨pre ++ (Body.encode (default_mode e) m1 ++ (ts_element e vr0 vr1 pad
            ++ (Body.encode (default_mode e) m2 ++ (Body.encode (resolved_mode e) ds
              ++ (pixel_tag (resolved_mode e) ++ tail))))), p, false⟩, d0⟩
      = Run.ret (0,
          ⟨⟨tail, p + 132 + (Body.encode (default_mode e) m1).length
              + (ts_element e vr0 vr1 pad).length + (Body.encode (default_mode e) m2).length
              + (Body.encode (resolved_mode e) ds).length + 4, false⟩, resolved_mode e⟩) :=
  read_header_found d0 p pre m1 m2 ds k e vr0 vr1 pad tail hpre he hid hm1 hk1 hm2 hk2 hds htop
    hfirst

/-- Witness of the amended C1 in the three modes. Explicit little-endian: the
file-meta group length (0x0002,0x0000) before the transfer syntax, the element
Rows (0x0028,0x0010) and the text field (0x0028,0x0004) with the value
"MONOCHROME2" and a NUL before the pixel data. Implicit and big-endian: the
element (0x0008,0x0016) first in the data set. -/
theorem C1_pixel_data_found_witness :
    dicom_read_header
        ⟨⟨preamble ++ ([2, 0, 0, 0, 85, 76, 4, 0, 28, 0, 0, 0]
            ++ ([2, 0, 0x10, 0, 85, 73, 20, 0] ++ cstr "1.2.840.10008.1.2.1" ++ [0]
            ++ ([] ++ ([0x28, 0, 0x10, 0, 85, 83, 2, 0, 0, 2,
              0x28, 0, 4, 0, 67, 83, 12, 0, 77, 79, 78, 79, 67, 72, 82, 79, 77, 69, 50, 0]
            ++ ([0xe0, 0x7f, 0x10, 0]
            ++ [79, 87, 0, 0, 10, 0, 0, 0, 1, 2, 3, 4, 5, 6, 7, 8, 9, 10]))))), 0, false⟩, ctx0⟩
      = Run.ret (0,
          ⟨⟨[79, 87, 0, 0, 10, 0, 0, 0, 1, 2, 3, 4, 5, 6, 7, 8, 9, 10], 206, false⟩,
            ⟨0, 1, 0, ⟨"1.2.840.10008.1.2.1", 1, "none"⟩⟩⟩) ∧
    dicom_read_header
        ⟨⟨preamble ++ ([]
            ++ ([2, 0, 0x10, 0, 85, 73, 18, 0] ++ cstr "1.2.840.10008.1.2" ++ [0]
            ++ ([] ++ ([8, 0, 0x16, 0, 2, 0, 0, 0, 1, 2, 0x28, 0, 0x10, 0, 2, 0, 0, 0, 0, 2]
            ++ ([0xe0, 0x7f, 0x10, 0]
            ++ [10, 0, 0, 0, 1, 2, 3, 4, 5, 6, 7, 8, 9, 10]))))), 0, false⟩, ctx0⟩
      = Run.ret (0,
          ⟨⟨[10, 0, 0, 0, 1, 2, 3, 4, 5, 6, 7, 8, 9, 10], 182, false⟩,
            ⟨0, 0, 0, ⟨"1.2.840.10008.1.2", 0, "none"⟩⟩⟩) ∧
    dicom_read_header
        ⟨⟨preamble ++ ([]
            ++ ([2, 0, 0x10, 0, 85, 73, 20, 0] ++ cstr "1.2.840.10008.1.2.2" ++ [0]
            ++ ([] ++ ([0, 8, 0, 0x16, 85, 73, 0, 2, 1, 2]
            ++ ([0x7f, 0xe0, 0, 0x10]
            ++ [79, 87, 0, 0, 0, 0, 0, 10, 1, 2, 3, 4, 5, 6, 7, 8, 9, 10]))))), 0, false⟩, ctx0⟩
      = Run.ret (0,
          ⟨⟨[79, 87, 0, 0, 0, 0, 0, 10, 1, 2, 3, 4, 5, 6, 7, 8, 9, 10], 174, false⟩,
            ⟨1, 1, 0, ⟨"1.2.840.10008.1.2.2", 2, "none"⟩⟩⟩) :=
  ⟨C1_pixel_data_found ctx0 0 preamble (Body.leaf 2 0 85 76 [28, 0, 0, 0] Body.nil) Body.nil
      (Body.leaf 0x28 0x10 85 83 [0, 2]
        (Body.leaf 0x28 4 67 83 [77, 79, 78, 79, 67, 72, 82, 79, 77, 69, 50, 0] Body.nil))
      1 ⟨"1.2.840.10008.1.2.1", 1, "none"⟩ 85 73 []
      [79, 87, 0, 0, 10, 0, 0, 0, 1, 2, 3, 4, 5, 6, 7, 8, 9, 10]
      (by decide) (by decide) (by decide) (by decide) (by decide) (by decide) (by decide)
      (by decide) (by decide) (by decide),
    C1_pixel_data_found ctx0 0 preamble Body.nil Body.nil
      (Body.leaf 8 0x16 0 0 [1, 2] (Body.leaf 0x28 0x10 0 0 [0, 2] Body.nil)) 0
      ⟨"1.2.840.10008.1.2", 0, "none"⟩ 85 73 []
      [10, 0, 0, 0, 1, 2, 3, 4, 5, 6, 7, 8, 9, 10]
      (by decide) (by decide) (by decide) (by decide) (by decide) (by decide) (by decide)
      (by decide) (by decide) (by decide),
    C1_pixel_data_found ctx0 0 preamble Body.nil Body.nil
      (Body.leaf 8 0x16 85 73 [1, 2] Body.nil) 3
      ⟨"1.2.840.10008.1.2.2", 2, "none"⟩ 85 73 []
      [79, 87, 0, 0, 0, 0, 0, 10, 1, 2, 3, 4, 5, 6, 7, 8, 9, 10]
      (by decide) (by decide) (by decide) (by decide) (by decide) (by decide) (by decide)
      (by decide) (by decide) (by decide)⟩

theorem forward_refl (a : AVIOContext) : Forward a a :=
  ⟨⟨0, by simp, by simp⟩, fun h => h⟩

theorem forward_trans {a b c : AVIOContext} (h1 : Forward a b) (h2 : Forward b c) :
    Forward a c := by
  obtain ⟨⟨k1, hb1, hp1⟩, he1⟩ := h1
  obtain ⟨⟨k2, hb2, hp2⟩, he2⟩ := h2
  refine ⟨⟨k1 + k2, ?_, ?_⟩, fun h => he2 (he1 h)⟩
  · rw [hb2, hb1, List.drop_drop, Nat.add_comm]
  · rw [hp2, hp1]; omega

theorem remaining_le_of_forward {a b : AVIOContext} (h : Forward a b) :
    remaining b ≤ remaining a := by
  obtain ⟨⟨k, hb, _⟩, he⟩ := h
  unfold remaining
  rw [hb, List.length_drop]
  cases ha : a.eof_reached
  · cases hb1 : b.eof_reached
    · simp only [Bool.false_eq_true, if_false]; omega
    · simp only [Bool.false_eq_true, if_false, if_true]; omega
  · rw [he ha]
    simp only [if_true]; omega

theorem forward_r8 (a : AVIOContext) : Forward a (avio_r8 a).2 := by
  obtain ⟨buf, p, e⟩ := a
  cases buf with
  | nil => exact ⟨⟨0, by simp [avio_r8], by simp [avio_r8]⟩, fun _ => by simp [avio_r8]⟩
  | cons x xs => exact ⟨⟨1, by simp [avio_r8], by simp [avio_r8]⟩, fun h => by simpa [avio_r8] using h⟩

theorem forward_rl16 (a : AVIOContext) : Forward a (avio_rl16 a).2 :=
  forward_trans (forward_r8 a) (forward_r8 _)

theorem forward_rb16 (a : AVIOContext) : Forward a (avio_rb16 a).2 :=
  forward_trans (forward_r8 a) (forward_r8 _)

theorem forward_rl32 (a : AVIOContext) : Forward a (avio_rl32 a).2 :=
  forward_trans (forward_rl16 a) (forward_rl16 _)

theorem forward_rb32 (a : AVIOContext) : Forward a (avio_rb32 a).2 :=
  forward_trans (forward_rb16 a) (forward_rb16 _)

theorem forward_dicom_r16 (a : AVIOContext) (d : DICOMContext) : Forward a (dicom_r16 a d).2 := by
  unfold dicom_r16
  split
  · exact forward_rb16 a
  · exact forward_rl16 a

theorem forward_dicom_r32 (a : AVIOContext) (d : DICOMContext) : Forward a (dicom_r32 a d).2 := by
  unfold dicom_r32
  split
  · exact forward_rb32 a
  · exact forward_rl32 a

theorem forward_skip (a : AVIOContext) (n : Nat) : Forward a (avio_skip a n).2 :=
  ⟨⟨n, rfl, rfl⟩, fun h => h⟩

theorem forward_read (a : AVIOContext) (n : Nat) : Forward a (avio_read a n).2 := by
  refine ⟨⟨min n a.buf.length, ?_, rfl⟩, fun h => by simp [avio_read, h]⟩
  simp only [avio_read]
  by_cases hn : n ≤ a.buf.length
  · rw [Nat.min_eq_left hn]
  · have hl : a.buf.length ≤ n := by omega
    rw [Nat.min_eq_right hl, List.drop_eq_nil_of_le hl, List.drop_eq_nil_of_le (Nat.le_refl _)]

/-- What a 16-bit read does: either two bytes are there and are consumed, or
the end of the stream is recorded. -/
theorem r16_cases (a : AVIOContext) (d : DICOMContext) :
    (∃ b0 b1 rest, a.buf = b0 :: b1 :: rest ∧
      dicom_r16 a d = (val16 d.endian b0 b1, ⟨rest, a.pos + 2, a.eof_reached⟩)) ∨
    ((dicom_r16 a d).2.eof_reached = true ∧ (dicom_r16 a d).2.buf = []) := by
  obtain ⟨buf, p, e⟩ := a
  match buf with
  | [] => right; unfold dicom_r16; split <;> exact ⟨rfl, rfl⟩
  | [x] => right; unfold dicom_r16; split <;> exact ⟨rfl, rfl⟩
  | b0 :: b1 :: rest => left; exact ⟨b0, b1, rest, rfl, dicom_r16_cons d b0 b1 rest p e⟩

/-- Reading a tag: either four bytes are there and are consumed, or the end of
the stream is recorded. -/
theorem tag_cases (a : AVIOContext) (d : DICOMContext) :
    (∃ b0 b1 b2 b3 rest, a.buf = b0 :: b1 :: b2 :: b3 :: rest ∧
      (dicom_r16 a d).1 = val16 d.endian b0 b1 ∧
      (dicom_r16 (dicom_r16 a d).2 d).1 = val16 d.endian b2 b3 ∧
      (dicom_r16 (dicom_r16 a d).2 d).2 = ⟨rest, a.pos + 4, a.eof_reached⟩) ∨
    ((dicom_r16 (dicom_r16 a d).2 d).2.eof_reached = true ∧
      (dicom_r16 (dicom_r16 a d).2 d).2.buf = []) := by
  rcases r16_cases a d with ⟨b0, b1, rest, hb, h1⟩ | ⟨he, hb⟩
  · rcases r16_cases (dicom_r16 a d).2 d with ⟨b2, b3, rest2, hb2, h2⟩ | h
    · left
      rw [h1] at hb2 h2
      simp only at hb2 h2
      subst hb2
      refine ⟨b0, b1, b2, b3, rest2, hb, by rw [h1], by rw [h1, h2], ?_⟩
      rw [h1, h2]
    · right; exact h
  · right
    have hf := forward_dicom_r16 (dicom_r16 a d).2 d
    obtain ⟨⟨k, hk, _⟩, hs⟩ := hf
    exact ⟨hs he, by rw [hk, hb, List.drop_nil]⟩

theorem remaining_tag_lt (a : AVIOContext) (d : DICOMContext) (h : a.eof_reached = false) :
    remaining (dicom_r16 (dicom_r16 a d).2 d).2 < remaining a := by
  rcases tag_cases a d with ⟨b0, b1, b2, b3, rest, hb, _, _, h2⟩ | ⟨he, hb⟩
  · rw [h2]
    simp [remaining, hb, h]
  · simp [remaining, he, hb, h]

theorem read_element_length_keeps (s : AVFormatContext) (vl : Nat) (s1 : AVFormatContext)
    (h : dicom_read_element_length s = Run.ret (vl, s1)) :
    Forward s.pb s1.pb ∧ s1.priv_data = s.priv_data := by
  unfold dicom_read_element_length at h
  dsimp only at h
  split at h
  · split at h
    · split at h
      · injection h with h; injection h with _ h; subst h
        exact ⟨forward_trans (forward_read _ _) (forward_dicom_r16 _ _), rfl⟩
      · injection h with h; injection h with _ h; subst h
        exact ⟨forward_trans (forward_read _ _)
          (forward_trans (forward_skip _ _) (forward_dicom_r32 _ _)), rfl⟩
    · injection h with h; injection h with _ h; subst h
      exact ⟨forward_trans (forward_read _ _) (forward_dicom_r16 _ _), rfl⟩
  · injection h with h; injection h with _ h; subst h
    exact ⟨forward_dicom_r32 _ _, rfl⟩

theorem read_element_length_total (s : AVFormatContext) :
    dicom_read_element_length s ≠ Run.timeout := by
  unfold dicom_read_element_length
  dsimp only
  split
  · split
    · split <;> simp
    · simp
  · simp

theorem get_next_element_body_keeps (nested : AVFormatContext → Run (Nat × AVFormatContext))
    (hn : ∀ s r s1, nested s = Run.ret (r, s1) →
      Forward s.pb s1.pb ∧ s1.priv_data = s.priv_data)
    (s : AVFormatContext) (r : Nat) (s1 : AVFormatContext)
    (h : get_next_element_body nested s = Run.ret (r, s1)) :
    Forward s.pb s1.pb ∧ s1.priv_data = s.priv_data := by
  unfold get_next_element_body at h
  split at h
  · exact absurd h (by simp)
  · exact absurd h (by simp)
  · rename_i vl s2 hlen
    obtain ⟨hf, hp⟩ := read_element_length_keeps s vl s2 hlen
    split at h
    · injection h with h; injection h with _ h; subst h
      exact ⟨forward_trans hf (forward_skip _ _), hp⟩
    · obtain ⟨hf2, hp2⟩ := hn s2 r s1 h
      exact ⟨forward_trans hf hf2, hp2.trans hp⟩

theorem get_next_element_body_total (nested : AVFormatContext → Run (Nat × AVFormatContext))
    (s : AVFormatContext)
    (hn : ∀ s1, Forward s.pb s1.pb → nested s1 ≠ Run.timeout) :
    get_next_element_body nested s ≠ Run.timeout := by
  unfold get_next_element_body
  split
  · simp
  · rename_i h; exact absurd h (read_element_length_total s)
  · rename_i vl s2 hlen
    split
    · simp
    · exact hn s2 (read_element_length_keeps s vl s2 hlen).1

theorem nested_data_keeps (fuel : Nat) :
    ∀ (s : AVFormatContext) (r : Nat) (s1 : AVFormatContext),
      dicom_nested_data fuel s = Run.ret (r, s1) →
      Forward s.pb s1.pb ∧ s1.priv_data = s.priv_data := by
  induction fuel with
  | zero => intro s r s1 h; simp [dicom_nested_data] at h
  | succ f ih =>
    intro s r s1 h
    unfold dicom_nested_data at h
    split at h
    · injection h with h; injection h with _ h; subst h
      exact ⟨forward_refl _, rfl⟩
    · simp only at h
      have htag : Forward s.pb (dicom_r16 (dicom_r16 s.pb s.priv_data).2 s.priv_data).2 :=
        forward_trans (forward_dicom_r16 _ _) (forward_dicom_r16 _ _)
      split at h
      · injection h with h; injection h with _ h; subst h
        exact ⟨forward_trans htag (forward_skip _ _), rfl⟩
      · split at h
        · exact absurd h (by simp)
        · exact absurd h (by simp)
        · rename_i r2 s2 hbody
          obtain ⟨hf2, hp2⟩ := get_next_element_body_keeps _ ih _ r2 s2 hbody
          obtain ⟨hf3, hp3⟩ := ih s2 r s1 h
          exact ⟨forward_trans htag (forward_trans hf2 hf3), hp3.trans hp2⟩

theorem nested_data_total (fuel : Nat) :
    ∀ (s : AVFormatContext), remaining s.pb < fuel →
      dicom_nested_data fuel s ≠ Run.timeout := by
  induction fuel with
  | zero => intro s h; omega
  | succ f ih =>
    intro s hrem
    unfold dicom_nested_data
    split
    · simp
    · rename_i heof
      have heof1 : s.pb.eof_reached = false := by simpa [avio_feof] using heof
      have hlt := remaining_tag_lt s.pb s.priv_data heof1
      simp only
      split
      · simp
      · have htot : get_next_element_body (dicom_nested_data f)
            { s with pb := (dicom_r16 (dicom_r16 s.pb s.priv_data).2 s.priv_data).2 }
            ≠ Run.timeout := by
          apply get_next_element_body_total
          intro s1 hf
          apply ih
          have := remaining_le_of_forward hf
          simp only at this
          omega
        split
        · simp
        · rename_i hb; exact absurd hb htot
        · rename_i r2 s2 hbody
          apply ih
          have := remaining_le_of_forward
            (get_next_element_body_keeps _ (nested_data_keeps f) _ r2 s2 hbody).1
          simp only at this
          omega

theorem get_next_element_keeps (fuel : Nat) (s : AVFormatContext) (r : Nat)
    (s1 : AVFormatContext) (h : dicom_get_next_element fuel s = Run.ret (r, s1)) :
    Forward s.pb s1.pb ∧ s1.priv_data = s.priv_data :=
  get_next_element_body_keeps _ (nested_data_keeps fuel) s r s1 h

theorem get_next_element_total (fuel : Nat) (s : AVFormatContext)
    (h : remaining s.pb < fuel) : dicom_get_next_element fuel s ≠ Run.timeout := by
  apply get_next_element_body_total
  intro s1 hf
  apply nested_data_total
  have := remaining_le_of_forward hf
  omega

theorem read_metadata_keeps (fuel : Nat) (s : AVFormatContext) (element : Nat) (r : Int)
    (s1 : AVFormatContext) (h : dicom_read_metadata fuel s element = Run.ret (r, s1)) :
    r = 0 ∧ Forward s.pb s1.pb ∧ s1.priv_data = s.priv_data := by
  unfold dicom_read_metadata at h
  split at h
  · exact absurd h (by simp)
  · exact absurd h (by simp)
  · rename_i vl s2 hlen
    obtain ⟨hf, hp⟩ := read_element_length_keeps s vl s2 hlen
    simp only at h
    split_ifs at h
    · injection h with h; injection h with h1 h2; subst h2
      exact ⟨h1.symm, forward_trans hf (forward_dicom_r16 _ _), hp⟩
    · injection h with h; injection h with h1 h2; subst h2
      exact ⟨h1.symm, forward_trans hf
        (forward_trans (forward_dicom_r16 _ _) (forward_dicom_r16 _ _)), hp⟩
    · injection h with h; injection h with h1 h2; subst h2
      exact ⟨h1.symm, forward_trans hf (forward_dicom_r32 _ _), hp⟩
    · injection h with h; injection h with h1 h2; subst h2
      exact ⟨h1.symm, forward_trans hf (forward_read _ _), hp⟩
    · split at h
      · exact absurd h (by simp)
      · exact absurd h (by simp)
      · rename_i r2 s3 hn
        injection h with h; injection h with h1 h2; subst h2
        obtain ⟨hf3, hp3⟩ := nested_data_keeps fuel s2 r2 s3 hn
        exact ⟨h1.symm, forward_trans hf hf3, hp3.trans hp⟩
    · injection h with h; injection h with h1 h2; subst h2
      exact ⟨h1.symm, forward_trans hf (forward_skip _ _), hp⟩

theorem read_metadata_total (fuel : Nat) (s : AVFormatContext) (element : Nat)
    (h : remaining s.pb < fuel) : dicom_read_metadata fuel s element ≠ Run.timeout := by
  unfold dicom_read_metadata
  split
  · simp
  · rename_i hl; exact absurd hl (read_element_length_total s)
  · rename_i vl s2 hlen
    have hf := (read_element_length_keeps s vl s2 hlen).1
    have hrem := remaining_le_of_forward hf
    have hn : dicom_nested_data fuel s2 ≠ Run.timeout := nested_data_total fuel s2 (by omega)
    simp only
    split_ifs
    · simp
    · simp
    · simp
    · simp
    · simp
    · simp
    · split
      · simp
      · rename_i hb; exact absurd hb hn
      · simp
    · simp

/-- The function `dicom_read_element_length` returns on every stream, in every
mode. -/
theorem read_element_length_returns (s : AVFormatContext) :
    ∃ vl s1, dicom_read_element_length s = Run.ret (vl, s1) := by
  unfold dicom_read_element_length
  dsimp only
  split
  · split
    · split
      · exact ⟨_, _, rfl⟩
      · exact ⟨_, _, rfl⟩
    · exact ⟨_, _, rfl⟩
  · exact ⟨_, _, rfl⟩

theorem read_element_length_defined (s : AVFormatContext) :
    dicom_read_element_length s ≠ Run.undefined := by
  obtain ⟨vl, s1, h⟩ := read_element_length_returns s
  rw [h]
  simp

/-- In explicit style with fewer than two bytes left, the read of `vr` ends
the stream and both ways on from there read the length 0 at its end: the one
that reads 16 bits, and the one that skips two bytes and reads 32 bits; they
differ by the two bytes skipped past the end. -/
theorem short_vr_read (a : AVIOContext) (d : DICOMContext) (hb : a.buf.length < 2) :
    dicom_r16 (avio_read a 2).2 d = (0, ⟨[], a.pos + a.buf.length, true⟩) ∧
    dicom_r32 (avio_skip (avio_read a 2).2 2).2 d
      = (0, ⟨[], a.pos + a.buf.length + 2, true⟩) := by
  obtain ⟨buf, p, eof⟩ := a
  match buf, hb with
  | [], _ =>
    constructor
    · unfold dicom_r16
      split <;> simp [avio_read, avio_rl16, avio_rb16, avio_r8]
    · unfold dicom_r32
      split <;> simp [avio_read, avio_skip, avio_rl32, avio_rb32, avio_rl16, avio_rb16, avio_r8]
  | [x], _ =>
    constructor
    · unfold dicom_r16
      split <;> simp [avio_read, avio_rl16, avio_rb16, avio_r8]
    · unfold dicom_r32
      split <;> simp [avio_read, avio_skip, avio_rl32, avio_rb32, avio_rl16, avio_rb16, avio_r8]

/-- The outcome of `dicom_read_element_length` in explicit style with fewer
than two bytes left: the length 0, at the end of the stream. -/
theorem read_element_length_truncated (s : AVFormatContext)
    (hx : s.priv_data.vr_explicit ≠ 0) (hb : s.pb.buf.length < 2) :
    dicom_read_element_length s
      = Run.ret (0, ⟨⟨[], s.pb.pos + s.pb.buf.length, true⟩, s.priv_data⟩) := by
  have h16 := (short_vr_read s.pb s.priv_data hb).1
  obtain ⟨⟨buf, p, eof⟩, d⟩ := s
  simp only at hx hb h16 ⊢
  unfold dicom_read_element_length
  simp only [hx, ne_eq, not_false_eq_true, if_true]
  match buf, hb with
  | [], _ => simp only [avio_read, List.take_nil, List.map_nil] at h16 ⊢; rw [h16]
  | [x], _ =>
    simp only [avio_read, List.take, List.map] at h16 ⊢
    rw [h16]

theorem get_next_element_body_defined (nested : AVFormatContext → Run (Nat × AVFormatContext))
    (s : AVFormatContext)
    (hn : ∀ s1, s1.priv_data = s.priv_data → nested s1 ≠ Run.undefined) :
    get_next_element_body nested s ≠ Run.undefined := by
  unfold get_next_element_body
  split
  · rename_i h
    exact absurd h (read_element_length_defined s)
  · simp
  · rename_i vl s2 hlen
    split
    · simp
    · exact hn s2 (read_element_length_keeps s vl s2 hlen).2

/-- The function `dicom_nested_data` has defined behaviour in every mode. -/
theorem nested_data_defined (fuel : Nat) :
    ∀ (s : AVFormatContext), dicom_nested_data fuel s ≠ Run.undefined := by
  induction fuel with
  | zero => intro s; simp [dicom_nested_data]
  | succ f ih =>
    intro s
    unfold dicom_nested_data
    split
    · simp
    · dsimp only
      split
      · simp
      · have hdef : get_next_element_body (dicom_nested_data f)
            { s with pb := (dicom_r16 (dicom_r16 s.pb s.priv_data).2 s.priv_data).2 }
            ≠ Run.undefined := by
          apply get_next_element_body_defined
          intro s1 _
          exact ih s1
        split
        · rename_i hb; exact absurd hb hdef
        · simp
        · exact ih _

theorem get_next_element_defined (fuel : Nat) (s : AVFormatContext) :
    dicom_get_next_element fuel s ≠ Run.undefined := by
  apply get_next_element_body_defined
  intro s1 _
  exact nested_data_defined fuel s1

theorem run_ret_of_ne {α : Type} (r : Run α) (h1 : r ≠ Run.undefined) (h2 : r ≠ Run.timeout) :
    ∃ a, r = Run.ret a := by
  cases r with
  | ret a => exact ⟨a, rfl⟩
  | undefined => exact absurd rfl h1
  | timeout => exact absurd rfl h2

theorem read_metadata_defined (fuel : Nat) (s : AVFormatContext) (element : Nat)
    (ht : element ∉ metadata_cases_read) :
    dicom_read_metadata fuel s element ≠ Run.undefined := by
  unfold dicom_read_metadata
  split
  · rename_i h
    exact absurd h (read_element_length_defined s)
  · simp
  · rename_i vl s2 hlen
    have hn : dicom_nested_data fuel s2 ≠ Run.undefined := nested_data_defined fuel s2
    simp only [ht, if_false]
    split_ifs
    · simp
    · simp
    · simp
    · split
      · rename_i hb; exact absurd hb hn
      · simp
      · simp
    · simp

theorem rl16_eq_r16 (a : AVIOContext) : avio_rl16 a = dicom_r16 a ⟨0, 0, 0, ⟨"", 0, ""⟩⟩ := rfl

theorem w16_val16 (endian : Int) (b0 b1 : Nat) :
    w16 endian (val16 endian b0 b1) = [b0 % 256, b1 % 256] := by
  unfold w16 val16
  by_cases h : endian = 0
  · rw [if_neg (not_not.2 h), if_neg (not_not.2 h)]
    congr 1
    · omega
    · congr 1
      omega
  · rw [if_pos h, if_pos h]
    congr 1
    · omega
    · congr 1
      omega

theorem tag_before_of_read (s0 a : AVIOContext) (d : DICOMContext) (hf : Forward s0 a)
    (hne : (dicom_r16 (dicom_r16 a d).2 d).2.eof_reached = false) :
    TagBefore s0 (dicom_r16 (dicom_r16 a d).2 d).2 d.endian (dicom_r16 a d).1
      (dicom_r16 (dicom_r16 a d).2 d).1 := by
  rcases tag_cases a d with ⟨b0, b1, b2, b3, rest, hb, h1, h2, h3⟩ | ⟨heof, _⟩
  · obtain ⟨⟨k, hk, hp⟩, _⟩ := hf
    rw [h1, h2, h3]
    refine ⟨k + 4, by omega, ?_, ?_, ?_⟩
    · simp only
      rw [← List.drop_drop, ← hk, hb]
      rfl
    · simp only
      rw [hp]; omega
    · have hk4 : k + 4 - 4 = k := by omega
      rw [hk4, ← hk, hb, w16_val16, w16_val16]
      rfl
  · rw [heof] at hne
    exact absurd hne (by simp)

theorem tag_read_of_read (s0 a : AVIOContext) (d : DICOMContext) (hf : Forward s0 a) :
    TagRead s0 ⟨(dicom_r16 (dicom_r16 a d).2 d).2, d⟩ (dicom_r16 a d).1
      (dicom_r16 (dicom_r16 a d).2 d).1 :=
  fun hne _ => Or.inl (tag_before_of_read s0 a d hf hne)

theorem tag_read_le_of_read (s0 a : AVIOContext) (hf : Forward s0 a) :
    TagReadLE s0 (avio_rl16 (avio_rl16 a).2).2 (avio_rl16 a).1
      (avio_rl16 (avio_rl16 a).2).1 :=
  fun hne _ => tag_before_of_read s0 a ⟨0, 0, 0, ⟨"", 0, ""⟩⟩ hf hne

theorem fuel_ok_of_forward {fuel : Nat} {a b : AVIOContext} (h : FuelOk fuel a)
    (hf : Forward a b) : FuelOk fuel b := by
  have hr := remaining_le_of_forward hf
  rcases h with ⟨he, h1⟩ | h
  · exact Or.inl ⟨hf.2 he, h1⟩
  · exact Or.inr (by omega)

/-- After an element has been processed from a state that had not seen the
end of the stream, the next tag is read and the loop is entered again with
one unit of fuel less: the fuel is still enough. -/
theorem fuel_ok_next (f : Nat) (a b : AVIOContext) (d : DICOMContext)
    (h : remaining a < f) (hf : Forward a b) :
    FuelOk f (dicom_r16 (dicom_r16 b d).2 d).2 := by
  have hr := remaining_le_of_forward hf
  cases hb : b.eof_reached
  · have := remaining_tag_lt b d hb
    exact Or.inr (by omega)
  · have hfw : Forward b (dicom_r16 (dicom_r16 b d).2 d).2 :=
      forward_trans (forward_dicom_r16 _ _) (forward_dicom_r16 _ _)
    exact Or.inl ⟨hfw.2 hb, by omega⟩

theorem remaining_of_fuel_ok (f : Nat) (a : AVIOContext) (h : FuelOk (f + 1) a)
    (he : a.eof_reached = false) : remaining a < f := by
  rcases h with ⟨h1, _⟩ | h
  · rw [he] at h1; exact absurd h1 (by simp)
  · omega

theorem scan_table_total (syn : List Nat) (table : List DICOMTransferSyntax) :
    ∀ i, scan_table syn i table ≠ Run.timeout := by
  induction table with
  | nil => intro i; simp [scan_table]
  | cons e es ih =>
    intro i
    unfold scan_table
    split
    · simp
    · simp
    · exact ih (i + 1)

theorem read_transfer_syntax_keeps (s : AVFormatContext) (r : Int) (s1 : AVFormatContext)
    (h : dicom_read_transfer_syntax s = Run.ret (r, s1)) :
    (r = 0 ∨ r = AVERROR_EINVAL) ∧ Forward s.pb s1.pb := by
  have hfw : Forward s.pb (avio_read (avio_rl16 (avio_skip s.pb 2).2).2
      (avio_rl16 (avio_skip s.pb 2).2).1).2 :=
    forward_trans (forward_skip _ _) (forward_trans (forward_rl16 _) (forward_read _ _))
  unfold dicom_read_transfer_syntax at h
  dsimp only at h
  split at h
  · exact absurd h (by simp)
  · split at h
    · exact absurd h (by simp)
    · exact absurd h (by simp)
    · split at h
      · injection h with h; injection h with h1 h2; subst h2
        exact ⟨Or.inr h1.symm, hfw⟩
      · split at h
        · exact absurd h (by simp)
        · injection h with h; injection h with h1 h2; subst h2
          exact ⟨Or.inl h1.symm, hfw⟩

theorem read_transfer_syntax_total (s : AVFormatContext) :
    dicom_read_transfer_syntax s ≠ Run.timeout := by
  unfold dicom_read_transfer_syntax
  dsimp only
  split
  · simp
  · split
    · simp
    · rename_i h; exact absurd h (scan_table_total _ _ _)
    · split
      · simp
      · split <;> simp

theorem file_meta_loop_spec (s0 : AVIOContext) (fuel : Nat) :
    ∀ (s : AVFormatContext) (g e : Nat), Forward s0 s.pb → TagReadLE s0 s.pb g e →
      (∀ err s1, file_meta_loop fuel s g e = Run.ret (Sum.inl err, s1) →
        err = AVERROR_EINVAL) ∧
      (∀ g1 e1 s1, file_meta_loop fuel s g e = Run.ret (Sum.inr (g1, e1), s1) →
        Forward s.pb s1.pb ∧ TagReadLE s0 s1.pb g1 e1) ∧
      (FuelOk fuel s.pb → file_meta_loop fuel s g e ≠ Run.timeout) := by
  induction fuel with
  | zero =>
    intro s g e _ _
    refine ⟨?_, ?_, ?_⟩
    · intro err s1 h; simp [file_meta_loop] at h
    · intro g1 e1 s1 h; simp [file_meta_loop] at h
    · intro h
      rcases h with ⟨_, h⟩ | h <;> omega
  | succ f ih =>
    intro s g e hfw htag
    unfold file_meta_loop
    by_cases hc : (!avio_feof s.pb && decide (g = 0x0002)) = true
    · rw [if_pos hc]
      have heof : s.pb.eof_reached = false := by
        simp only [avio_feof, Bool.and_eq_true, Bool.not_eq_true', decide_eq_true_eq] at hc
        exact hc.1
      have hg2 : g = 0x0002 := by
        simp only [avio_feof, Bool.and_eq_true, Bool.not_eq_true', decide_eq_true_eq] at hc
        exact hc.2
      by_cases he10 : e = 0x0010
      · rw [if_pos he10]
        cases hts : dicom_read_transfer_syntax s with
        | undefined => simp
        | timeout => exact absurd hts (read_transfer_syntax_total s)
        | ret x =>
          obtain ⟨err, s1⟩ := x
          obtain ⟨herr, hf1⟩ := read_transfer_syntax_keeps s err s1 hts
          simp only
          by_cases hz : err = 0
          · subst hz
            simp only [ne_eq, not_true_eq_false, if_false]
            have hnext := ih { s1 with pb := (avio_rl16 (avio_rl16 s1.pb).2).2 }
              (avio_rl16 s1.pb).1 (avio_rl16 (avio_rl16 s1.pb).2).1
              (forward_trans hfw (forward_trans hf1
                (forward_trans (forward_rl16 _) (forward_rl16 _))))
              (tag_read_le_of_read s0 s1.pb (forward_trans hfw hf1))
            refine ⟨hnext.1, ?_, ?_⟩
            · intro g1 e1 s2 h
              obtain ⟨h1, h2⟩ := hnext.2.1 g1 e1 s2 h
              exact ⟨forward_trans hf1 (forward_trans
                (forward_trans (forward_rl16 _) (forward_rl16 _)) h1), h2⟩
            · intro hfu
              apply hnext.2.2
              rw [rl16_eq_r16 s1.pb, rl16_eq_r16]
              exact fuel_ok_next f s.pb s1.pb _ (remaining_of_fuel_ok f _ hfu heof) hf1
          · simp only [ne_eq, hz, not_false_eq_true, if_true]
            refine ⟨?_, ?_, ?_⟩
            · intro err1 s2 h
              injection h with h; injection h with h1 _; injection h1 with h1
              rcases herr with h0 | h0
              · exact absurd h0 hz
              · rw [← h1]; exact h0
            · intro g1 e1 s2 h
              injection h with h; injection h with h1 _
              exact absurd h1 (by simp)
            · intro _; simp
      · rw [if_neg he10]
        cases hne : dicom_get_next_element f s with
        | undefined => simp
        | timeout =>
          simp only
          refine ⟨by intro _ _ h; exact absurd h (by simp),
            by intro _ _ _ h; exact absurd h (by simp), ?_⟩
          intro hfu
          exact absurd hne (get_next_element_total f s (remaining_of_fuel_ok f _ hfu heof))
        | ret x =>
          obtain ⟨r, s1⟩ := x
          obtain ⟨hf1, _⟩ := get_next_element_keeps f s r s1 hne
          simp only
          by_cases hz : r = 0
          · subst hz
            simp only [if_true]
            refine ⟨?_, ?_, ?_⟩
            · intro err1 s2 h
              injection h with h; injection h with h1 _
              exact absurd h1 (by simp)
            · intro g1 e1 s2 h
              injection h with h; injection h with h1 h2
              injection h1 with h1
              injection h1 with h3 h4
              subst h2
              refine ⟨hf1, ?_⟩
              intro _ hg1
              rw [← h3, ← h4, hg2] at hg1
              rcases hg1 with h | h | h
              · exact absurd h (by decide)
              · exact absurd h (by decide)
              · exact absurd h.2 he10
            · intro _; simp
          · simp only [hz, if_false]
            have hnext := ih { s1 with pb := (avio_rl16 (avio_rl16 s1.pb).2).2 }
              (avio_rl16 s1.pb).1 (avio_rl16 (avio_rl16 s1.pb).2).1
              (forward_trans hfw (forward_trans hf1
                (forward_trans (forward_rl16 _) (forward_rl16 _))))
              (tag_read_le_of_read s0 s1.pb (forward_trans hfw hf1))
            refine ⟨hnext.1, ?_, ?_⟩
            · intro g1 e1 s2 h
              obtain ⟨h1, h2⟩ := hnext.2.1 g1 e1 s2 h
              exact ⟨forward_trans hf1 (forward_trans
                (forward_trans (forward_rl16 _) (forward_rl16 _)) h1), h2⟩
            · intro hfu
              apply hnext.2.2
              rw [rl16_eq_r16 s1.pb, rl16_eq_r16]
              exact fuel_ok_next f s.pb s1.pb _ (remaining_of_fuel_ok f _ hfu heof) hf1
    · rw [if_neg hc]
      refine ⟨?_, ?_, ?_⟩
      · intro err s1 h
        injection h with h; injection h with h1 _
        exact absurd h1 (by simp)
      · intro g1 e1 s1 h
        injection h with h; injection h with h1 h2
        injection h1 with h1
        injection h1 with h3 h4
        subst h2 h3 h4
        exact ⟨forward_refl _, htag⟩
      · intro _; simp

theorem data_set_loop_spec (s0 : AVIOContext) (fuel : Nat) :
    ∀ (s : AVFormatContext) (g e : Nat), Forward s0 s.pb → TagRead s0 s g e →
      (∀ r s1, data_set_loop fuel s g e = Run.ret (r, s1) →
        (r = 0 ∨ r = AVERROR_EINVAL) ∧
        (r = 0 → s1.pb.eof_reached = false ∧ TagLast s0 s1 0x7fe0 0x0010)) ∧
      (FuelOk fuel s.pb → data_set_loop fuel s g e ≠ Run.timeout) := by
  induction fuel with
  | zero =>
    intro s g e _ _
    refine ⟨?_, ?_⟩
    · intro r s1 h; simp [data_set_loop] at h
    · intro h
      rcases h with ⟨_, h⟩ | h <;> omega
  | succ f ih =>
    intro s g e hfw htag
    unfold data_set_loop
    by_cases hc : (!avio_feof s.pb) = true
    · rw [if_pos hc]
      have heof : s.pb.eof_reached = false := by
        simpa [avio_feof] using hc
      by_cases h28 : g = 0x0028
      · rw [if_pos h28]
        cases hmd : dicom_read_metadata f s e with
        | undefined => simp
        | timeout =>
          simp only
          refine ⟨by intro _ _ h; exact absurd h (by simp), ?_⟩
          intro hfu
          exact absurd hmd (read_metadata_total f s e (remaining_of_fuel_ok f _ hfu heof))
        | ret x =>
          obtain ⟨err, s1⟩ := x
          obtain ⟨herr, hf1, _⟩ := read_metadata_keeps f s e err s1 hmd
          subst herr
          simp only [ne_eq, not_true_eq_false, if_false]
          have hnext := ih
            { s1 with pb := (dicom_r16 (dicom_r16 s1.pb s1.priv_data).2 s1.priv_data).2 }
            (dicom_r16 s1.pb s1.priv_data).1
            (dicom_r16 (dicom_r16 s1.pb s1.priv_data).2 s1.priv_data).1
            (forward_trans hfw (forward_trans hf1
              (forward_trans (forward_dicom_r16 _ _) (forward_dicom_r16 _ _))))
            (tag_read_of_read s0 s1.pb _ (forward_trans hfw hf1))
          refine ⟨hnext.1, ?_⟩
          intro hfu
          apply hnext.2
          exact fuel_ok_next f s.pb s1.pb _ (remaining_of_fuel_ok f _ hfu heof) hf1
      · rw [if_neg h28]
        by_cases hpix : g = 0x7fe0 ∧ e = 0x0010
        · rw [if_pos hpix]
          refine ⟨?_, by intro _; simp⟩
          intro r s1 h
          injection h with h; injection h with h1 h2
          subst h2
          have ht := htag heof (Or.inr hpix.1)
          rw [hpix.1, hpix.2] at ht
          exact ⟨Or.inl h1.symm, fun _ => ⟨heof, ht⟩⟩
        · rw [if_neg hpix]
          cases hne : dicom_get_next_element f s with
          | undefined => simp
          | timeout =>
            simp only
            refine ⟨by intro _ _ h; exact absurd h (by simp), ?_⟩
            intro hfu
            exact absurd hne (get_next_element_total f s (remaining_of_fuel_ok f _ hfu heof))
          | ret x =>
            obtain ⟨r, s1⟩ := x
            obtain ⟨hf1, _⟩ := get_next_element_keeps f s r s1 hne
            simp only
            by_cases hz : r = 0
            · subst hz
              simp only [if_true]
              refine ⟨?_, by intro _; simp⟩
              intro r1 s2 h
              injection h with h; injection h with h1 _
              refine ⟨Or.inr h1.symm, ?_⟩
              intro h0
              rw [← h1] at h0
              exact absurd h0 (by decide)
            · simp only [hz, if_false]
              have hnext := ih
                { s1 with pb := (dicom_r16 (dicom_r16 s1.pb s1.priv_data).2 s1.priv_data).2 }
                (dicom_r16 s1.pb s1.priv_data).1
                (dicom_r16 (dicom_r16 s1.pb s1.priv_data).2 s1.priv_data).1
                (forward_trans hfw (forward_trans hf1
                  (forward_trans (forward_dicom_r16 _ _) (forward_dicom_r16 _ _))))
                (tag_read_of_read s0 s1.pb _ (forward_trans hfw hf1))
              refine ⟨hnext.1, ?_⟩
              intro hfu
              apply hnext.2
              exact fuel_ok_next f s.pb s1.pb _ (remaining_of_fuel_ok f _ hfu heof) hf1
    · rw [if_neg hc]
      refine ⟨?_, by intro _; simp⟩
      intro r s1 h
      injection h with h; injection h with h1 _
      refine ⟨Or.inr h1.symm, ?_⟩
      intro h0
      rw [← h1] at h0
      exact absurd h0 (by decide)

theorem swap_expr_bit5 (x : Nat) : (swap_expr x).testBit 5 = false := by
  unfold swap_expr
  have h16 : (65536 : Nat) = 2 ^ 16 := by norm_num
  rw [h16, Nat.testBit_mod_two_pow, Nat.testBit_and, Nat.testBit_shiftLeft]
  simp

theorem swap_expr_ne_7fe0 (x : Nat) : swap_expr x ≠ 0x7fe0 := by
  intro h
  have h5 := swap_expr_bit5 x
  rw [h] at h5
  exact absurd h5 (by decide)

theorem swap_expr_ne_0028 (x : Nat) : swap_expr x ≠ 0x0028 := by
  intro h
  have h5 := swap_expr_bit5 x
  rw [h] at h5
  exact absurd h5 (by decide)

/-- The outcome of `dicom_read_header`: it does not run out of fuel; when it
returns, the value is 0 or `AVERROR(EINVAL)`, and it is 0 only with the
pixel-data tag read last, right before the cursor, and the end of the stream
not seen. -/
theorem read_header_spec (s : AVFormatContext) :
    dicom_read_header s ≠ Run.timeout ∧
    ∀ r s1, dicom_read_header s = Run.ret (r, s1) →
      (r = 0 ∨ r = AVERROR_EINVAL) ∧
      (r = 0 → s1.pb.eof_reached = false ∧ TagLast s.pb s1 0x7fe0 0x0010) := by
  unfold dicom_read_header
  rw [read_header_fuel_eq]
  generalize hd : ({ s.priv_data with
    endian := DICOM_ENDIAN_LE,
    vr_explicit := DICOM_VR_EXPLICIT,
    compression := DICOM_COMPRESSION_NONE } : DICOMContext) = d
  have hskip : Forward s.pb (avio_skip s.pb 0x84).2 := forward_skip _ _
  generalize (avio_skip s.pb 0x84).2 = pb1 at hskip
  have htagf : Forward s.pb (avio_rl16 (avio_rl16 pb1).2).2 :=
    forward_trans hskip (forward_trans (forward_rl16 _) (forward_rl16 _))
  have hfuel : FuelOk (s.pb.buf.length + 2) (avio_rl16 (avio_rl16 pb1).2).2 := by
    cases he : s.pb.eof_reached
    · have h1 : remaining s.pb = s.pb.buf.length + 1 := by simp [remaining, he]
      have h2 := remaining_le_of_forward hskip
      cases he1 : pb1.eof_reached
      · have h3 := remaining_tag_lt pb1 ⟨0, 0, 0, ⟨"", 0, ""⟩⟩ he1
        rw [← rl16_eq_r16, ← rl16_eq_r16] at h3
        exact Or.inr (by omega)
      · have hfw : Forward pb1 (avio_rl16 (avio_rl16 pb1).2).2 :=
          forward_trans (forward_rl16 _) (forward_rl16 _)
        exact Or.inl ⟨hfw.2 he1, by omega⟩
    · exact Or.inl ⟨htagf.2 he, by omega⟩
  have hmeta := file_meta_loop_spec s.pb (s.pb.buf.length + 2)
    ⟨(avio_rl16 (avio_rl16 pb1).2).2, d⟩ (avio_rl16 pb1).1 (avio_rl16 (avio_rl16 pb1).2).1
    htagf (tag_read_le_of_read s.pb pb1 hskip)
  unfold file_meta_next
  simp only
  cases hfm : file_meta_loop (s.pb.buf.length + 2) ⟨(avio_rl16 (avio_rl16 pb1).2).2, d⟩
      (avio_rl16 pb1).1 (avio_rl16 (avio_rl16 pb1).2).1 with
  | undefined => simp [after_file_meta]
  | timeout => exact absurd hfm (hmeta.2.2 hfuel)
  | ret x =>
    obtain ⟨res, s1⟩ := x
    cases res with
    | inl err =>
      have herr := hmeta.1 err s1 hfm
      simp only [after_file_meta]
      refine ⟨by simp, ?_⟩
      intro r s2 h
      injection h with h; injection h with h1 _
      refine ⟨Or.inr (by rw [← h1]; exact herr), ?_⟩
      intro h0
      rw [← h1, herr] at h0
      exact absurd h0 (by decide)
    | inr tag =>
      obtain ⟨g, e⟩ := tag
      obtain ⟨hf1, htag1⟩ := hmeta.2.1 g e s1 hfm
      have hfw1 : Forward s.pb s1.pb := forward_trans htagf hf1
      have hfu1 : FuelOk (s.pb.buf.length + 2) s1.pb := fuel_ok_of_forward hfuel hf1
      simp only [after_file_meta]
      split
      · have hds := data_set_loop_spec s.pb (s.pb.buf.length + 2)
          { s1 with priv_data := ( dicom_parse_syntax s1.priv_data).2 }
          (swap_expr g) (swap_expr e) hfw1
          (fun _ hg => hg.elim (fun h => absurd h (swap_expr_ne_0028 g))
            (fun h => absurd h (swap_expr_ne_7fe0 g)))
        exact ⟨hds.2 hfu1, hds.1⟩
      · rename_i hx
        have hds := data_set_loop_spec s.pb (s.pb.buf.length + 2)
          { s1 with priv_data := ( dicom_parse_syntax s1.priv_data).2 } g e hfw1
          (fun hne hg => Or.inr ⟨hx, htag1 hne
            (hg.elim (fun h => Or.inl h) (fun h => Or.inr (Or.inl h)))⟩)
        exact ⟨hds.2 hfu1, hds.1⟩

theorem scan_table_lt (syn : List Nat) (table : List DICOMTransferSyntax) :
    ∀ i j, scan_table syn i table = Run.ret j → j < i + table.length := by
  induction table with
  | nil => intro i j h; simp [scan_table] at h
  | cons e es ih =>
    intro i j h
    unfold scan_table at h
    split at h
    · exact absurd h (by simp)
    · injection h with h
      simp only [List.length_cons]
      omega
    · have := ih (i + 1) j h
      simp only [List.length_cons]
      omega

/-- The branch `return AVERROR(EINVAL)` of `dicom_read_transfer_syntax` is
never taken: whenever the function returns, it returns 0. -/
theorem read_transfer_syntax_returns_zero (s : AVFormatContext) (r : Int)
    (s1 : AVFormatContext) (h : dicom_read_transfer_syntax s = Run.ret (r, s1)) : r = 0 := by
  unfold dicom_read_transfer_syntax at h
  dsimp only at h
  split at h
  · exact absurd h (by simp)
  · split at h
    · exact absurd h (by simp)
    · exact absurd h (by simp)
    · rename_i i hscan
      have hlt := scan_table_lt _ _ 0 i hscan
      rw [table_length] at hlt
      split at h
      · rename_i hi
        rw [sizeof_table] at hi
        omega
      · split at h
        · exact absurd h (by simp)
        · injection h with h; injection h with h1 _
          exact h1.symm

/-- When `dicom_read_metadata` has undefined behaviour: in a text `case`,
when more than 1024 bytes are copied into `data` or no NUL is among the bytes
copied. -/
theorem read_metadata_undefined (fuel : Nat) (s : AVFormatContext) (element : Nat)
    (h : dicom_read_metadata fuel s element = Run.undefined) :
    element ∈ metadata_cases_read ∧
    ∃ vl s1, dicom_read_element_length s = Run.ret (vl, s1) ∧
      (1024 < (avio_read s1.pb (read_size vl)).1.length ∨
        0 ∉ (avio_read s1.pb (read_size vl)).1) := by
  have ht : element ∈ metadata_cases_read := by
    by_contra hn
    exact read_metadata_defined fuel s element hn h
  refine ⟨ht, ?_⟩
  obtain ⟨vl, s1, hl⟩ := read_element_length_returns s
  refine ⟨vl, s1, hl, ?_⟩
  unfold dicom_read_metadata at h
  rw [hl] at h
  simp only at h
  split_ifs at h
  all_goals first
    | exact Or.inl (by assumption)
    | exact Or.inr (by assumption)

/-- An iteration of the second loop of `dicom_read_header` for a tag that is
neither of group 0x0028 nor the pixel-data tag. -/
theorem data_set_loop_other (f : Nat) (s : AVFormatContext) (g e : Nat)
    (hg : g ≠ 0x0028) (hp : ¬ (g = 0x7fe0 ∧ e = 0x0010)) (heof : s.pb.eof_reached = false) :
    data_set_loop (f + 1) s g e
      = match dicom_get_next_element f s with
        | Run.undefined => Run.undefined
        | Run.timeout => Run.timeout
        | Run.ret (r, s1) =>
          if r = 0 then Run.ret (AVERROR_EINVAL, s1) else data_set_next f s1 := by
  unfold data_set_loop
  simp only [avio_feof, heof, Bool.not_false, if_true, hg, if_false, hp]
  cases dicom_get_next_element f s with
  | undefined => rfl
  | timeout => rfl
  | ret x => rfl

theorem swap_expr_low_byte (x : Nat) (h : x < 65536) : swap_expr x % 256 = 0 := by
  rw [swap_expr_eq x h]
  omega

/-- The run of `dicom_read_header` up to its second loop for the big-endian
syntax: the first tag of the data set, encoded big-endian, enters the loop
with the bytes of its group and of its element exchanged. -/
theorem read_header_big_endian_tag (fuel : Nat) (d0 : DICOMContext) (p : Nat) (pre : List Nat)
    (m1 m2 : Body) (k : Nat) (e : DICOMTransferSyntax) (vr0 vr1 : Nat) (pad : List Nat)
    (g el : Nat) (R : List Nat)
    (hpre : pre.length = 132)
    (he : dicom_transfer_syntax.get? k = some e) (ht : e.type = 2)
    (hid : (cstr e.name ++ 0 :: pad).length ≤ 25)
    (hm1 : Body.wf (default_mode e) m1 = true) (hk1 : Body.meta_ok m1 = true)
    (hm2 : Body.wf (default_mode e) m2 = true) (hk2 : Body.meta_ok m2 = true)
    (hgrp : swap16 g ≠ 0x0002)
    (hfuel : (Body.encode (default_mode e) m1).length
      + (Body.encode (default_mode e) m2).length + 2 ≤ fuel) :
    dicom_read_header_fuel fuel
        ⟨⟨pre ++ (Body.encode (default_mode e) m1 ++ (ts_element e vr0 vr1 pad
            ++ (Body.encode (default_mode e) m2
              ++ (w16 DICOM_ENDIAN_BE g ++ (w16 DICOM_ENDIAN_BE el ++ R))))), p, false⟩, d0⟩
      = data_set_loop fuel
          ⟨⟨R, p + 132 + (Body.encode (default_mode e) m1).length
              + (ts_element e vr0 vr1 pad).length
              + (Body.encode (default_mode e) m2).length + 4, false⟩, ⟨1, 1, 0, e⟩⟩
          (swap16 g) (swap16 el) := by
  have hw : ∀ v : Nat, w16 DICOM_ENDIAN_BE v = [v / 256 % 256, v % 256] :=
    fun v => w16_be _ (by decide) v
  rw [hw g, hw el]
  simp only [List.cons_append, List.nil_append]
  rw [read_header_to_data_set fuel d0 p pre m1 m2 k e vr0 vr1 pad _ _ _ _ R hpre he hid
    hm1 hk1 hm2 hk2 (by rw [val16_be_bytes]; exact hgrp) hfuel]
  rw [resolved_mode_big e ht, val16_be_bytes, val16_be_bytes]
  rfl

/-- The run of `dicom_read_header` up to its second loop for the implicit
syntax: the first tag of the data set enters the loop rewritten. -/
theorem read_header_implicit_tag (fuel : Nat) (d0 : DICOMContext) (p : Nat) (pre : List Nat)
    (m1 m2 : Body) (k : Nat) (e : DICOMTransferSyntax) (vr0 vr1 : Nat) (pad : List Nat)
    (b0 b1 b2 b3 : Nat) (R : List Nat)
    (hpre : pre.length = 132)
    (he : dicom_transfer_syntax.get? k = some e) (ht : e.type = 0)
    (hid : (cstr e.name ++ 0 :: pad).length ≤ 25)
    (hm1 : Body.wf (default_mode e) m1 = true) (hk1 : Body.meta_ok m1 = true)
    (hm2 : Body.wf (default_mode e) m2 = true) (hk2 : Body.meta_ok m2 = true)
    (hgrp : val16 0 b0 b1 ≠ 0x0002)
    (hfuel : (Body.encode (default_mode e) m1).length
      + (Body.encode (default_mode e) m2).length + 2 ≤ fuel) :
    dicom_read_header_fuel fuel
        ⟨⟨pre ++ (Body.encode (default_mode e) m1 ++ (ts_element e vr0 vr1 pad
            ++ (Body.encode (default_mode e) m2 ++ b0 :: b1 :: b2 :: b3 :: R))), p, false⟩, d0⟩
      = data_set_loop fuel
          ⟨⟨R, p + 132 + (Body.encode (default_mode e) m1).length
              + (ts_element e vr0 vr1 pad).length
              + (Body.encode (default_mode e) m2).length + 4, false⟩, ⟨0, 0, 0, e⟩⟩
          (val16 0 b0 b1 % 256 * 256) (val16 0 b2 b3 % 256 * 256) := by
  rw [read_header_to_data_set fuel d0 p pre m1 m2 k e vr0 vr1 pad b0 b1 b2 b3 R hpre he hid
    hm1 hk1 hm2 hk2 hgrp hfuel]
  rw [resolved_mode_implicit e ht, if_pos rfl, swap_expr_eq _ (val16_lt 0 b0 b1),
    swap_expr_eq _ (val16_lt 0 b2 b3)]

theorem after_file_meta_implicit (fuel : Nat) (g e : Nat) (s1 : AVFormatContext)
    (himp : ( dicom_parse_syntax s1.priv_data).2.vr_explicit = 0)
    (heof : s1.pb.eof_reached = false) :
    after_file_meta (fuel + 1) (Run.ret (Sum.inr (g, e), s1))
      = match dicom_get_next_element fuel
            { s1 with priv_data := ( dicom_parse_syntax s1.priv_data).2 } with
        | Run.undefined => Run.undefined
        | Run.timeout => Run.timeout
        | Run.ret (r, s2) =>
          if r = 0 then Run.ret (AVERROR_EINVAL, s2) else data_set_next fuel s2 := by
  simp only [after_file_meta, himp, if_true]
  exact data_set_loop_other fuel _ _ _ (swap_expr_ne_0028 g)
    (fun h => swap_expr_ne_7fe0 g h.1) heof

theorem after_file_meta_eof (fuel : Nat) (g e : Nat) (s1 : AVFormatContext)
    (heof : s1.pb.eof_reached = true) :
    after_file_meta (fuel + 1) (Run.ret (Sum.inr (g, e), s1))
      = Run.ret (AVERROR_EINVAL,
          { s1 with priv_data := ( dicom_parse_syntax s1.priv_data).2 }) := by
  simp only [after_file_meta]
  split <;> simp [data_set_loop, avio_feof, heof]

/-- C11, as stated, fails. With the explicit big-endian syntax (type 2) the
tag that ended the file-meta pass is not byte-swapped: the rewrite in
`dicom_read_header` is guarded by `!d->vr_explicit`, and type 2 leaves
`vr_explicit` set. After any well-formed file-meta group, a first data-set
element whose group is encoded big-endian as 00 28 enters the data-set loop as
group 0x2800, its element number with its two bytes exchanged; and the loop
sends group 0x2800 to `dicom_get_next_element`, not to `dicom_read_metadata`. -/
theorem C11_big_endian_first_tag_not_swapped (fuel : Nat) (d0 : DICOMContext) (p : Nat)
    (pre : List Nat) (m1 m2 : Body) (k : Nat) (e : DICOMTransferSyntax) (vr0 vr1 : Nat)
    (pad : List Nat) (el : Nat) (R : List Nat)
    (hpre : pre.length = 132)
    (he : dicom_transfer_syntax.get? k = some e) (ht : e.type = 2)
    (hid : (cstr e.name ++ 0 :: pad).length ≤ 25)
    (hm1 : Body.wf (default_mode e) m1 = true) (hk1 : Body.meta_ok m1 = true)
    (hm2 : Body.wf (default_mode e) m2 = true) (hk2 : Body.meta_ok m2 = true)
    (hfuel : (Body.encode (default_mode e) m1).length
      + (Body.encode (default_mode e) m2).length + 2 ≤ fuel) :
    dicom_read_header_fuel fuel
        ⟨⟨pre ++ (Body.encode (default_mode e) m1 ++ (ts_element e vr0 vr1 pad
            ++ (Body.encode (default_mode e) m2
              ++ (w16 DICOM_ENDIAN_BE 0x0028 ++ (w16 DICOM_ENDIAN_BE el ++ R))))), p, false⟩, d0⟩
      = data_set_loop fuel
          ⟨⟨R, p + 132 + (Body.encode (default_mode e) m1).length
              + (ts_element e vr0 vr1 pad).length
              + (Body.encode (default_mode e) m2).length + 4, false⟩, ⟨1, 1, 0, e⟩⟩
          0x2800 (swap16 el) ∧
    ∀ (f : Nat) (s : AVFormatContext) (x : Nat), s.pb.eof_reached = false →
      data_set_loop (f + 1) s 0x2800 x
        = match dicom_get_next_element f s with
          | Run.undefined => Run.undefined
          | Run.timeout => Run.timeout
          | Run.ret (r, s1) =>
            if r = 0 then Run.ret (AVERROR_EINVAL, s1) else data_set_next f s1 :=
  ⟨read_header_big_endian_tag fuel d0 p pre m1 m2 k e vr0 vr1 pad 0x0028 el R hpre he ht hid
      hm1 hk1 hm2 hk2 (by decide) hfuel,
    fun f s x heof =>
      data_set_loop_other f s 0x2800 x (by decide) (fun h => absurd h.1 (by decide)) heof⟩

/-- Witness of C11: big-endian syntax, first data-set element (0x0028,0x1101)
with VR "US" and three 16-bit values, then the pixel-data element. The loop is
entered with the tag (0x2800,0x0111); the element is skipped by its declared
length of 6 and the scan returns 0 at offset 178. Entered with the tag
(0x0028,0x1101), the loop reads one 16-bit value, loses the element boundary
and returns `AVERROR(EINVAL)`. -/
theorem C11_big_endian_first_tag_not_swapped_witness :
    dicom_read_header_fuel 60
        ⟨⟨preamble ++ ([] ++ ([2, 0, 0x10, 0, 85, 73, 20, 0] ++ cstr "1.2.840.10008.1.2.2" ++ [0]
            ++ ([] ++ ([0x00, 0x28] ++ ([0x11, 0x01]
            ++ [85, 83, 0, 6, 0, 1, 0, 0, 0, 16, 0x7f, 0xe0, 0, 0x10,
                79, 87, 0, 0, 0, 0, 0, 2, 1, 2]))))), 0, false⟩, ctx0⟩
      = data_set_loop 60
          ⟨⟨[85, 83, 0, 6, 0, 1, 0, 0, 0, 16, 0x7f, 0xe0, 0, 0x10,
              79, 87, 0, 0, 0, 0, 0, 2, 1, 2], 164, false⟩,
            ⟨1, 1, 0, ⟨"1.2.840.10008.1.2.2", 2, "none"⟩⟩⟩ 0x2800 0x0111 ∧
    dicom_read_header
        ⟨⟨preamble ++ [2, 0, 0x10, 0, 85, 73, 20, 0] ++ cstr "1.2.840.10008.1.2.2" ++ [0]
            ++ [0x00, 0x28, 0x11, 0x01, 85, 83, 0, 6, 0, 1, 0, 0, 0, 16]
            ++ [0x7f, 0xe0, 0, 0x10, 79, 87, 0, 0, 0, 0, 0, 2, 1, 2], 0, false⟩, ctx0⟩
      = Run.ret (0,
          ⟨⟨[79, 87, 0, 0, 0, 0, 0, 2, 1, 2], 178, false⟩,
            ⟨1, 1, 0, ⟨"1.2.840.10008.1.2.2", 2, "none"⟩⟩⟩) ∧
    data_set_loop 60
        ⟨⟨[85, 83, 0, 6, 0, 1, 0, 0, 0, 16, 0x7f, 0xe0, 0, 0x10,
            79, 87, 0, 0, 0, 0, 0, 2, 1, 2], 164, false⟩,
          ⟨1, 1, 0, ⟨"1.2.840.10008.1.2.2", 2, "none"⟩⟩⟩ 0x0028 0x1101
      = Run.ret (AVERROR_EINVAL,
          ⟨⟨[], 194, true⟩, ⟨1, 1, 0, ⟨"1.2.840.10008.1.2.2", 2, "none"⟩⟩⟩) :=
  ⟨(C11_big_endian_first_tag_not_swapped 60 ctx0 0 preamble Body.nil Body.nil 3
      ⟨"1.2.840.10008.1.2.2", 2, "none"⟩ 85 73 [] 0x1101
      [85, 83, 0, 6, 0, 1, 0, 0, 0, 16, 0x7f, 0xe0, 0, 0x10, 79, 87, 0, 0, 0, 0, 0, 2, 1, 2]
      (by decide) (by decide) (by decide) (by decide) (by decide) (by decide) (by decide)
      (by decide) (by decide)).1,
    by decide, by decide⟩

/-- C12, as stated, fails. In implicit style (type 0), after any well-formed
file-meta group, the group and element with which the data-set loop is entered
are `(g mod 256) * 256` and `(e mod 256) * 256`, where `g` and `e` are the
values read little-endian at the end of the file-meta pass: the high byte of
each is lost. For every 16-bit `x` of 256 or more the rewrite differs from
the full byte swap `(x mod 256) * 256 + x div 256`. -/
theorem C12_implicit_rewrite_drops_high_byte (fuel : Nat) (d0 : DICOMContext) (p : Nat)
    (pre : List Nat) (m1 m2 : Body) (k : Nat) (e : DICOMTransferSyntax) (vr0 vr1 : Nat)
    (pad : List Nat) (b0 b1 b2 b3 : Nat) (R : List Nat)
    (hpre : pre.length = 132)
    (he : dicom_transfer_syntax.get? k = some e) (ht : e.type = 0)
    (hid : (cstr e.name ++ 0 :: pad).length ≤ 25)
    (hm1 : Body.wf (default_mode e) m1 = true) (hk1 : Body.meta_ok m1 = true)
    (hm2 : Body.wf (default_mode e) m2 = true) (hk2 : Body.meta_ok m2 = true)
    (hgrp : val16 0 b0 b1 ≠ 0x0002)
    (hfuel : (Body.encode (default_mode e) m1).length
      + (Body.encode (default_mode e) m2).length + 2 ≤ fuel) :
    dicom_read_header_fuel fuel
        ⟨⟨pre ++ (Body.encode (default_mode e) m1 ++ (ts_element e vr0 vr1 pad
            ++ (Body.encode (default_mode e) m2 ++ b0 :: b1 :: b2 :: b3 :: R))), p, false⟩, d0⟩
      = data_set_loop fuel
          ⟨⟨R, p + 132 + (Body.encode (default_mode e) m1).length
              + (ts_element e vr0 vr1 pad).length
              + (Body.encode (default_mode e) m2).length + 4, false⟩, ⟨0, 0, 0, e⟩⟩
          (val16 0 b0 b1 % 256 * 256) (val16 0 b2 b3 % 256 * 256) ∧
    ∀ x, x < 65536 → 256 ≤ x → swap_expr x ≠ x % 256 * 256 + x / 256 :=
  ⟨read_header_implicit_tag fuel d0 p pre m1 m2 k e vr0 vr1 pad b0 b1 b2 b3 R hpre he ht hid
      hm1 hk1 hm2 hk2 hgrp hfuel,
    fun x hx h256 => by rw [swap_expr_eq x hx]; omega⟩

/-- Witness of C12: implicit syntax, first data-set tag bytes 7F E0 00 10,
read little-endian as (0xE07F,0x1000). The full byte swap of the pair is the
pixel-data tag (0x7FE0,0x0010); the loop is entered with (0x7F00,0x0000), skips
the element and returns 0 only at the next tag, at offset 172 instead of
162. -/
theorem C12_implicit_rewrite_drops_high_byte_witness :
    dicom_read_header_fuel 60
        ⟨⟨preamble ++ ([] ++ ([2, 0, 0x10, 0, 85, 73, 18, 0] ++ cstr "1.2.840.10008.1.2" ++ [0]
            ++ ([] ++ 0x7f :: 0xe0 :: 0x00 :: 0x10 ::
              [2, 0, 0, 0, 1, 2, 0xe0, 0x7f, 0x10, 0, 10, 0, 0, 0]))), 0, false⟩, ctx0⟩
      = data_set_loop 60
          ⟨⟨[2, 0, 0, 0, 1, 2, 0xe0, 0x7f, 0x10, 0, 10, 0, 0, 0], 162, false⟩,
            ⟨0, 0, 0, ⟨"1.2.840.10008.1.2", 0, "none"⟩⟩⟩ 0x7f00 0 ∧
    swap_expr 0xe07f ≠ 0x7fe0 ∧
    dicom_read_header
        ⟨⟨preamble ++ [2, 0, 0x10, 0, 85, 73, 18, 0] ++ cstr "1.2.840.10008.1.2" ++ [0]
            ++ [0x7f, 0xe0, 0x00, 0x10, 2, 0, 0, 0, 1, 2]
            ++ [0xe0, 0x7f, 0x10, 0, 10, 0, 0, 0], 0, false⟩, ctx0⟩
      = Run.ret (0,
          ⟨⟨[10, 0, 0, 0], 172, false⟩, ⟨0, 0, 0, ⟨"1.2.840.10008.1.2", 0, "none"⟩⟩⟩) :=
  have h := C12_implicit_rewrite_drops_high_byte 60 ctx0 0 preamble Body.nil Body.nil 0
    ⟨"1.2.840.10008.1.2", 0, "none"⟩ 85 73 [] 0x7f 0xe0 0x00 0x10
    [2, 0, 0, 0, 1, 2, 0xe0, 0x7f, 0x10, 0, 10, 0, 0, 0]
    (by decide) (by decide) (by decide) (by decide) (by decide) (by decide) (by decide)
    (by decide) (by decide) (by decide)
  ⟨h.1, h.2 0xe07f (by decide) (by decide), by decide⟩

/-- C19: the rewrite `(x << 8) & 0xff00 + (x >> 8)` of a 16-bit `x` is
`(x mod 256) * 256`, so its low byte is 0 and it is neither 0x0028 nor 0x7FE0.
Hence, whenever the file-meta pass of `dicom_read_header` ends with a tag and
the resolved style is implicit: if the end of the stream has not been seen,
the first iteration of the data-set loop is the branch of
`dicom_get_next_element`, whatever the tag; if it has been seen, the run
returns `AVERROR(EINVAL)`. -/
theorem C19_implicit_first_element_always_skipped (fuel : Nat) (s : AVFormatContext)
    (g e : Nat) (s1 : AVFormatContext) :
    (∀ x, x < 65536 → swap_expr x = x % 256 * 256 ∧ swap_expr x % 256 = 0) ∧
    (∀ x, swap_expr x ≠ 0x0028 ∧ swap_expr x ≠ 0x7fe0) ∧
    (file_meta_next (fuel + 1) ⟨(avio_skip s.pb 0x84).2, default_mode s.priv_data.syntax_⟩
        = Run.ret (Sum.inr (g, e), s1) →
      ( dicom_parse_syntax s1.priv_data).2.vr_explicit = 0 → s1.pb.eof_reached = false →
      dicom_read_header_fuel (fuel + 1) s
        = match dicom_get_next_element fuel
              { s1 with priv_data := ( dicom_parse_syntax s1.priv_data).2 } with
          | Run.undefined => Run.undefined
          | Run.timeout => Run.timeout
          | Run.ret (r, s2) =>
            if r = 0 then Run.ret (AVERROR_EINVAL, s2) else data_set_next fuel s2) ∧
    (file_meta_next (fuel + 1) ⟨(avio_skip s.pb 0x84).2, default_mode s.priv_data.syntax_⟩
        = Run.ret (Sum.inr (g, e), s1) →
      ( dicom_parse_syntax s1.priv_data).2.vr_explicit = 0 → s1.pb.eof_reached = true →
      dicom_read_header_fuel (fuel + 1) s
        = Run.ret (AVERROR_EINVAL,
            { s1 with priv_data := ( dicom_parse_syntax s1.priv_data).2 })) := by
  have h := read_header_fuel_eq (fuel + 1) s
  have hd : DICOMContext.mk DICOM_ENDIAN_LE DICOM_VR_EXPLICIT DICOM_COMPRESSION_NONE
      s.priv_data.syntax_ = default_mode s.priv_data.syntax_ := rfl
  simp only [hd] at h
  refine ⟨fun x hx => ⟨swap_expr_eq x hx, swap_expr_low_byte x hx⟩,
    fun x => ⟨swap_expr_ne_0028 x, swap_expr_ne_7fe0 x⟩, ?_, ?_⟩
  · intro hfm himp heof
    rw [h, hfm]
    exact after_file_meta_implicit fuel g e s1 himp heof
  · intro hfm _ heof
    rw [h, hfm]
    exact after_file_meta_eof fuel g e s1 heof

/-- Witness of C19: implicit syntax with the pixel-data element first in the
data set. Its tag is not recognised: the element is skipped and the run
returns `AVERROR(EINVAL)` at the end of the stream. A stream that ends right
after the file-meta group returns `AVERROR(EINVAL)` as well. -/
theorem C19_implicit_first_element_always_skipped_witness :
    dicom_read_header_fuel 178
        ⟨⟨preamble ++ [2, 0, 0x10, 0, 85, 73, 18, 0] ++ cstr "1.2.840.10008.1.2" ++ [0]
            ++ [0xe0, 0x7f, 0x10, 0] ++ [10, 0, 0, 0]
            ++ [1, 2, 3, 4, 5, 6, 7, 8, 9, 10], 0, false⟩, ctx0⟩
      = Run.ret (AVERROR_EINVAL,
          ⟨⟨[], 176, true⟩, ⟨0, 0, 0, ⟨"1.2.840.10008.1.2", 0, "none"⟩⟩⟩) ∧
    dicom_read_header_fuel 160
        ⟨⟨preamble ++ [2, 0, 0x10, 0, 85, 73, 18, 0] ++ cstr "1.2.840.10008.1.2" ++ [0],
          0, false⟩, ctx0⟩
      = Run.ret (AVERROR_EINVAL,
          ⟨⟨[], 158, true⟩, ⟨0, 0, 0, ⟨"1.2.840.10008.1.2", 0, "none"⟩⟩⟩) :=
  ⟨((C19_implicit_first_element_always_skipped 177
      ⟨⟨preamble ++ [2, 0, 0x10, 0, 85, 73, 18, 0] ++ cstr "1.2.840.10008.1.2" ++ [0]
          ++ [0xe0, 0x7f, 0x10, 0] ++ [10, 0, 0, 0]
          ++ [1, 2, 3, 4, 5, 6, 7, 8, 9, 10], 0, false⟩, ctx0⟩ 0x7fe0 0x0010
      ⟨⟨[10, 0, 0, 0, 1, 2, 3, 4, 5, 6, 7, 8, 9, 10], 162, false⟩,
        default_mode ⟨"1.2.840.10008.1.2", 0, "none"⟩⟩).2.2.1
      (by decide) (by decide) (by decide)).trans (by decide),
    (C19_implicit_first_element_always_skipped 159
      ⟨⟨preamble ++ [2, 0, 0x10, 0, 85, 73, 18, 0] ++ cstr "1.2.840.10008.1.2" ++ [0],
        0, false⟩, ctx0⟩ 0 0
      ⟨⟨[], 158, true⟩, default_mode ⟨"1.2.840.10008.1.2", 0, "none"⟩⟩).2.2.2
      (by decide) (by decide) (by decide)⟩

/-! ### The parse mode during the file-meta pass -/

theorem same_mode_refl (a : DICOMContext) : same_mode a a := ⟨rfl, rfl, rfl⟩

theorem same_mode_trans {a b c : DICOMContext} (h1 : same_mode a b) (h2 : same_mode b c) :
    same_mode a c :=
  ⟨h1.1.trans h2.1, h1.2.1.trans h2.2.1, h1.2.2.trans h2.2.2⟩

theorem read_transfer_syntax_mode (s : AVFormatContext) (r : Int) (s1 : AVFormatContext)
    (h : dicom_read_transfer_syntax s = Run.ret (r, s1)) :
    same_mode s1.priv_data s.priv_data := by
  unfold dicom_read_transfer_syntax at h
  dsimp only at h
  split at h
  · exact absurd h (by simp)
  · split at h
    · exact absurd h (by simp)
    · exact absurd h (by simp)
    · split at h
      · injection h with h; injection h with h1 h2; subst h2
        exact same_mode_refl _
      · split at h
        · exact absurd h (by simp)
        · injection h with h; injection h with h1 h2; subst h2
          exact ⟨rfl, rfl, rfl⟩

/-- The first loop of `dicom_read_header` changes neither byte order, style
nor compression. -/
theorem file_meta_loop_mode (fuel : Nat) :
    ∀ (s : AVFormatContext) (g e : Nat) (res : Int ⊕ (Nat × Nat)) (s1 : AVFormatContext),
      file_meta_loop fuel s g e = Run.ret (res, s1) → same_mode s1.priv_data s.priv_data := by
  induction fuel with
  | zero => intro s g e res s1 h; simp [file_meta_loop] at h
  | succ f ih =>
    intro s g e res s1 h
    unfold file_meta_loop at h
    split at h
    · split at h
      · split at h
        · exact absurd h (by simp)
        · exact absurd h (by simp)
        · rename_i err s2 hts
          have hm := read_transfer_syntax_mode s err s2 hts
          split at h
          · injection h with h; injection h with _ h2; subst h2
            exact hm
          · exact same_mode_trans (ih _ _ _ res s1 h) hm
      · split at h
        · exact absurd h (by simp)
        · exact absurd h (by simp)
        · rename_i r s2 hne
          have hp := (get_next_element_keeps f s r s2 hne).2
          split at h
          · injection h with h; injection h with _ h2; subst h2
            rw [hp]; exact same_mode_refl _
          · have := ih _ _ _ res s1 h
            simp only at this
            rw [hp] at this
            exact this
    · injection h with h; injection h with _ h2; subst h2
      exact same_mode_refl _

theorem file_meta_next_mode (fuel : Nat) (s0 : AVFormatContext) (res : Int ⊕ (Nat × Nat))
    (s1 : AVFormatContext) (h : file_meta_next fuel s0 = Run.ret (res, s1)) :
    same_mode s1.priv_data s0.priv_data := by
  have hm := file_meta_loop_mode fuel _ _ _ res s1 h
  exact hm

/-- C13: the file-meta pass of `dicom_read_header` runs in explicit
little-endian mode whatever transfer syntax it reads. The pass is entered with
the defaults (little-endian, explicit, no compression) and
`dicom_parse_syntax` is applied to its outcome only;
`dicom_read_transfer_syntax` and the pass as a whole leave byte order, style
and compression as they were; every tag of the pass is read least significant
byte first, whatever the mode; and on a well-formed file-meta group the
elements that follow the transfer-syntax element, encoded explicit
little-endian, are skipped exactly for every table entry, the implicit and the
big-endian ones included: the pass ends at the first tag whose group is not
0x0002, still in the default mode. -/
theorem C13_file_meta_explicit_little_endian (fuel : Nat) (s : AVFormatContext)
    (d0 : DICOMContext) (p : Nat) (m1 m2 : Body) (k : Nat) (e : DICOMTransferSyntax)
    (vr0 vr1 : Nat) (pad : List Nat) (b0 b1 b2 b3 : Nat) (R : List Nat) :
    dicom_read_header_fuel fuel s
      = after_file_meta fuel
          (file_meta_next fuel ⟨(avio_skip s.pb 0x84).2, default_mode s.priv_data.syntax_⟩) ∧
    (∀ s0 r s1, dicom_read_transfer_syntax s0 = Run.ret (r, s1) →
      same_mode s1.priv_data s0.priv_data) ∧
    (∀ s0 res s1, file_meta_next fuel s0 = Run.ret (res, s1) →
      same_mode s1.priv_data s0.priv_data) ∧
    (∀ (d : DICOMContext) (c0 c1 c2 c3 : Nat) (Y : List Nat) (q : Nat) (eof : Bool),
      file_meta_next fuel ⟨⟨c0 :: c1 :: c2 :: c3 :: Y, q, eof⟩, d⟩
        = file_meta_loop fuel ⟨⟨Y, q + 4, eof⟩, d⟩ (val16 0 c0 c1) (val16 0 c2 c3)) ∧
    ( dicom_transfer_syntax.get? k = some e → (cstr e.name ++ 0 :: pad).length ≤ 25 →
      Body.wf (default_mode e) m1 = true → Body.meta_ok m1 = true →
      Body.wf (default_mode e) m2 = true → Body.meta_ok m2 = true →
      val16 0 b0 b1 ≠ 0x0002 →
      (Body.encode (default_mode e) m1).length
        + (Body.encode (default_mode e) m2).length + 2 ≤ fuel →
      file_meta_next fuel
          ⟨⟨Body.encode (default_mode e) m1 ++ (ts_element e vr0 vr1 pad
              ++ (Body.encode (default_mode e) m2 ++ b0 :: b1 :: b2 :: b3 :: R)), p, false⟩,
            default_mode d0.syntax_⟩
        = Run.ret (Sum.inr (val16 0 b0 b1, val16 0 b2 b3),
            ⟨⟨R, p + (Body.encode (default_mode e) m1).length
                + (ts_element e vr0 vr1 pad).length
                + (Body.encode (default_mode e) m2).length + 4, false⟩, default_mode e⟩)) :=
  ⟨read_header_fuel_eq fuel s, read_transfer_syntax_mode, file_meta_next_mode fuel,
    fun d c0 c1 c2 c3 Y q eof => file_meta_next_raw fuel d c0 c1 c2 c3 Y q eof,
    file_meta_pass fuel d0 p m1 m2 k e vr0 vr1 pad b0 b1 b2 b3 R⟩

/-- Witness of C13: the big-endian syntax is declared, the file-meta element
(0x0002,0x0012) follows it, encoded explicit little-endian; the pass skips it
by its little-endian length 2 and ends at the next tag, read little-endian as
(0x0800,0x0500), in little-endian explicit mode. -/
theorem C13_file_meta_explicit_little_endian_witness :
    file_meta_next 30
        ⟨⟨[] ++ ([2, 0, 0x10, 0, 85, 73, 20, 0] ++ cstr "1.2.840.10008.1.2.2" ++ [0]
            ++ ([2, 0, 0x12, 0, 85, 73, 2, 0, 49, 0] ++ 0 :: 8 :: 0 :: 5 :: [9, 9])), 132, false⟩,
          default_mode ctx0.syntax_⟩
      = Run.ret (Sum.inr (0x0800, 0x0500),
          ⟨⟨[9, 9], 174, false⟩, default_mode ⟨"1.2.840.10008.1.2.2", 2, "none"⟩⟩) ∧
    same_mode (default_mode ⟨"1.2.840.10008.1.2.2", 2, "none"⟩) (default_mode ctx0.syntax_) :=
  ⟨(C13_file_meta_explicit_little_endian 30 ⟨⟨[], 0, false⟩, ctx0⟩ ctx0 132 Body.nil
      (Body.leaf 2 0x12 85 73 [49, 0] Body.nil) 3 ⟨"1.2.840.10008.1.2.2", 2, "none"⟩ 85 73 []
      0 8 0 5 [9, 9]).2.2.2.2
      (by decide) (by decide) (by decide) (by decide) (by decide) (by decide) (by decide)
      (by decide),
    (C13_file_meta_explicit_little_endian 30 ⟨⟨[], 0, false⟩, ctx0⟩ ctx0 132 Body.nil
      Body.nil 0 ctx0.syntax_ 0 0 [] 0 0 0 0 []).2.2.1
      ⟨⟨[2, 0, 0x10, 0, 85, 73, 20, 0] ++ cstr "1.2.840.10008.1.2.2" ++ [0]
          ++ [2, 0, 0x12, 0, 85, 73, 2, 0, 49, 0, 0, 8, 0, 5, 9, 9], 132, false⟩,
        default_mode ctx0.syntax_⟩
      (Sum.inr (0x0800, 0x0500))
      ⟨⟨[9, 9], 174, false⟩, default_mode ⟨"1.2.840.10008.1.2.2", 2, "none"⟩⟩ (by decide)⟩

/-! ### Element processing: the default branch, the frame, defined behaviour -/

/-- The `default` branch of `dicom_read_metadata`. -/
theorem read_metadata_default (fuel : Nat) (s : AVFormatContext) (element : Nat)
    (hk : metadata_known element = false) :
    dicom_read_metadata fuel s element
      = match dicom_get_next_element fuel s with
        | Run.undefined => Run.undefined
        | Run.timeout => Run.timeout
        | Run.ret (_, s1) => Run.ret (0, s1) := by
  simp only [metadata_known, Bool.or_eq_false_iff, decide_eq_false_iff_not] at hk
  obtain ⟨⟨⟨c1, c2⟩, c3⟩, c4⟩ := hk
  unfold dicom_read_metadata dicom_get_next_element get_next_element_body
  cases dicom_read_element_length s with
  | undefined => rfl
  | timeout => rfl
  | ret x =>
    obtain ⟨vl, s1⟩ := x
    simp only [c1, c2, c3, c4, if_false]
    by_cases hv : vl = 0xffffffff
    · simp only [hv, if_true, ne_eq, not_true_eq_false, if_false]
    · simp only [hv, if_false, ne_eq, not_false_eq_true, if_true]

theorem metadata_value_ok_unknown (element : Nat) (value : List Nat)
    (hk : metadata_known element = false) : metadata_value_ok element value = true := by
  simp only [metadata_known, Bool.or_eq_false_iff, decide_eq_false_iff_not] at hk
  obtain ⟨⟨⟨c1, c2⟩, c3⟩, c4⟩ := hk
  simp only [metadata_value_ok, c1, c2, c3, c4, if_false]

/-- C14: for an element number without a `case`, `dicom_read_metadata` does
what `dicom_get_next_element` does and returns 0: same final context, same
cursor, on every stream and in every mode. Its behaviour is defined in every
mode, and with fuel above the number of bytes left it returns 0. A defined
length is skipped exactly; an undefined length is resolved by scanning the
inner elements through the delimiter and its 4-byte field. -/
theorem C14_unknown_metadata_is_skipped (fuel : Nat) (s : AVFormatContext) (element : Nat)
    (hk : metadata_known element = false) :
    dicom_read_metadata fuel s element
      = (match dicom_get_next_element fuel s with
        | Run.undefined => Run.undefined
        | Run.timeout => Run.timeout
        | Run.ret (_, s1) => Run.ret (0, s1)) ∧
    (remaining s.pb < fuel → dicom_read_metadata fuel s element ≠ Run.timeout) ∧
    dicom_read_metadata fuel s element ≠ Run.undefined ∧
    (∀ (d : DICOMContext) (vr0 vr1 : Nat) (value X : List Nat) (p : Nat) (eof : Bool),
      len_ok d vr0 vr1 value.length = true →
      dicom_read_metadata fuel
          ⟨⟨enc_length d vr0 vr1 value.length ++ (value ++ X), p, eof⟩, d⟩ element
        = Run.ret (0,
            ⟨⟨X, p + (enc_length d vr0 vr1 value.length).length + value.length, eof⟩, d⟩)) ∧
    (∀ (d : DICOMContext) (vr0 vr1 : Nat) (inner : Body) (pad X : List Nat) (p : Nat),
      long_form d vr0 vr1 = true → Body.wf d inner = true → pad.length = 4 →
      (Body.encode d inner).length < fuel →
      dicom_read_metadata fuel
          ⟨⟨enc_length d vr0 vr1 0xffffffff ++ (Body.encode d inner ++ (delimiter d pad ++ X)),
            p, false⟩, d⟩ element
        = Run.ret (0,
            ⟨⟨X, p + (enc_length d vr0 vr1 0xffffffff).length + (Body.encode d inner).length + 8,
              false⟩, d⟩)) ∧
    (remaining s.pb < fuel → ∃ s1, dicom_read_metadata fuel s element = Run.ret (0, s1)) := by
  have hk1 := hk
  simp only [metadata_known, Bool.or_eq_false_iff, decide_eq_false_iff_not] at hk1
  refine ⟨read_metadata_default fuel s element hk,
    read_metadata_total fuel s element,
    read_metadata_defined fuel s element hk1.2,
    fun d vr0 vr1 value X p eof hlen =>
      read_metadata_leaf fuel d element vr0 vr1 value X p eof hlen
        (metadata_value_ok_unknown element _ hk),
    fun d vr0 vr1 inner pad X p hlong hwf hpad hfuel =>
      read_metadata_seq fuel d element vr0 vr1 inner pad X p hk hlong hwf hpad hfuel, ?_⟩
  intro hf
  obtain ⟨a, ha⟩ := run_ret_of_ne _ (read_metadata_defined fuel s element hk1.2)
    (read_metadata_total fuel s element hf)
  obtain ⟨r, s1⟩ := a
  have h0 := (read_metadata_keeps fuel s element r s1 ha).1
  subst h0
  exact ⟨s1, ha⟩

/-- Witness of C14 for the element number 0x0001, explicit little-endian:
an element of length 2, and an element of undefined length with one inner
element. -/
theorem C14_unknown_metadata_is_skipped_witness :
    dicom_read_metadata 10
        ⟨⟨[85, 83, 2, 0, 1, 2, 9, 9], 200, false⟩, default_mode ctx0.syntax_⟩ 0x0001
      = Run.ret (0, ⟨⟨[9, 9], 206, false⟩, default_mode ctx0.syntax_⟩) ∧
    dicom_get_next_element 10
        ⟨⟨[85, 83, 2, 0, 1, 2, 9, 9], 200, false⟩, default_mode ctx0.syntax_⟩
      = Run.ret (206, ⟨⟨[9, 9], 206, false⟩, default_mode ctx0.syntax_⟩) ∧
    dicom_read_metadata 20
        ⟨⟨[83, 81, 0, 0, 255, 255, 255, 255, 8, 0, 5, 0, 67, 83, 2, 0, 1, 2,
            254, 255, 221, 224, 0, 0, 0, 0, 9, 9], 200, false⟩, default_mode ctx0.syntax_⟩ 0x0001
      = Run.ret (0, ⟨⟨[9, 9], 226, false⟩, default_mode ctx0.syntax_⟩) :=
  ⟨((C14_unknown_metadata_is_skipped 10
      ⟨⟨[85, 83, 2, 0, 1, 2, 9, 9], 200, false⟩, default_mode ctx0.syntax_⟩ 0x0001
      (by decide)).1).trans (by decide),
    by decide,
    (C14_unknown_metadata_is_skipped 20 ⟨⟨[], 0, false⟩, ctx0⟩ 0x0001 (by decide)).2.2.2.2.1
      (default_mode ctx0.syntax_) 83 81 (Body.leaf 8 5 67 83 [1, 2] Body.nil) [0, 0, 0, 0]
      [9, 9] 200 (by decide) (by decide) (by decide) (by decide)⟩

/-- C15: `dicom_read_element_length`, `dicom_get_next_element`,
`dicom_nested_data` and `dicom_read_metadata` return with the private context
(`endian`, `vr_explicit`, `compression`, `syntax`) as it was on entry. With
fuel above the number of bytes left none of them runs out of fuel, and they
return, in every mode (`dicom_read_metadata` for every element number that is
not a text field). In explicit style with fewer than two bytes left,
`dicom_read_element_length` returns the length 0 at the end of the stream. -/
theorem C15_element_processing_keeps_mode (fuel : Nat) (s : AVFormatContext) (element : Nat) :
    (∀ vl s1, dicom_read_element_length s = Run.ret (vl, s1) → s1.priv_data = s.priv_data) ∧
    (∀ r s1, dicom_get_next_element fuel s = Run.ret (r, s1) → s1.priv_data = s.priv_data) ∧
    (∀ r s1, dicom_nested_data fuel s = Run.ret (r, s1) → s1.priv_data = s.priv_data) ∧
    (∀ r s1, dicom_read_metadata fuel s element = Run.ret (r, s1) →
      s1.priv_data = s.priv_data) ∧
    (remaining s.pb < fuel →
      dicom_read_element_length s ≠ Run.timeout ∧
      dicom_get_next_element fuel s ≠ Run.timeout ∧
      dicom_nested_data fuel s ≠ Run.timeout ∧
      dicom_read_metadata fuel s element ≠ Run.timeout) ∧
    (remaining s.pb < fuel →
      (∃ vl s1, dicom_read_element_length s = Run.ret (vl, s1)) ∧
      (∃ r s1, dicom_get_next_element fuel s = Run.ret (r, s1)) ∧
      (∃ r s1, dicom_nested_data fuel s = Run.ret (r, s1)) ∧
      (element ∉ metadata_cases_read →
        ∃ r s1, dicom_read_metadata fuel s element = Run.ret (r, s1))) ∧
    (s.priv_data.vr_explicit ≠ 0 → s.pb.buf.length < 2 →
      dicom_read_element_length s
        = Run.ret (0, ⟨⟨[], s.pb.pos + s.pb.buf.length, true⟩, s.priv_data⟩)) := by
  refine ⟨fun vl s1 h => (read_element_length_keeps s vl s1 h).2,
    fun r s1 h => (get_next_element_keeps fuel s r s1 h).2,
    fun r s1 h => (nested_data_keeps fuel s r s1 h).2,
    fun r s1 h => (read_metadata_keeps fuel s element r s1 h).2.2,
    fun hf => ⟨read_element_length_total s, get_next_element_total fuel s hf,
      nested_data_total fuel s hf, read_metadata_total fuel s element hf⟩,
    ?_, read_element_length_truncated s⟩
  intro hf
  refine ⟨read_element_length_returns s, ?_, ?_, ?_⟩
  · obtain ⟨a, ha⟩ := run_ret_of_ne _ (get_next_element_defined fuel s)
      (get_next_element_total fuel s hf)
    exact ⟨a.1, a.2, ha⟩
  · obtain ⟨a, ha⟩ := run_ret_of_ne _ (nested_data_defined fuel s)
      (nested_data_total fuel s hf)
    exact ⟨a.1, a.2, ha⟩
  · intro ht
    obtain ⟨a, ha⟩ := run_ret_of_ne _ (read_metadata_defined fuel s element ht)
      (read_metadata_total fuel s element hf)
    exact ⟨a.1, a.2, ha⟩

/-- Witness of C15 in implicit little-endian mode, on an inner element of
length 2 followed by a delimiter; and in explicit little-endian mode on a
stream that ends after the first byte of a value representation. -/
theorem C15_element_processing_keeps_mode_witness :
    (⟨⟨[9], 218, false⟩, ⟨0, 0, 0, ctx0.syntax_⟩⟩ : AVFormatContext).priv_data
      = (⟨⟨[8, 0, 5, 0, 2, 0, 0, 0, 1, 2, 0xfe, 0xff, 0xdd, 0xe0, 0, 0, 0, 0, 9], 200, false⟩,
          ⟨0, 0, 0, ctx0.syntax_⟩⟩ : AVFormatContext).priv_data ∧
    ((∃ vl s1, dicom_read_element_length
        ⟨⟨[8, 0, 5, 0, 2, 0, 0, 0, 1, 2, 0xfe, 0xff, 0xdd, 0xe0, 0, 0, 0, 0, 9], 200, false⟩,
          ⟨0, 0, 0, ctx0.syntax_⟩⟩ = Run.ret (vl, s1)) ∧
      (∃ r s1, dicom_get_next_element 30
        ⟨⟨[8, 0, 5, 0, 2, 0, 0, 0, 1, 2, 0xfe, 0xff, 0xdd, 0xe0, 0, 0, 0, 0, 9], 200, false⟩,
          ⟨0, 0, 0, ctx0.syntax_⟩⟩ = Run.ret (r, s1)) ∧
      (∃ r s1, dicom_nested_data 30
        ⟨⟨[8, 0, 5, 0, 2, 0, 0, 0, 1, 2, 0xfe, 0xff, 0xdd, 0xe0, 0, 0, 0, 0, 9], 200, false⟩,
          ⟨0, 0, 0, ctx0.syntax_⟩⟩ = Run.ret (r, s1)) ∧
      (0x0010 ∉ metadata_cases_read →
        ∃ r s1, dicom_read_metadata 30
          ⟨⟨[8, 0, 5, 0, 2, 0, 0, 0, 1, 2, 0xfe, 0xff, 0xdd, 0xe0, 0, 0, 0, 0, 9], 200, false⟩,
            ⟨0, 0, 0, ctx0.syntax_⟩⟩ 0x0010 = Run.ret (r, s1))) ∧
    dicom_read_element_length ⟨⟨[85], 200, false⟩, default_mode ctx0.syntax_⟩
      = Run.ret (0, ⟨⟨[], 201, true⟩, default_mode ctx0.syntax_⟩) :=
  ⟨(C15_element_processing_keeps_mode 30
      ⟨⟨[8, 0, 5, 0, 2, 0, 0, 0, 1, 2, 0xfe, 0xff, 0xdd, 0xe0, 0, 0, 0, 0, 9], 200, false⟩,
        ⟨0, 0, 0, ctx0.syntax_⟩⟩ 0x0010).2.2.1 218
      ⟨⟨[9], 218, false⟩, ⟨0, 0, 0, ctx0.syntax_⟩⟩ (by decide),
    (C15_element_processing_keeps_mode 30
      ⟨⟨[8, 0, 5, 0, 2, 0, 0, 0, 1, 2, 0xfe, 0xff, 0xdd, 0xe0, 0, 0, 0, 0, 9], 200, false⟩,
        ⟨0, 0, 0, ctx0.syntax_⟩⟩ 0x0010).2.2.2.2.2.1 (by decide),
    (C15_element_processing_keeps_mode 30
      ⟨⟨[85], 200, false⟩, default_mode ctx0.syntax_⟩ 0x0010).2.2.2.2.2.2
      (by decide) (by decide)⟩

/-! ### The fixed-width reads of `dicom_read_metadata` -/

/-- No element number stands in two of the four lists of `case` labels. -/
theorem metadata_cases_disjoint :
    (∀ e ∈ metadata_cases_r16_r16, e ∉ metadata_cases_r16) ∧
    (∀ e ∈ metadata_cases_r32, e ∉ metadata_cases_r16 ∧ e ∉ metadata_cases_r16_r16) ∧
    (∀ e ∈ metadata_cases_read,
      e ∉ metadata_cases_r16 ∧ e ∉ metadata_cases_r16_r16 ∧ e ∉ metadata_cases_r32) := by
  refine ⟨?_, ?_, ?_⟩ <;> decide

theorem read_metadata_r16 (f : Nat) (d : DICOMContext) (e vr0 vr1 len b0 b1 : Nat)
    (X : List Nat) (p : Nat) (eof : Bool) (he : e ∈ metadata_cases_r16) :
    dicom_read_metadata f ⟨⟨enc_length d vr0 vr1 len ++ b0 :: b1 :: X, p, eof⟩, d⟩ e
      = Run.ret (0, ⟨⟨X, p + (enc_length d vr0 vr1 len).length + 2, eof⟩, d⟩) := by
  simp only [dicom_read_metadata, read_element_length_enc, he, if_true, dicom_r16_cons]

theorem read_metadata_four (f : Nat) (d : DICOMContext) (e vr0 vr1 len b0 b1 b2 b3 : Nat)
    (X : List Nat) (p : Nat) (eof : Bool)
    (he : e ∈ metadata_cases_r16_r16 ∨ e ∈ metadata_cases_r32) :
    dicom_read_metadata f
        ⟨⟨enc_length d vr0 vr1 len ++ b0 :: b1 :: b2 :: b3 :: X, p, eof⟩, d⟩ e
      = Run.ret (0, ⟨⟨X, p + (enc_length d vr0 vr1 len).length + 4, eof⟩, d⟩) := by
  have h22 : ∀ q : Nat, q + 2 + 2 = q + 4 := fun q => by omega
  rcases he with he | he
  · have h1 := metadata_cases_disjoint.1 e he
    simp only [dicom_read_metadata, read_element_length_enc, h1, he, if_true, if_false,
      dicom_r16_cons, h22]
  · obtain ⟨h1, h2⟩ := metadata_cases_disjoint.2.1 e he
    simp only [dicom_read_metadata, read_element_length_enc, h1, h2, he, if_true, if_false,
      dicom_r32_cons]

/-- A text field longer than the local array `data`. -/
theorem read_metadata_overflow (f : Nat) (d : DICOMContext) (e vr0 vr1 : Nat)
    (value X : List Nat) (p : Nat) (eof : Bool) (he : e ∈ metadata_cases_read)
    (hlen : len_ok d vr0 vr1 value.length = true)
    (hbig : 1024 < value.length) (hint : value.length < 2147483648) :
    dicom_read_metadata f ⟨⟨enc_length d vr0 vr1 value.length ++ (value ++ X), p, eof⟩, d⟩ e
      = Run.undefined := by
  obtain ⟨h1, h2, h3⟩ := metadata_cases_disjoint.2.2 e he
  obtain ⟨hd, _⟩ := declared_of_len_ok d vr0 vr1 value.length hlen
  have hrs : read_size value.length = value.length := by
    unfold read_size
    rw [if_pos hint]
  simp only [dicom_read_metadata, read_element_length_enc, hd, h1, h2, h3, he, if_true,
    if_false, hrs, avio_read_exact, List.length_map, hbig]

/-- C18, as stated, fails. For an element number whose `case` logs one
`dicom_r16`, `dicom_read_metadata` leaves the cursor 2 bytes past the length
field whatever length is declared; for a `case` that logs two `dicom_r16` or
one `dicom_r32`, 4 bytes; and for a text field whose declared length exceeds
1024 (below 2^31, all bytes present) the copy overruns the local array
`data`. The cursor is L bytes past the length field only when L is the width
that the `case` reads. -/
theorem C18_fixed_width_read_ignores_length (f : Nat) (d : DICOMContext)
    (e vr0 vr1 len b0 b1 b2 b3 : Nat) (value X : List Nat) (p : Nat) (eof : Bool) :
    (e ∈ metadata_cases_r16 →
      dicom_read_metadata f ⟨⟨enc_length d vr0 vr1 len ++ b0 :: b1 :: X, p, eof⟩, d⟩ e
        = Run.ret (0, ⟨⟨X, p + (enc_length d vr0 vr1 len).length + 2, eof⟩, d⟩)) ∧
    (e ∈ metadata_cases_r16_r16 ∨ e ∈ metadata_cases_r32 →
      dicom_read_metadata f
          ⟨⟨enc_length d vr0 vr1 len ++ b0 :: b1 :: b2 :: b3 :: X, p, eof⟩, d⟩ e
        = Run.ret (0, ⟨⟨X, p + (enc_length d vr0 vr1 len).length + 4, eof⟩, d⟩)) ∧
    (e ∈ metadata_cases_read → len_ok d vr0 vr1 value.length = true →
      1024 < value.length → value.length < 2147483648 →
      dicom_read_metadata f ⟨⟨enc_length d vr0 vr1 value.length ++ (value ++ X), p, eof⟩, d⟩ e
        = Run.undefined) :=
  ⟨read_metadata_r16 f d e vr0 vr1 len b0 b1 X p eof,
    read_metadata_four f d e vr0 vr1 len b0 b1 b2 b3 X p eof,
    read_metadata_overflow f d e vr0 vr1 value X p eof⟩

/-- Witness of C18: the element (0x0028,0x1101) with VR "US" and three
16-bit values (length 6) leaves the cursor 2 bytes past its length field; the
element (0x0028,0x0009) with VR "AT" and two tags (length 8) leaves it 4 bytes
past; a text field (0x0028,0x0004) of 1025 bytes overruns the buffer. -/
theorem C18_fixed_width_read_ignores_length_witness :
    dicom_read_metadata 5
        ⟨⟨[85, 83, 6, 0] ++ 0 :: 1 :: [0, 0, 16, 0, 0xe0, 0x7f, 0x10, 0], 164, false⟩,
          default_mode ctx0.syntax_⟩ 0x1101
      = Run.ret (0,
          ⟨⟨[0, 0, 16, 0, 0xe0, 0x7f, 0x10, 0], 170, false⟩, default_mode ctx0.syntax_⟩) ∧
    dicom_read_metadata 5
        ⟨⟨[65, 84, 8, 0] ++ 1 :: 0 :: 2 :: 0 :: [3, 0, 4, 0, 9], 164, false⟩,
          default_mode ctx0.syntax_⟩ 0x0009
      = Run.ret (0, ⟨⟨[3, 0, 4, 0, 9], 172, false⟩, default_mode ctx0.syntax_⟩) ∧
    dicom_read_metadata 5
        ⟨⟨[67, 83, 1, 4] ++ (List.replicate 1025 32 ++ [9]), 164, false⟩,
          default_mode ctx0.syntax_⟩ 0x0004
      = Run.undefined :=
  ⟨(C18_fixed_width_read_ignores_length 5 (default_mode ctx0.syntax_) 0x1101 85 83 6 0 1 0 0
      [] [0, 0, 16, 0, 0xe0, 0x7f, 0x10, 0] 164 false).1 (by decide),
    (C18_fixed_width_read_ignores_length 5 (default_mode ctx0.syntax_) 0x0009 65 84 8 1 0 2 0
      [] [3, 0, 4, 0, 9] 164 false).2.1 (by decide),
    (C18_fixed_width_read_ignores_length 5 (default_mode ctx0.syntax_) 0x0004 67 83 0 0 0 0 0
      (List.replicate 1025 32) [9] 164 false).2.2 (by decide) (by decide) (by decide)
      (by decide)⟩

/-! ### Two runs of `dicom_read_header` compared -/

theorem with_ts_self (s : AVFormatContext) : with_ts s.priv_data.syntax_ s = s := rfl

theorem read_element_length_ts (x : DICOMTransferSyntax) (s : AVFormatContext) (vl : Nat)
    (s1 : AVFormatContext) (h : dicom_read_element_length s = Run.ret (vl, s1)) :
    dicom_read_element_length (with_ts x s) = Run.ret (vl, with_ts x s1) := by
  unfold dicom_read_element_length at h ⊢
  dsimp only [with_ts] at h ⊢
  split at h
  · rename_i hx
    rw [if_pos hx]
    split at h
    · split at h
      · rename_i hv
        rw [if_pos hv]
        injection h with h; injection h with h1 h2; subst h1 h2
        rfl
      · rename_i hv
        rw [if_neg hv]
        injection h with h; injection h with h1 h2; subst h1 h2
        rfl
    · injection h with h; injection h with h1 h2; subst h1 h2
      rfl
  · rename_i hx
    rw [if_neg hx]
    injection h with h; injection h with h1 h2; subst h1 h2
    rfl

theorem get_next_element_body_ts (x : DICOMTransferSyntax)
    (nested : AVFormatContext → Run (Nat × AVFormatContext))
    (hn : ∀ s r s1, nested s = Run.ret (r, s1) →
      nested (with_ts x s) = Run.ret (r, with_ts x s1))
    (s : AVFormatContext) (r : Nat) (s1 : AVFormatContext)
    (h : get_next_element_body nested s = Run.ret (r, s1)) :
    get_next_element_body nested (with_ts x s) = Run.ret (r, with_ts x s1) := by
  unfold get_next_element_body at h ⊢
  split at h
  · exact absurd h (by simp)
  · exact absurd h (by simp)
  · rename_i vl s2 hlen
    rw [read_element_length_ts x s vl s2 hlen]
    dsimp only
    split at h
    · rename_i hv
      rw [if_pos hv]
      injection h with h; injection h with h1 h2; subst h1 h2
      rfl
    · rename_i hv
      rw [if_neg hv]
      exact hn s2 r s1 h

theorem nested_data_ts (x : DICOMTransferSyntax) (fuel : Nat) :
    ∀ (s : AVFormatContext) (r : Nat) (s1 : AVFormatContext),
      dicom_nested_data fuel s = Run.ret (r, s1) →
      dicom_nested_data fuel (with_ts x s) = Run.ret (r, with_ts x s1) := by
  induction fuel with
  | zero => intro s r s1 h; simp [dicom_nested_data] at h
  | succ f ih =>
    intro s r s1 h
    unfold dicom_nested_data at h ⊢
    split at h
    · rename_i heof
      have heof1 : avio_feof (with_ts x s).pb = true := heof
      rw [if_pos heof1]
      injection h with h; injection h with h1 h2; subst h1 h2
      rfl
    · rename_i heof
      have heof1 : ¬ avio_feof (with_ts x s).pb = true := heof
      rw [if_neg heof1]
      dsimp only at h ⊢
      split at h
      · rename_i hd
        have hd1 : (dicom_r16 (with_ts x s).pb (with_ts x s).priv_data).1 = 0xFFFE ∧
            (dicom_r16 (dicom_r16 (with_ts x s).pb (with_ts x s).priv_data).2
              (with_ts x s).priv_data).1 = 0xE0DD := hd
        rw [if_pos hd1]
        injection h with h; injection h with h1 h2; subst h1 h2
        rfl
      · rename_i hd
        have hd1 : ¬ ((dicom_r16 (with_ts x s).pb (with_ts x s).priv_data).1 = 0xFFFE ∧
            (dicom_r16 (dicom_r16 (with_ts x s).pb (with_ts x s).priv_data).2
              (with_ts x s).priv_data).1 = 0xE0DD) := hd
        rw [if_neg hd1]
        split at h
        · exact absurd h (by simp)
        · exact absurd h (by simp)
        · rename_i r2 s2 hbody
          have hb := get_next_element_body_ts x _ ih _ r2 s2 hbody
          have hb1 : get_next_element_body (dicom_nested_data f)
              { with_ts x s with
                pb := (dicom_r16 (dicom_r16 (with_ts x s).pb (with_ts x s).priv_data).2
                  (with_ts x s).priv_data).2 }
              = Run.ret (r2, with_ts x s2) := hb
          rw [hb1]
          exact ih s2 r s1 h

theorem get_next_element_ts (x : DICOMTransferSyntax) (fuel : Nat) (s : AVFormatContext)
    (r : Nat) (s1 : AVFormatContext) (h : dicom_get_next_element fuel s = Run.ret (r, s1)) :
    dicom_get_next_element fuel (with_ts x s) = Run.ret (r, with_ts x s1) :=
  get_next_element_body_ts x _ (nested_data_ts x fuel) s r s1 h

theorem read_transfer_syntax_overwrites (x : DICOMTransferSyntax) (s : AVFormatContext) (r : Int)
    (s1 : AVFormatContext) (h : dicom_read_transfer_syntax s = Run.ret (r, s1)) :
    dicom_read_transfer_syntax (with_ts x s) = Run.ret (r, s1) := by
  have hr := read_transfer_syntax_returns_zero s r s1 h
  subst hr
  unfold dicom_read_transfer_syntax at h ⊢
  dsimp only [with_ts] at h ⊢
  split at h
  · exact absurd h (by simp)
  · rename_i hlen
    rw [if_neg hlen]
    split at h
    · exact absurd h (by simp)
    · exact absurd h (by simp)
    · split at h
      · injection h with h; injection h with h1 _
        exact absurd h1 (by decide)
      · rename_i hi
        rw [if_neg hi]
        split at h
        · exact absurd h (by simp)
        · injection h with h; injection h with h1 h2; subst h2
          rfl

/-- The first loop of `dicom_read_header` started with the syntax that it
ends with gives the same outcome: the field is either overwritten by
`dicom_read_transfer_syntax` or left as it was. -/
theorem file_meta_loop_ts_free (fuel : Nat) :
    ∀ (s : AVFormatContext) (g e : Nat) (res : Int ⊕ (Nat × Nat)) (s1 : AVFormatContext),
      file_meta_loop fuel s g e = Run.ret (res, s1) →
      file_meta_loop fuel (with_ts s1.priv_data.syntax_ s) g e = Run.ret (res, s1) := by
  induction fuel with
  | zero => intro s g e res s1 h; simp [file_meta_loop] at h
  | succ f ih =>
    intro s g e res s1 h
    unfold file_meta_loop at h ⊢
    by_cases hc : (!avio_feof s.pb && decide (g = 0x0002)) = true
    · have hc1 : (!avio_feof (with_ts s1.priv_data.syntax_ s).pb && decide (g = 0x0002))
          = true := hc
      rw [if_pos hc] at h
      rw [if_pos hc1]
      by_cases he : e = 0x0010
      · rw [if_pos he] at h
        rw [if_pos he]
        cases hts : dicom_read_transfer_syntax s with
        | undefined => rw [hts] at h; exact absurd h (by simp)
        | timeout => rw [hts] at h; exact absurd h (by simp)
        | ret y =>
          obtain ⟨err, s2⟩ := y
          rw [hts] at h
          rw [read_transfer_syntax_overwrites _ s err s2 hts]
          exact h
      · rw [if_neg he] at h
        rw [if_neg he]
        cases hne : dicom_get_next_element f s with
        | undefined => rw [hne] at h; exact absurd h (by simp)
        | timeout => rw [hne] at h; exact absurd h (by simp)
        | ret y =>
          obtain ⟨r, s2⟩ := y
          rw [hne] at h
          rw [get_next_element_ts _ f s r s2 hne]
          dsimp only at h ⊢
          have hp := (get_next_element_keeps f s r s2 hne).2
          by_cases hr : r = 0
          · rw [if_pos hr] at h
            rw [if_pos hr]
            injection h with h; injection h with h1 h2; subst h1 h2
            rfl
          · rw [if_neg hr] at h
            rw [if_neg hr]
            exact ih _ _ _ res s1 h
    · have hc1 : ¬ ((!avio_feof (with_ts s1.priv_data.syntax_ s).pb
          && decide (g = 0x0002)) = true) := hc
      rw [if_neg hc] at h
      rw [if_neg hc1]
      injection h with h; injection h with h1 h2; subst h1 h2
      rfl

/-- The second loop of `dicom_read_header` leaves the private context as it
was. -/
theorem data_set_loop_keeps (fuel : Nat) :
    ∀ (s : AVFormatContext) (g e : Nat) (r : Int) (s1 : AVFormatContext),
      data_set_loop fuel s g e = Run.ret (r, s1) → s1.priv_data = s.priv_data := by
  induction fuel with
  | zero => intro s g e r s1 h; simp [data_set_loop] at h
  | succ f ih =>
    intro s g e r s1 h
    unfold data_set_loop at h
    split at h
    · split at h
      · split at h
        · exact absurd h (by simp)
        · exact absurd h (by simp)
        · rename_i err s2 hmd
          have hp := (read_metadata_keeps f s e err s2 hmd).2.2
          split at h
          · injection h with h; injection h with _ h2; subst h2
            exact hp
          · exact (ih _ _ _ r s1 h).trans hp
      · split at h
        · injection h with h; injection h with _ h2; subst h2
          rfl
        · split at h
          · exact absurd h (by simp)
          · exact absurd h (by simp)
          · rename_i r2 s2 hne
            have hp := (get_next_element_keeps f s r2 s2 hne).2
            split at h
            · injection h with h; injection h with _ h2; subst h2
              exact hp
            · exact (ih _ _ _ r s1 h).trans hp
    · injection h with h; injection h with _ h2; subst h2
      rfl

theorem parse_syntax_keeps_ts (d : DICOMContext) :
    ( dicom_parse_syntax d).2.syntax_ = d.syntax_ := by
  unfold dicom_parse_syntax
  split_ifs <;> rfl

theorem after_file_meta_ts (fuel : Nat) (res : Int ⊕ (Nat × Nat)) (s2 : AVFormatContext)
    (r : Int) (s1 : AVFormatContext)
    (h : after_file_meta fuel (Run.ret (res, s2)) = Run.ret (r, s1)) :
    s1.priv_data.syntax_ = s2.priv_data.syntax_ := by
  cases res with
  | inl err =>
    simp only [after_file_meta] at h
    injection h with h; injection h with _ h2; subst h2
    rfl
  | inr tag =>
    obtain ⟨g, e⟩ := tag
    simp only [after_file_meta] at h
    split at h
    · have := data_set_loop_keeps fuel _ _ _ r s1 h
      rw [this]
      exact parse_syntax_keeps_ts _
    · have := data_set_loop_keeps fuel _ _ _ r s1 h
      rw [this]
      exact parse_syntax_keeps_ts _

/-- A second run of `dicom_read_header` from the context left by the first. -/
theorem read_header_idempotent (s : AVFormatContext) (r : Int) (s1 : AVFormatContext)
    (h : dicom_read_header s = Run.ret (r, s1)) :
    dicom_read_header ⟨s.pb, s1.priv_data⟩ = Run.ret (r, s1) := by
  unfold dicom_read_header at h ⊢
  rw [read_header_fuel_eq] at h ⊢
  dsimp only at h ⊢
  unfold file_meta_next at h ⊢
  dsimp only at h ⊢
  generalize hfuel : s.pb.buf.length + 2 = fuel at h ⊢
  generalize hpb : (avio_rl16 (avio_rl16 (avio_skip s.pb 0x84).2).2).2 = pb at h ⊢
  generalize (avio_rl16 (avio_skip s.pb 0x84).2).1 = g at h ⊢
  generalize (avio_rl16 (avio_rl16 (avio_skip s.pb 0x84).2).2).1 = e at h ⊢
  cases hfm : file_meta_loop fuel
      ⟨pb, ⟨DICOM_ENDIAN_LE, DICOM_VR_EXPLICIT, DICOM_COMPRESSION_NONE, s.priv_data.syntax_⟩⟩
      g e with
  | undefined => rw [hfm] at h; simp [after_file_meta] at h
  | timeout => rw [hfm] at h; simp [after_file_meta] at h
  | ret y =>
    obtain ⟨res, s2⟩ := y
    rw [hfm] at h
    have hs := after_file_meta_ts fuel res s2 r s1 h
    have h2 := file_meta_loop_ts_free fuel _ g e res s2 hfm
    rw [← hs] at h2
    have h3 : file_meta_loop fuel
        ⟨pb, ⟨DICOM_ENDIAN_LE, DICOM_VR_EXPLICIT, DICOM_COMPRESSION_NONE, s1.priv_data.syntax_⟩⟩
        g e = Run.ret (res, s2) := h2
    rw [h3]
    exact h

/-- The first 132 bytes are skipped unread. -/
theorem read_header_skips_preamble (b1 b2 : List Nat) (p : Nat) (eof : Bool) (d : DICOMContext)
    (hlen : b1.length = b2.length) (htail : b1.drop 132 = b2.drop 132) :
    dicom_read_header ⟨⟨b1, p, eof⟩, d⟩ = dicom_read_header ⟨⟨b2, p, eof⟩, d⟩ := by
  unfold dicom_read_header dicom_read_header_fuel
  simp only [avio_skip, hlen, htail]

/-- C16: `dicom_read_header` is idempotent. It does not run out of fuel, and
when it returns, a second run on the same byte source with the context left by
the first returns the same value with the same final state: same cursor, same
parse mode, same syntax. -/
theorem C16_read_header_idempotent (s : AVFormatContext) :
    dicom_read_header s ≠ Run.timeout ∧
    ∀ r s1, dicom_read_header s = Run.ret (r, s1) →
      dicom_read_header ⟨s.pb, s1.priv_data⟩ = Run.ret (r, s1) :=
  ⟨(read_header_spec s).1, read_header_idempotent s⟩

/-- Witness of C16: scenario 1 of the specification run from a
zero-initialised syntax, and a big-endian data set without a transfer-syntax
element run from a context whose syntax is the big-endian entry; the second
run starts from the context left by the first. -/
theorem C16_read_header_idempotent_witness :
    dicom_read_header
        ⟨⟨preamble ++ [2, 0, 0x10, 0, 85, 73, 20, 0] ++ cstr "1.2.840.10008.1.2.1" ++ [0]
            ++ [0xe0, 0x7f, 0x10, 0] ++ [79, 87, 0, 0, 10, 0, 0, 0]
            ++ [1, 2, 3, 4, 5, 6, 7, 8, 9, 10], 0, false⟩,
          ⟨0, 1, 0, ⟨"1.2.840.10008.1.2.1", 1, "none"⟩⟩⟩
      = Run.ret (0,
          ⟨⟨[79, 87, 0, 0, 10, 0, 0, 0, 1, 2, 3, 4, 5, 6, 7, 8, 9, 10], 164, false⟩,
            ⟨0, 1, 0, ⟨"1.2.840.10008.1.2.1", 1, "none"⟩⟩⟩) ∧
    dicom_read_header
        ⟨⟨preamble ++ [0, 8, 0, 0x16, 85, 73, 0, 2, 1, 2]
            ++ [0x7f, 0xe0, 0, 0x10] ++ [79, 87, 0, 0, 0, 0, 0, 10], 0, false⟩,
          ⟨1, 1, 0, ⟨"1.2.840.10008.1.2.2", 2, "none"⟩⟩⟩
      = Run.ret (0,
          ⟨⟨[79, 87, 0, 0, 0, 0, 0, 10], 146, false⟩,
            ⟨1, 1, 0, ⟨"1.2.840.10008.1.2.2", 2, "none"⟩⟩⟩) :=
  ⟨(C16_read_header_idempotent
      ⟨⟨preamble ++ [2, 0, 0x10, 0, 85, 73, 20, 0] ++ cstr "1.2.840.10008.1.2.1" ++ [0]
          ++ [0xe0, 0x7f, 0x10, 0] ++ [79, 87, 0, 0, 10, 0, 0, 0]
          ++ [1, 2, 3, 4, 5, 6, 7, 8, 9, 10], 0, false⟩, ctx0⟩).2 0
      ⟨⟨[79, 87, 0, 0, 10, 0, 0, 0, 1, 2, 3, 4, 5, 6, 7, 8, 9, 10], 164, false⟩,
        ⟨0, 1, 0, ⟨"1.2.840.10008.1.2.1", 1, "none"⟩⟩⟩ (by decide),
    (C16_read_header_idempotent
      ⟨⟨preamble ++ [0, 8, 0, 0x16, 85, 73, 0, 2, 1, 2]
          ++ [0x7f, 0xe0, 0, 0x10] ++ [79, 87, 0, 0, 0, 0, 0, 10], 0, false⟩,
        ⟨7, 7, 7, ⟨"1.2.840.10008.1.2.2", 2, "none"⟩⟩⟩).2 0
      ⟨⟨[79, 87, 0, 0, 0, 0, 0, 10], 146, false⟩,
        ⟨1, 1, 0, ⟨"1.2.840.10008.1.2.2", 2, "none"⟩⟩⟩ (by decide)⟩

/-- C17: `dicom_read_header` does not interpret the first 132 bytes. Two
streams of equal length that agree from offset 132 on give, from the same
position and context, the same outcome: same return value, same final context,
same cursor; and the run does not run out of fuel. -/
theorem C17_prefix_not_interpreted (b1 b2 : List Nat) (p : Nat) (eof : Bool) (d : DICOMContext)
    (hlen : b1.length = b2.length) (htail : b1.drop 132 = b2.drop 132) :
    dicom_read_header ⟨⟨b1, p, eof⟩, d⟩ = dicom_read_header ⟨⟨b2, p, eof⟩, d⟩ ∧
    dicom_read_header ⟨⟨b1, p, eof⟩, d⟩ ≠ Run.timeout :=
  ⟨read_header_skips_preamble b1 b2 p eof d hlen htail, (read_header_spec _).1⟩

/-- Witness of C17: a preamble of zeros with the magic "DICM" against 132
bytes of value 7. -/
theorem C17_prefix_not_interpreted_witness :
    dicom_read_header
        ⟨⟨preamble ++ ([2, 0, 0x10, 0, 85, 73, 20, 0] ++ cstr "1.2.840.10008.1.2.1" ++ [0]
            ++ [0xe0, 0x7f, 0x10, 0, 79, 87, 0, 0, 2, 0, 0, 0, 1, 2]), 0, false⟩, ctx0⟩
      = dicom_read_header
        ⟨⟨List.replicate 132 7 ++ ([2, 0, 0x10, 0, 85, 73, 20, 0] ++ cstr "1.2.840.10008.1.2.1"
            ++ [0] ++ [0xe0, 0x7f, 0x10, 0, 79, 87, 0, 0, 2, 0, 0, 0, 1, 2]), 0, false⟩, ctx0⟩ ∧
    dicom_read_header
        ⟨⟨preamble ++ ([2, 0, 0x10, 0, 85, 73, 20, 0] ++ cstr "1.2.840.10008.1.2.1" ++ [0]
            ++ [0xe0, 0x7f, 0x10, 0, 79, 87, 0, 0, 2, 0, 0, 0, 1, 2]), 0, false⟩, ctx0⟩
      ≠ Run.timeout :=
  C17_prefix_not_interpreted _ _ 0 false ctx0 (by decide) (by decide)

/-! ### A pixel-data tag inside an element of undefined length -/

theorem file_meta_pass_plain (fuel : Nat) (x : DICOMTransferSyntax) (p : Nat) (m : Body)
    (b0 b1 b2 b3 : Nat) (R : List Nat)
    (hm : Body.wf (default_mode x) m = true) (hk : Body.meta_ok m = true)
    (hgrp : val16 0 b0 b1 ≠ 0x0002)
    (hfuel : (Body.encode (default_mode x) m).length + 1 ≤ fuel) :
    file_meta_next fuel
        ⟨⟨Body.encode (default_mode x) m ++ b0 :: b1 :: b2 :: b3 :: R, p, false⟩,
          default_mode x⟩
      = Run.ret (Sum.inr (val16 0 b0 b1, val16 0 b2 b3),
          ⟨⟨R, p + (Body.encode (default_mode x) m).length + 4, false⟩, default_mode x⟩) := by
  apply file_meta_scan (default_mode x) rfl m 1 p _ _ hm hk _ fuel (by omega)
  intro f hf
  obtain ⟨f1, rfl⟩ : ∃ f1, f = f1 + 1 := ⟨f - 1, by omega⟩
  rw [file_meta_next_raw, file_meta_loop_exit f1 _ _ _ hgrp]

theorem read_header_plain (fuel : Nat) (d0 : DICOMContext) (p : Nat) (pre : List Nat)
    (m : Body) (b0 b1 b2 b3 : Nat) (R : List Nat)
    (hpre : pre.length = 132)
    (hm : Body.wf (default_mode d0.syntax_) m = true) (hk : Body.meta_ok m = true)
    (hgrp : val16 0 b0 b1 ≠ 0x0002)
    (hfuel : (Body.encode (default_mode d0.syntax_) m).length + 1 ≤ fuel) :
    dicom_read_header_fuel fuel
        ⟨⟨pre ++ (Body.encode (default_mode d0.syntax_) m ++ b0 :: b1 :: b2 :: b3 :: R),
          p, false⟩, d0⟩
      = if (resolved_mode d0.syntax_).vr_explicit = 0 then
          data_set_loop fuel
            ⟨⟨R, p + 132 + (Body.encode (default_mode d0.syntax_) m).length + 4, false⟩,
              resolved_mode d0.syntax_⟩
            (swap_expr (val16 0 b0 b1)) (swap_expr (val16 0 b2 b3))
        else
          data_set_loop fuel
            ⟨⟨R, p + 132 + (Body.encode (default_mode d0.syntax_) m).length + 4, false⟩,
              resolved_mode d0.syntax_⟩
            (val16 0 b0 b1) (val16 0 b2 b3) := by
  rw [read_header_fuel_eq]
  have hskip : (avio_skip ⟨pre ++ (Body.encode (default_mode d0.syntax_) m
      ++ b0 :: b1 :: b2 :: b3 :: R), p, false⟩ 0x84).2
      = ⟨Body.encode (default_mode d0.syntax_) m ++ b0 :: b1 :: b2 :: b3 :: R, p + 132,
        false⟩ := by
    simp only [avio_skip, List.drop_left' hpre]
  have hd : DICOMContext.mk DICOM_ENDIAN_LE DICOM_VR_EXPLICIT DICOM_COMPRESSION_NONE d0.syntax_
      = default_mode d0.syntax_ := rfl
  simp only [hskip, hd]
  rw [file_meta_pass_plain fuel d0.syntax_ (p + 132) m b0 b1 b2 b3 R hm hk hgrp hfuel]
  rfl

theorem read_header_found_plain (d0 : DICOMContext) (p : Nat) (pre : List Nat) (m ds : Body)
    (tail : List Nat)
    (hpre : pre.length = 132)
    (hm : Body.wf (default_mode d0.syntax_) m = true) (hk : Body.meta_ok m = true)
    (hds : Body.wf (resolved_mode d0.syntax_) ds = true) (htop : Body.top_ok ds = true)
    (hfirst : Body.first_ok d0.syntax_.type ds = true) :
    dicom_read_header
        ⟨⟨pre ++ (Body.encode (default_mode d0.syntax_) m
            ++ (Body.encode (resolved_mode d0.syntax_) ds
              ++ (pixel_tag (resolved_mode d0.syntax_) ++ tail))), p, false⟩, d0⟩
      = Run.ret (0,
          ⟨⟨tail, p + 132 + (Body.encode (default_mode d0.syntax_) m).length
              + (Body.encode (resolved_mode d0.syntax_) ds).length + 4, false⟩,
            resolved_mode d0.syntax_⟩) := by
  unfold dicom_read_header
  simp only
  have hlen : (pre ++ (Body.encode (default_mode d0.syntax_) m
      ++ (Body.encode (resolved_mode d0.syntax_) ds
        ++ (pixel_tag (resolved_mode d0.syntax_) ++ tail)))).length + 2
      = 132 + (Body.encode (default_mode d0.syntax_) m).length
        + (Body.encode (resolved_mode d0.syntax_) ds).length + 4 + tail.length + 2 := by
    simp only [List.length_append, hpre, pixel_tag_length]
    omega
  rw [hlen]
  generalize hfl : 132 + (Body.encode (default_mode d0.syntax_) m).length
    + (Body.encode (resolved_mode d0.syntax_) ds).length + 4 + tail.length + 2 = fuel
  obtain ⟨b0, b1, b2, b3, R, hY, hgrp, hloop⟩ := data_set_pass fuel d0.syntax_ ds tail
    (p + 132 + (Body.encode (default_mode d0.syntax_) m).length) hds htop hfirst (by omega)
  rw [hY, read_header_plain fuel d0 p pre m b0 b1 b2 b3 R hpre hm hk hgrp (by omega)]
  exact hloop

/-- C21: `dicom_read_header` does not reset `d->syntax` and calls
`dicom_parse_syntax` after the file-meta pass whether or not a
transfer-syntax element was read. With a syntax of type 0 on entry (a
zero-initialised one) the resolved mode is little-endian with implicit
lengths; for a stream whose file-meta elements are well formed and hold no
element (0x0002,0x0010), the data-set loop is entered in that mode, with the
first tag rewritten as in implicit style; and a data set that is well formed
in implicit style is scanned up to the pixel-data tag, where the run returns 0
with the implicit mode in the context. -/
theorem C21_syntax_not_reset (fuel : Nat) (d0 : DICOMContext) (p : Nat) (pre : List Nat)
    (m ds : Body) (b0 b1 b2 b3 : Nat) (R tail : List Nat)
    (hpre : pre.length = 132)
    (hm : Body.wf (default_mode d0.syntax_) m = true) (hk : Body.meta_ok m = true)
    (ht : d0.syntax_.type = 0) :
    resolved_mode d0.syntax_
      = ⟨DICOM_ENDIAN_LE, DICOM_VR_IMPLICIT, DICOM_COMPRESSION_NONE, d0.syntax_⟩ ∧
    (val16 0 b0 b1 ≠ 0x0002 → (Body.encode (default_mode d0.syntax_) m).length + 1 ≤ fuel →
      dicom_read_header_fuel fuel
          ⟨⟨pre ++ (Body.encode (default_mode d0.syntax_) m ++ b0 :: b1 :: b2 :: b3 :: R),
            p, false⟩, d0⟩
        = data_set_loop fuel
            ⟨⟨R, p + 132 + (Body.encode (default_mode d0.syntax_) m).length + 4, false⟩,
              ⟨DICOM_ENDIAN_LE, DICOM_VR_IMPLICIT, DICOM_COMPRESSION_NONE, d0.syntax_⟩⟩
            (swap_expr (val16 0 b0 b1)) (swap_expr (val16 0 b2 b3))) ∧
    (Body.wf (resolved_mode d0.syntax_) ds = true → Body.top_ok ds = true →
      Body.first_ok d0.syntax_.type ds = true →
      dicom_read_header
          ⟨⟨pre ++ (Body.encode (default_mode d0.syntax_) m
              ++ (Body.encode (resolved_mode d0.syntax_) ds
                ++ (pixel_tag (resolved_mode d0.syntax_) ++ tail))), p, false⟩, d0⟩
        = Run.ret (0,
            ⟨⟨tail, p + 132 + (Body.encode (default_mode d0.syntax_) m).length
                + (Body.encode (resolved_mode d0.syntax_) ds).length + 4, false⟩,
              resolved_mode d0.syntax_⟩)) := by
  have hr : resolved_mode d0.syntax_
      = ⟨DICOM_ENDIAN_LE, DICOM_VR_IMPLICIT, DICOM_COMPRESSION_NONE, d0.syntax_⟩ :=
    resolved_mode_implicit d0.syntax_ ht
  refine ⟨hr, ?_, ?_⟩
  · intro hgrp hfuel
    rw [read_header_plain fuel d0 p pre m b0 b1 b2 b3 R hpre hm hk hgrp hfuel, hr]
    rfl
  · intro hds htop hfirst
    exact read_header_found_plain d0 p pre m ds tail hpre hm hk hds htop hfirst

/-- Witness of C21: a zero-initialised syntax, the file-meta element
(0x0002,0x0002) alone, then the elements (0x0008,0x0016) and (0x0028,0x0010)
and the pixel-data tag. Encoded in implicit style the data set is scanned and
the run returns 0 at offset 166; the same elements encoded in explicit style
(with "UI" and "US") are not: the bytes of "UI" and of the length are read as
a 32-bit length, the skip leaves the stream and the run returns
`AVERROR(EINVAL)`. -/
theorem C21_syntax_not_reset_witness :
    resolved_mode ctx0.syntax_ = ⟨0, 0, 0, ⟨"", 0, ""⟩⟩ ∧
    dicom_read_header_fuel 40
        ⟨⟨preamble ++ ([2, 0, 2, 0, 85, 73, 2, 0, 49, 0]
            ++ 8 :: 0 :: 22 :: 0 :: [2, 0, 0, 0, 1, 2, 0xe0, 0x7f, 0x10, 0, 1, 2, 3]),
          0, false⟩, ctx0⟩
      = data_set_loop 40
          ⟨⟨[2, 0, 0, 0, 1, 2, 0xe0, 0x7f, 0x10, 0, 1, 2, 3], 146, false⟩,
            ⟨0, 0, 0, ⟨"", 0, ""⟩⟩⟩ 0x0800 0x1600 ∧
    dicom_read_header
        ⟨⟨preamble ++ ([2, 0, 2, 0, 85, 73, 2, 0, 49, 0]
            ++ ([8, 0, 22, 0, 2, 0, 0, 0, 1, 2, 40, 0, 16, 0, 2, 0, 0, 0, 2, 0]
              ++ ([0xe0, 0x7f, 0x10, 0] ++ [1, 2, 3]))), 0, false⟩, ctx0⟩
      = Run.ret (0, ⟨⟨[1, 2, 3], 166, false⟩, ⟨0, 0, 0, ⟨"", 0, ""⟩⟩⟩) ∧
    dicom_read_header
        ⟨⟨preamble ++ ([2, 0, 2, 0, 85, 73, 2, 0, 49, 0]
            ++ ([8, 0, 22, 0, 85, 73, 2, 0, 1, 2, 40, 0, 16, 0, 85, 83, 2, 0, 2, 0]
              ++ ([0xe0, 0x7f, 0x10, 0] ++ [1, 2, 3]))), 0, false⟩, ctx0⟩
      = Run.ret (AVERROR_EINVAL, ⟨⟨[], 149995, true⟩, ⟨0, 0, 0, ⟨"", 0, ""⟩⟩⟩) :=
  ⟨(C21_syntax_not_reset 40 ctx0 0 preamble
      (Body.leaf 0x0002 0x0002 85 73 [49, 0] Body.nil) Body.nil 8 0 22 0 [] []
      (by decide) (by decide) (by decide) (by decide)).1,
    (C21_syntax_not_reset 40 ctx0 0 preamble
      (Body.leaf 0x0002 0x0002 85 73 [49, 0] Body.nil) Body.nil 8 0 22 0
      [2, 0, 0, 0, 1, 2, 0xe0, 0x7f, 0x10, 0, 1, 2, 3] []
      (by decide) (by decide) (by decide) (by decide)).2.1 (by decide) (by decide),
    (C21_syntax_not_reset 40 ctx0 0 preamble
      (Body.leaf 0x0002 0x0002 85 73 [49, 0] Body.nil)
      (Body.leaf 0x0008 0x0016 0 0 [1, 2] (Body.leaf 0x0028 0x0010 0 0 [2, 0] Body.nil))
      0 0 0 0 [] [1, 2, 3]
      (by decide) (by decide) (by decide) (by decide)).2.2 (by decide) (by decide) (by decide),
    by decide⟩

/-! ### The return value of `dicom_read_metadata` -/

theorem data_set_loop_metadata_branch (f : Nat) (s : AVFormatContext) (e : Nat)
    (heof : s.pb.eof_reached = false) :
    data_set_loop (f + 1) s 0x0028 e
      = match dicom_read_metadata f s e with
        | Run.undefined => Run.undefined
        | Run.timeout => Run.timeout
        | Run.ret (_, s1) => data_set_next f s1 := by
  unfold data_set_loop
  simp only [avio_feof, heof, Bool.not_false, if_true]
  cases hmd : dicom_read_metadata f s e with
  | undefined => rfl
  | timeout => rfl
  | ret x =>
    obtain ⟨err, s1⟩ := x
    have h0 := (read_metadata_keeps f s e err s1 hmd).1
    subst h0
    rfl

theorem read_metadata_text (f : Nat) (d : DICOMContext) (e vr0 vr1 len : Nat) (X : List Nat)
    (p : Nat) (eof : Bool) (he : e ∈ metadata_cases_read) :
    dicom_read_metadata f ⟨⟨enc_length d vr0 vr1 len ++ X, p, eof⟩, d⟩ e
      = if 1024 < min (read_size (declared d vr0 vr1 len)) X.length then Run.undefined
        else if 0 ∈ (X.take (read_size (declared d vr0 vr1 len))).map (fun b => b % 256) then
          Run.ret (0,
            ⟨⟨X.drop (read_size (declared d vr0 vr1 len)),
              p + (enc_length d vr0 vr1 len).length
                + min (read_size (declared d vr0 vr1 len)) X.length,
              eof || decide (X.length < read_size (declared d vr0 vr1 len))⟩, d⟩)
        else Run.undefined := by
  obtain ⟨h1, h2, h3⟩ := metadata_cases_disjoint.2.2 e he
  simp only [dicom_read_metadata, read_element_length_enc, h1, h2, h3, he, if_true,
    if_false, avio_read, List.length_map, List.length_take]

/-- C22: `dicom_read_metadata` has no return value other than 0, so the
branch of the data-set loop for group 0x0028 never returns an error; but a
call does not always return. Whenever it returns, it returns 0; with fuel
above the number of bytes left it does not run out of fuel, and for every
element number without a text `case` it returns 0 in every mode, for every
declared length, the undefined sentinel included, and every stream content.
For a text `case` the copy `avio_read(s->pb, data, vl)` is not checked against
the 1024 bytes of `data` and no NUL is written after the bytes copied: the
call returns 0 when at most 1024 bytes are copied and a NUL is among them,
and has undefined behaviour otherwise; undefined behaviour arises in no other
way. -/
theorem C22_text_copy_unchecked (fuel : Nat) (s : AVFormatContext) (element : Nat) :
    (∀ r s1, dicom_read_metadata fuel s element = Run.ret (r, s1) → r = 0) ∧
    (remaining s.pb < fuel → dicom_read_metadata fuel s element ≠ Run.timeout) ∧
    (remaining s.pb < fuel → element ∉ metadata_cases_read →
      ∃ s1, dicom_read_metadata fuel s element = Run.ret (0, s1)) ∧
    (element ∈ metadata_cases_read →
      ∀ (d : DICOMContext) (vr0 vr1 len : Nat) (X : List Nat) (p : Nat) (eof : Bool),
      dicom_read_metadata fuel ⟨⟨enc_length d vr0 vr1 len ++ X, p, eof⟩, d⟩ element
        = if 1024 < min (read_size (declared d vr0 vr1 len)) X.length then Run.undefined
          else if 0 ∈ (X.take (read_size (declared d vr0 vr1 len))).map (fun b => b % 256)
          then
            Run.ret (0,
              ⟨⟨X.drop (read_size (declared d vr0 vr1 len)),
                p + (enc_length d vr0 vr1 len).length
                  + min (read_size (declared d vr0 vr1 len)) X.length,
                eof || decide (X.length < read_size (declared d vr0 vr1 len))⟩, d⟩)
          else Run.undefined) ∧
    (dicom_read_metadata fuel s element = Run.undefined →
      element ∈ metadata_cases_read ∧
      ∃ vl s1, dicom_read_element_length s = Run.ret (vl, s1) ∧
        (1024 < (avio_read s1.pb (read_size vl)).1.length ∨
          0 ∉ (avio_read s1.pb (read_size vl)).1)) ∧
    (s.pb.eof_reached = false →
      data_set_loop (fuel + 1) s 0x0028 element
        = match dicom_read_metadata fuel s element with
          | Run.undefined => Run.undefined
          | Run.timeout => Run.timeout
          | Run.ret (_, s1) => data_set_next fuel s1) := by
  refine ⟨fun r s1 h => (read_metadata_keeps fuel s element r s1 h).1,
    read_metadata_total fuel s element, ?_,
    fun he d vr0 vr1 len X p eof => read_metadata_text fuel d element vr0 vr1 len X p eof he,
    read_metadata_undefined fuel s element,
    data_set_loop_metadata_branch fuel s element⟩
  intro hf ht
  obtain ⟨a, ha⟩ := run_ret_of_ne _ (read_metadata_defined fuel s element ht)
    (read_metadata_total fuel s element hf)
  obtain ⟨r, s1⟩ := a
  have h0 := (read_metadata_keeps fuel s element r s1 ha).1
  subst h0
  exact ⟨s1, ha⟩

/-- Witness of C22. In implicit little-endian style the text field
(0x0028,0x0030) with the declared length 1025 and 1025 bytes of value: the
copy overruns `char data[1024]`, the call does not return 0. Nor does a run
of `dicom_read_header` on a file that holds, in explicit little-endian style,
the element (0x0028,0x0034) with VR "IS" and 1100 bytes of value. The same
text field with the value "1\1" of 3 bytes and no NUL is logged past the bytes
copied; with a NUL as its fourth byte it returns 0. The element
(0x0028,0x0010) with the sentinel as its length returns 0, and the data-set
loop goes on after the element (0x0028,0x0010) to the pixel-data tag. -/
theorem C22_text_copy_unchecked_witness :
    dicom_read_metadata 3
        ⟨⟨[1, 4, 0, 0] ++ List.replicate 1025 65, 140, false⟩,
          ⟨0, 0, 0, ⟨"1.2.840.10008.1.2", 0, "none"⟩⟩⟩ 0x0030
      = Run.undefined ∧
    dicom_read_header
        ⟨⟨preamble ++ [2, 0, 0x10, 0, 85, 73, 20, 0] ++ cstr "1.2.840.10008.1.2.1" ++ [0]
            ++ [0x28, 0, 0x34, 0, 73, 83, 76, 4] ++ List.replicate 1100 49
            ++ [0xe0, 0x7f, 0x10, 0], 0, false⟩, ctx0⟩
      = Run.undefined ∧
    dicom_read_metadata 3
        ⟨⟨[3, 0, 0, 0] ++ [49, 92, 49, 9], 140, false⟩,
          ⟨0, 0, 0, ⟨"1.2.840.10008.1.2", 0, "none"⟩⟩⟩ 0x0030
      = Run.undefined ∧
    dicom_read_metadata 3
        ⟨⟨[4, 0, 0, 0] ++ [49, 92, 49, 0, 9], 140, false⟩,
          ⟨0, 0, 0, ⟨"1.2.840.10008.1.2", 0, "none"⟩⟩⟩ 0x0030
      = Run.ret (0, ⟨⟨[9], 148, false⟩, ⟨0, 0, 0, ⟨"1.2.840.10008.1.2", 0, "none"⟩⟩⟩) ∧
    (∃ s1, dicom_read_metadata 20
        ⟨⟨[255, 255, 255, 255, 1, 2, 254, 255, 221, 224, 0, 0, 0, 0], 140, false⟩,
          ⟨0, 0, 0, ⟨"1.2.840.10008.1.2", 0, "none"⟩⟩⟩ 0x0010 = Run.ret (0, s1)) ∧
    data_set_loop 21
        ⟨⟨[2, 0, 0, 0, 0, 2, 0xe0, 0x7f, 0x10, 0, 9], 140, false⟩,
          ⟨0, 0, 0, ⟨"1.2.840.10008.1.2", 0, "none"⟩⟩⟩ 0x0028 0x0010
      = Run.ret (0, ⟨⟨[9], 150, false⟩, ⟨0, 0, 0, ⟨"1.2.840.10008.1.2", 0, "none"⟩⟩⟩) :=
  ⟨((C22_text_copy_unchecked 3 ⟨⟨[], 0, false⟩, ctx0⟩ 0x0030).2.2.2.1 (by decide)
      ⟨0, 0, 0, ⟨"1.2.840.10008.1.2", 0, "none"⟩⟩ 0 0 1025 (List.replicate 1025 65) 140
      false).trans (by decide),
    by decide,
    ((C22_text_copy_unchecked 3 ⟨⟨[], 0, false⟩, ctx0⟩ 0x0030).2.2.2.1 (by decide)
      ⟨0, 0, 0, ⟨"1.2.840.10008.1.2", 0, "none"⟩⟩ 0 0 3 [49, 92, 49, 9] 140
      false).trans (by decide),
    ((C22_text_copy_unchecked 3 ⟨⟨[], 0, false⟩, ctx0⟩ 0x0030).2.2.2.1 (by decide)
      ⟨0, 0, 0, ⟨"1.2.840.10008.1.2", 0, "none"⟩⟩ 0 0 4 [49, 92, 49, 0, 9] 140
      false).trans (by decide),
    (C22_text_copy_unchecked 20
      ⟨⟨[255, 255, 255, 255, 1, 2, 254, 255, 221, 224, 0, 0, 0, 0], 140, false⟩,
        ⟨0, 0, 0, ⟨"1.2.840.10008.1.2", 0, "none"⟩⟩⟩ 0x0010).2.2.1
      (by decide) (by decide),
    ((C22_text_copy_unchecked 20
      ⟨⟨[2, 0, 0, 0, 0, 2, 0xe0, 0x7f, 0x10, 0, 9], 140, false⟩,
        ⟨0, 0, 0, ⟨"1.2.840.10008.1.2", 0, "none"⟩⟩⟩ 0x0010).2.2.2.2.2 (by decide)).trans
      (by decide)⟩

/-! ### Termination -/

theorem forward_pos {a b : AVIOContext} (h : Forward a b) : a.pos ≤ b.pos := by
  obtain ⟨⟨k, _, hp⟩, _⟩ := h
  omega

theorem forward_tag_rl (a : AVIOContext) : Forward a (avio_rl16 (avio_rl16 a).2).2 :=
  forward_trans (forward_rl16 _) (forward_rl16 _)

theorem forward_tag (a : AVIOContext) (d : DICOMContext) :
    Forward a (dicom_r16 (dicom_r16 a d).2 d).2 :=
  forward_trans (forward_dicom_r16 _ _) (forward_dicom_r16 _ _)

theorem file_meta_loop_forward (fuel : Nat) :
    ∀ (s : AVFormatContext) (g e : Nat) (res : Int ⊕ (Nat × Nat)) (s1 : AVFormatContext),
      file_meta_loop fuel s g e = Run.ret (res, s1) → Forward s.pb s1.pb := by
  induction fuel with
  | zero => intro s g e res s1 h; simp [file_meta_loop] at h
  | succ f ih =>
    intro s g e res s1 h
    unfold file_meta_loop at h
    split at h
    · split at h
      · split at h
        · exact absurd h (by simp)
        · exact absurd h (by simp)
        · rename_i err s2 hts
          have hf := (read_transfer_syntax_keeps s err s2 hts).2
          split at h
          · injection h with h; injection h with _ h2; subst h2
            exact hf
          · exact forward_trans hf (forward_trans (forward_tag_rl _) (ih _ _ _ res s1 h))
      · split at h
        · exact absurd h (by simp)
        · exact absurd h (by simp)
        · rename_i r s2 hne
          have hf := (get_next_element_keeps f s r s2 hne).1
          split at h
          · injection h with h; injection h with _ h2; subst h2
            exact hf
          · exact forward_trans hf (forward_trans (forward_tag_rl _) (ih _ _ _ res s1 h))
    · injection h with h; injection h with _ h2; subst h2
      exact forward_refl _

theorem data_set_loop_forward (fuel : Nat) :
    ∀ (s : AVFormatContext) (g e : Nat) (r : Int) (s1 : AVFormatContext),
      data_set_loop fuel s g e = Run.ret (r, s1) → Forward s.pb s1.pb := by
  induction fuel with
  | zero => intro s g e r s1 h; simp [data_set_loop] at h
  | succ f ih =>
    intro s g e r s1 h
    unfold data_set_loop at h
    split at h
    · split at h
      · split at h
        · exact absurd h (by simp)
        · exact absurd h (by simp)
        · rename_i err s2 hmd
          have hf := (read_metadata_keeps f s e err s2 hmd).2.1
          split at h
          · injection h with h; injection h with _ h2; subst h2
            exact hf
          · exact forward_trans hf (forward_trans (forward_tag _ _) (ih _ _ _ r s1 h))
      · split at h
        · injection h with h; injection h with _ h2; subst h2
          exact forward_refl _
        · split at h
          · exact absurd h (by simp)
          · exact absurd h (by simp)
          · rename_i r2 s2 hne
            have hf := (get_next_element_keeps f s r2 s2 hne).1
            split at h
            · injection h with h; injection h with _ h2; subst h2
              exact hf
            · exact forward_trans hf (forward_trans (forward_tag _ _) (ih _ _ _ r s1 h))
    · injection h with h; injection h with _ h2; subst h2
      exact forward_refl _

theorem after_file_meta_forward (fuel : Nat) (res : Int ⊕ (Nat × Nat)) (s2 : AVFormatContext)
    (r : Int) (s1 : AVFormatContext)
    (h : after_file_meta fuel (Run.ret (res, s2)) = Run.ret (r, s1)) :
    Forward s2.pb s1.pb := by
  cases res with
  | inl err =>
    simp only [after_file_meta] at h
    injection h with h; injection h with _ h2; subst h2
    exact forward_refl _
  | inr tag =>
    obtain ⟨g, e⟩ := tag
    simp only [after_file_meta] at h
    split at h
    · have hf := data_set_loop_forward fuel _ _ _ r s1 h
      exact hf
    · have hf := data_set_loop_forward fuel _ _ _ r s1 h
      exact hf

theorem read_header_forward (s : AVFormatContext) (r : Int) (s1 : AVFormatContext)
    (h : dicom_read_header s = Run.ret (r, s1)) : Forward s.pb s1.pb := by
  unfold dicom_read_header at h
  rw [read_header_fuel_eq] at h
  unfold file_meta_next at h
  dsimp only at h
  have hpre : Forward s.pb (avio_rl16 (avio_rl16 (avio_skip s.pb 0x84).2).2).2 :=
    forward_trans (forward_skip _ _) (forward_tag_rl _)
  generalize s.pb.buf.length + 2 = fuel at h
  generalize (avio_rl16 (avio_rl16 (avio_skip s.pb 0x84).2).2).2 = pb at h hpre
  generalize (avio_rl16 (avio_skip s.pb 0x84).2).1 = g at h
  generalize (avio_rl16 (avio_rl16 (avio_skip s.pb 0x84).2).2).1 = e at h
  cases hfm : file_meta_loop fuel
      ⟨pb, ⟨DICOM_ENDIAN_LE, DICOM_VR_EXPLICIT, DICOM_COMPRESSION_NONE, s.priv_data.syntax_⟩⟩
      g e with
  | undefined => rw [hfm] at h; simp [after_file_meta] at h
  | timeout => rw [hfm] at h; simp [after_file_meta] at h
  | ret y =>
    obtain ⟨res, s2⟩ := y
    rw [hfm] at h
    have h1 := file_meta_loop_forward fuel _ g e res s2 hfm
    have h2 := after_file_meta_forward fuel res s2 r s1 h
    exact forward_trans hpre (forward_trans h1 h2)

theorem avio_r8_lt (a : AVIOContext) : (avio_r8 a).1 < 256 := by
  unfold avio_r8
  split
  · simp
  · simp only; omega

theorem avio_rl16_lt (a : AVIOContext) : (avio_rl16 a).1 < 65536 := by
  have h0 := avio_r8_lt a
  have h1 := avio_r8_lt (avio_r8 a).2
  simp only [avio_rl16]
  omega

theorem avio_rb16_lt (a : AVIOContext) : (avio_rb16 a).1 < 65536 := by
  have h0 := avio_r8_lt a
  have h1 := avio_r8_lt (avio_r8 a).2
  simp only [avio_rb16]
  omega

theorem dicom_r16_lt (a : AVIOContext) (d : DICOMContext) : (dicom_r16 a d).1 < 65536 := by
  unfold dicom_r16
  split
  · exact avio_rb16_lt a
  · exact avio_rl16_lt a

theorem dicom_r32_lt (a : AVIOContext) (d : DICOMContext) :
    (dicom_r32 a d).1 < 4294967296 := by
  unfold dicom_r32
  split
  · have h0 := avio_rb16_lt a
    have h1 := avio_rb16_lt (avio_rb16 a).2
    simp only [avio_rb32]
    omega
  · have h0 := avio_rl16_lt a
    have h1 := avio_rl16_lt (avio_rl16 a).2
    simp only [avio_rl32]
    omega

theorem read_element_length_lt (s : AVFormatContext) (vl : Nat) (s1 : AVFormatContext)
    (h : dicom_read_element_length s = Run.ret (vl, s1)) : vl < 4294967296 := by
  unfold dicom_read_element_length at h
  dsimp only at h
  split at h
  · split at h
    · split at h
      · injection h with h; injection h with h1 _; subst h1
        have := dicom_r16_lt (avio_read s.pb 2).2 s.priv_data
        omega
      · injection h with h; injection h with h1 _; subst h1
        exact dicom_r32_lt _ _
    · injection h with h; injection h with h1 _; subst h1
      have := dicom_r16_lt (avio_read s.pb 2).2 s.priv_data
      omega
  · injection h with h; injection h with h1 _; subst h1
    exact dicom_r32_lt _ _

/-- C24: the stream cursor never moves backward. Each of
`dicom_read_transfer_syntax`, `dicom_read_element_length`,
`dicom_get_next_element`, `dicom_nested_data`, `dicom_read_metadata` and
`dicom_read_header`, when it returns, leaves the byte source moved forward:
the unread bytes are those on entry without the first `k`, the position is
`k` further, so it is at least the position on entry. The length that
`dicom_read_element_length` returns, the amount of a skip, is below 2^32.
`dicom_read_header` does not run out of fuel, nor do the others with fuel
above the number of bytes left. -/
theorem C24_cursor_never_moves_backward (fuel : Nat) (s : AVFormatContext) (element : Nat) :
    (∀ r s1, dicom_read_transfer_syntax s = Run.ret (r, s1) →
      Forward s.pb s1.pb ∧ s.pb.pos ≤ s1.pb.pos) ∧
    (∀ vl s1, dicom_read_element_length s = Run.ret (vl, s1) →
      Forward s.pb s1.pb ∧ s.pb.pos ≤ s1.pb.pos ∧ vl < 4294967296) ∧
    (∀ r s1, dicom_get_next_element fuel s = Run.ret (r, s1) →
      Forward s.pb s1.pb ∧ s.pb.pos ≤ s1.pb.pos) ∧
    (∀ r s1, dicom_nested_data fuel s = Run.ret (r, s1) →
      Forward s.pb s1.pb ∧ s.pb.pos ≤ s1.pb.pos) ∧
    (∀ r s1, dicom_read_metadata fuel s element = Run.ret (r, s1) →
      Forward s.pb s1.pb ∧ s.pb.pos ≤ s1.pb.pos) ∧
    (∀ r s1, dicom_read_header s = Run.ret (r, s1) →
      Forward s.pb s1.pb ∧ s.pb.pos ≤ s1.pb.pos) ∧
    dicom_read_header s ≠ Run.timeout ∧
    (remaining s.pb < fuel →
      dicom_read_transfer_syntax s ≠ Run.timeout ∧
      dicom_read_element_length s ≠ Run.timeout ∧
      dicom_get_next_element fuel s ≠ Run.timeout ∧
      dicom_nested_data fuel s ≠ Run.timeout ∧
      dicom_read_metadata fuel s element ≠ Run.timeout) := by
  refine ⟨fun r s1 h => ?_, fun vl s1 h => ?_, fun r s1 h => ?_, fun r s1 h => ?_,
    fun r s1 h => ?_, fun r s1 h => ?_, (read_header_spec s).1, fun hf => ?_⟩
  · have hf := (read_transfer_syntax_keeps s r s1 h).2
    exact ⟨hf, forward_pos hf⟩
  · have hf := (read_element_length_keeps s vl s1 h).1
    exact ⟨hf, forward_pos hf, read_element_length_lt s vl s1 h⟩
  · have hf := (get_next_element_keeps fuel s r s1 h).1
    exact ⟨hf, forward_pos hf⟩
  · have hf := (nested_data_keeps fuel s r s1 h).1
    exact ⟨hf, forward_pos hf⟩
  · have hf := (read_metadata_keeps fuel s element r s1 h).2.1
    exact ⟨hf, forward_pos hf⟩
  · have hf := read_header_forward s r s1 h
    exact ⟨hf, forward_pos hf⟩
  · exact ⟨read_transfer_syntax_total s, read_element_length_total s,
      get_next_element_total fuel s hf, nested_data_total fuel s hf,
      read_metadata_total fuel s element hf⟩

/-- Witness of C24: scenario 1 of the specification, from position 0 to
position 164; `dicom_read_element_length` on the header of the pixel-data
element, from 164 to 172 with the length 10; `dicom_get_next_element` on an
element whose declared length, 300, exceeds the 2 bytes left, from 164 to
468. -/
theorem C24_cursor_never_moves_backward_witness :
    (Forward
        ⟨preamble ++ [2, 0, 0x10, 0, 85, 73, 20, 0] ++ cstr "1.2.840.10008.1.2.1" ++ [0]
          ++ [0xe0, 0x7f, 0x10, 0] ++ [79, 87, 0, 0, 10, 0, 0, 0]
          ++ [1, 2, 3, 4, 5, 6, 7, 8, 9, 10], 0, false⟩
        ⟨[79, 87, 0, 0, 10, 0, 0, 0, 1, 2, 3, 4, 5, 6, 7, 8, 9, 10], 164, false⟩ ∧
      0 ≤ 164) ∧
    (Forward ⟨[79, 87, 0, 0, 10, 0, 0, 0, 1, 2, 3, 4, 5, 6, 7, 8, 9, 10], 164, false⟩
        ⟨[1, 2, 3, 4, 5, 6, 7, 8, 9, 10], 172, false⟩ ∧
      164 ≤ 172 ∧ 10 < 4294967296) ∧
    (Forward ⟨[85, 83, 44, 1, 1, 2], 164, false⟩ ⟨[], 468, false⟩ ∧ 164 ≤ 468) :=
  ⟨(C24_cursor_never_moves_backward 0
      ⟨⟨preamble ++ [2, 0, 0x10, 0, 85, 73, 20, 0] ++ cstr "1.2.840.10008.1.2.1" ++ [0]
          ++ [0xe0, 0x7f, 0x10, 0] ++ [79, 87, 0, 0, 10, 0, 0, 0]
          ++ [1, 2, 3, 4, 5, 6, 7, 8, 9, 10], 0, false⟩, ctx0⟩ 0).2.2.2.2.2.1 0
      ⟨⟨[79, 87, 0, 0, 10, 0, 0, 0, 1, 2, 3, 4, 5, 6, 7, 8, 9, 10], 164, false⟩,
        ⟨0, 1, 0, ⟨"1.2.840.10008.1.2.1", 1, "none"⟩⟩⟩ (by decide),
    (C24_cursor_never_moves_backward 0
      ⟨⟨[79, 87, 0, 0, 10, 0, 0, 0, 1, 2, 3, 4, 5, 6, 7, 8, 9, 10], 164, false⟩,
        default_mode ctx0.syntax_⟩ 0).2.1 10
      ⟨⟨[1, 2, 3, 4, 5, 6, 7, 8, 9, 10], 172, false⟩, default_mode ctx0.syntax_⟩ (by decide),
    (C24_cursor_never_moves_backward 5
      ⟨⟨[85, 83, 44, 1, 1, 2], 164, false⟩, default_mode ctx0.syntax_⟩ 0).2.2.1 468
      ⟨⟨[], 468, false⟩, default_mode ctx0.syntax_⟩ (by decide)⟩

/-! ### The probe -/

theorem probe_magic (p : AVProbeData) (h : 132 ≤ p.buf.length) :
    dicom_probe p
      = if ((p.buf.drop 128).take 4).map (fun b => b % 256) = [68, 73, 67, 77]
        then Run.ret AVPROBE_SCORE_MAX else Run.ret 0 := by
  have hc : cstr "DICM" = [68, 73, 67, 77] := by decide
  unfold dicom_probe
  rw [if_neg (by omega), hc]
  by_cases hm : ((p.buf.drop 128).take 4).map (fun b => b % 256) = [68, 73, 67, 77]
  · rw [if_neg (not_not.2 hm), if_pos hm]
  · rw [if_pos hm, if_neg hm]

/-- C25: for every probe buffer of at least 132 bytes, `dicom_probe` returns
`AVPROBE_SCORE_MAX` if and only if the bytes 128 to 131 are 'D', 'I', 'C',
'M' (68, 73, 67, 77), and returns 0 otherwise; the two values differ. No other
byte of the buffer affects the result: two buffers of at least 132 bytes with
the same bytes 128 to 131 give the same result. -/
theorem C25_probe_magic (p q : AVProbeData) (hp : 132 ≤ p.buf.length) :
    dicom_probe p
      = (if ((p.buf.drop 128).take 4).map (fun b => b % 256) = cstr "DICM"
        then Run.ret AVPROBE_SCORE_MAX else Run.ret 0) ∧
    (dicom_probe p = Run.ret AVPROBE_SCORE_MAX
      ↔ ((p.buf.drop 128).take 4).map (fun b => b % 256) = [68, 73, 67, 77]) ∧
    (dicom_probe p ≠ Run.ret AVPROBE_SCORE_MAX → dicom_probe p = Run.ret 0) ∧
    AVPROBE_SCORE_MAX ≠ 0 ∧
    (132 ≤ q.buf.length → (q.buf.drop 128).take 4 = (p.buf.drop 128).take 4 →
      dicom_probe q = dicom_probe p) := by
  have hc : cstr "DICM" = [68, 73, 67, 77] := by decide
  have hmax : (Run.ret AVPROBE_SCORE_MAX : Run Int) ≠ Run.ret 0 := by decide
  have h := probe_magic p hp
  refine ⟨by rw [hc]; exact h, ?_, ?_, by decide, ?_⟩
  · rw [h]
    constructor
    · intro h1
      by_contra hne
      rw [if_neg hne] at h1
      exact hmax h1.symm
    · intro h1
      rw [if_pos h1]
  · intro h1
    rw [h] at h1 ⊢
    split
    · rename_i hm
      rw [if_pos hm] at h1
      exact absurd rfl h1
    · rfl
  · intro hq heq
    rw [h, probe_magic q hq, heq]

/-- Witness of C25: a buffer of 128 zeros, the magic and two more bytes gives
`AVPROBE_SCORE_MAX`, and so does a buffer that differs from it in every byte
but the magic; a buffer with "DICN" at offset 128 gives 0. -/
theorem C25_probe_magic_witness :
    dicom_probe ⟨List.replicate 128 0 ++ [68, 73, 67, 77, 1, 2]⟩ = Run.ret AVPROBE_SCORE_MAX ∧
    dicom_probe ⟨List.replicate 128 9 ++ [68, 73, 67, 77, 5, 6, 7]⟩
      = dicom_probe ⟨List.replicate 128 0 ++ [68, 73, 67, 77, 1, 2]⟩ ∧
    dicom_probe ⟨List.replicate 128 0 ++ [68, 73, 67, 78, 1, 2]⟩ = Run.ret 0 :=
  ⟨(C25_probe_magic ⟨List.replicate 128 0 ++ [68, 73, 67, 77, 1, 2]⟩ ⟨[]⟩ (by decide)).2.1.2
      (by decide),
    (C25_probe_magic ⟨List.replicate 128 0 ++ [68, 73, 67, 77, 1, 2]⟩
      ⟨List.replicate 128 9 ++ [68, 73, 67, 77, 5, 6, 7]⟩ (by decide)).2.2.2.2
      (by decide) (by decide),
    (C25_probe_magic ⟨List.replicate 128 0 ++ [68, 73, 67, 78, 1, 2]⟩ ⟨[]⟩ (by decide)).2.2.1
      (by decide)⟩

end Dicom
